import Mathlib

/-!
# Menu manager (api-server.js): ingredient-to-menu-item availability synchronisation

A shallow embedding of `UberEatsMenuManager` (src/api-server.js).

* The SQLite database is a record of its four tables, each a list of rows in
  storage order.
* The two external effects of the apply loop, the HTTP call to the delivery
  platform and the SQLite statements, may fail.  Their outcomes and the clock are
  supplied by an `Env`, indexed by the loop iteration.
* Every awaited call of `updateItemAvailability` and of `updateLocalItemStatus`
  is recorded, in order, in the `events` trace of the `World`.
-/

namespace Menu

/-! ## Tables (scripts/setup-database.js, scripts/migrate-to-drinks-toppings.js) -/

/-- Row of `menu_items`.  `item_type` is nullable TEXT, `is_available` is a
BOOLEAN column, which SQLite stores as an integer. -/
structure MenuItem where
  id : Nat
  uber_item_id : String
  name : String
  item_type : Option String
  is_available : Int
  updated_at : String
deriving DecidableEq, Repr

/-- Row of `ingredients`. -/
structure Ingredient where
  id : Nat
  name : String
deriving DecidableEq, Repr

/-- Row of `item_ingredients`. -/
structure ItemIngredient where
  menu_item_id : Nat
  ingredient_id : Nat
deriving DecidableEq, Repr

/-- Row of `action_logs`. -/
structure ActionLog where
  action : String
  ingredient : String
  user : String
  affected_items : String
  timestamp : String
deriving DecidableEq, Repr

/-- The database `this.db`. -/
structure Store where
  menu_items : List MenuItem
  ingredients : List Ingredient
  item_ingredients : List ItemIngredient
  action_logs : List ActionLog
deriving DecidableEq, Repr

/-- Row returned by the query of `getMenuItemsByIngredient`:
`mi.*, i.name as ingredient_name`. -/
structure ResolvedItem where
  id : Nat
  uber_item_id : String
  name : String
  item_type : Option String
  is_available : Int
  updated_at : String
  ingredient_name : String
deriving DecidableEq, Repr

/-- The object `{ drinks: [], toppings: [] }` filled by the apply loops. -/
structure ItemNames where
  drinks : List String
  toppings : List String
deriving DecidableEq, Repr

/-! ## Effects -/

/-- One awaited external call of the apply loop, with its arguments and whether
it resolved (`ok = true`) or rejected. -/
inductive Event where
  | gatewayCall (uber_item_id : String) (isAvailable : Bool) (ok : Bool)
  | localWrite (uber_item_id : String) (isAvailable : Bool) (ok : Bool)
deriving DecidableEq, Repr

/-- The database together with the trace of external calls made so far
(oldest first). -/
structure World where
  db : Store
  events : List Event
deriving DecidableEq, Repr

/-- What the outside world does during one invocation: whether the SELECT of
`getMenuItemsByIngredient` resolves, whether the gateway call and the UPDATE of
loop iteration `k` resolve, what `new Date().toISOString()` reads there, and the
same for the INSERT of `logAction`. -/
structure Env where
  selectOk : Bool
  gatewayOk : Nat → Bool
  updateOk : Nat → Bool
  now : Nat → String
  insertOk : Bool
  logNow : String
  dbError : String
  gatewayError : String

/-! ## Queries -/

/-- SQLite's built-in `LOWER`, which folds the ASCII letters only. -/
def LOWER (s : String) : String := String.mk (s.data.map Char.toLower)

/-- The query of `getMenuItemsByIngredient`, read as the nested loop it is
written as: `menu_items mi JOIN item_ingredients ii ON mi.id = ii.menu_item_id
JOIN ingredients i ON ii.ingredient_id = i.id WHERE LOWER(i.name) = LOWER(?)`. -/
def selectByIngredient (s : Store) (ingredient : String) : List ResolvedItem :=
  s.menu_items.flatMap fun mi =>
    (s.item_ingredients.filter fun ii => mi.id == ii.menu_item_id).flatMap fun ii =>
      ((s.ingredients.filter fun i => ii.ingredient_id == i.id).filter
          fun i => LOWER i.name == LOWER ingredient).map fun i =>
        { id := mi.id, uber_item_id := mi.uber_item_id, name := mi.name,
          item_type := mi.item_type, is_available := mi.is_available,
          updated_at := mi.updated_at, ingredient_name := i.name }

/-- Code of `getMenuItemsByIngredient`: `await this.db.all(query, [ingredient])`. -/
def getMenuItemsByIngredient (env : Env) (ingredient : String) (w : World) :
    Except String (List ResolvedItem) :=
  if env.selectOk then .ok (selectByIngredient w.db ingredient) else .error env.dbError

/-- Code of `updateItemAvailability` as seen by its callers: the request is sent
and the call either resolves or throws. -/
def updateItemAvailability (env : Env) (k : Nat) (uberItemId : String) (isAvailable : Bool)
    (w : World) : Except String Unit × World :=
  let w1 := { w with events := w.events ++ [Event.gatewayCall uberItemId isAvailable (env.gatewayOk k)] }
  if env.gatewayOk k then (.ok (), w1) else (.error env.gatewayError, w1)

/-- The statement `UPDATE menu_items SET is_available = ?, updated_at = ? WHERE
uber_item_id = ?`. -/
def updateMenuItems (items : List MenuItem) (isAvailable : Int) (updatedAt : String)
    (uberItemId : String) : List MenuItem :=
  items.map fun m =>
    if m.uber_item_id == uberItemId then
      { m with is_available := isAvailable, updated_at := updatedAt }
    else m

/-- Code of `updateLocalItemStatus`: the UPDATE is run with `isAvailable ? 1 : 0`
and the current time; a rejected `db.run` leaves the table as it was. -/
def updateLocalItemStatus (env : Env) (k : Nat) (uberItemId : String) (isAvailable : Bool)
    (w : World) : Except String Unit × World :=
  let evs := w.events ++ [Event.localWrite uberItemId isAvailable (env.updateOk k)]
  if env.updateOk k then
    let rows := updateMenuItems w.db.menu_items (if isAvailable then 1 else 0) (env.now k) uberItemId
    (.ok (), { db := { w.db with menu_items := rows }, events := evs })
  else (.error env.dbError, { w with events := evs })

/-! ## The apply operations -/

/-- Loop body of `removeIngredientFromMenu`, iterations `k, k+1, ...` over the
remaining `menuItems`. -/
def removeLoop (env : Env) : List ResolvedItem → Nat → World → ItemNames → World × ItemNames
  | [], _, w, affectedItems => (w, affectedItems)
  | item :: rest, k, w, affectedItems =>
    match updateItemAvailability env k item.uber_item_id false w with
    | (.error _, w1) => removeLoop env rest (k + 1) w1 affectedItems
    | (.ok _, w1) =>
      match updateLocalItemStatus env k item.uber_item_id false w1 with
      | (.error _, w2) => removeLoop env rest (k + 1) w2 affectedItems
      | (.ok _, w2) =>
        if item.item_type = some "topping" then
          removeLoop env rest (k + 1) w2
            { affectedItems with toppings := affectedItems.toppings ++ [item.name] }
        else
          removeLoop env rest (k + 1) w2
            { affectedItems with drinks := affectedItems.drinks ++ [item.name] }

/-- Message of the error thrown when the ingredient resolves to no item. -/
def notFoundMessage (ingredient : String) : String :=
  "No menu items found containing \"" ++ ingredient ++ "\""

/-- Code of `removeIngredientFromMenu`. -/
def removeIngredientFromMenu (env : Env) (ingredient : String) (w : World) :
    Except String ItemNames × World :=
  match getMenuItemsByIngredient env ingredient w with
  | .error e => (.error e, w)
  | .ok menuItems =>
    if menuItems.length = 0 then
      (.error (notFoundMessage ingredient), w)
    else
      let r := removeLoop env menuItems 0 w { drinks := [], toppings := [] }
      (.ok r.2, r.1)

/-- Loop body of `restoreIngredientToMenu`. -/
def restoreLoop (env : Env) : List ResolvedItem → Nat → World → ItemNames → World × ItemNames
  | [], _, w, restoredItems => (w, restoredItems)
  | item :: rest, k, w, restoredItems =>
    match updateItemAvailability env k item.uber_item_id true w with
    | (.error _, w1) => restoreLoop env rest (k + 1) w1 restoredItems
    | (.ok _, w1) =>
      match updateLocalItemStatus env k item.uber_item_id true w1 with
      | (.error _, w2) => restoreLoop env rest (k + 1) w2 restoredItems
      | (.ok _, w2) =>
        if item.item_type = some "topping" then
          restoreLoop env rest (k + 1) w2
            { restoredItems with toppings := restoredItems.toppings ++ [item.name] }
        else
          restoreLoop env rest (k + 1) w2
            { restoredItems with drinks := restoredItems.drinks ++ [item.name] }

/-- Code of `restoreIngredientToMenu`. -/
def restoreIngredientToMenu (env : Env) (ingredient : String) (w : World) :
    Except String ItemNames × World :=
  match getMenuItemsByIngredient env ingredient w with
  | .error e => (.error e, w)
  | .ok menuItems =>
    if menuItems.length = 0 then
      (.error (notFoundMessage ingredient), w)
    else
      let r := restoreLoop env menuItems 0 w { drinks := [], toppings := [] }
      (.ok r.2, r.1)

/-! ## Audit log -/

/-- Digit `d < 16` as a lower-case hexadecimal character. -/
def hexDigit (d : Nat) : Char :=
  if d < 10 then Char.ofNat (48 + d) else Char.ofNat (87 + d)

/-- How `JSON.stringify` writes one character inside a string: the quote (34) and
the backslash (92) are escaped, the control characters are written by their short
escape or as a four-digit code. -/
def jsonEscapeChar (c : Char) : List Char :=
  if c.toNat = 34 then [Char.ofNat 92, Char.ofNat 34]
  else if c.toNat = 92 then [Char.ofNat 92, Char.ofNat 92]
  else if c.toNat = 8 then [Char.ofNat 92, 'b']
  else if c.toNat = 12 then [Char.ofNat 92, 'f']
  else if c.toNat = 10 then [Char.ofNat 92, 'n']
  else if c.toNat = 13 then [Char.ofNat 92, 'r']
  else if c.toNat = 9 then [Char.ofNat 92, 't']
  else if c.toNat < 32 then
    [Char.ofNat 92, 'u', '0', '0', hexDigit (c.toNat / 16), hexDigit (c.toNat % 16)]
  else [c]

/-- A string as `JSON.stringify` writes it. -/
def jsonString (s : String) : List Char :=
  Char.ofNat 34 :: (s.data.flatMap jsonEscapeChar ++ [Char.ofNat 34])

/-- An array of strings as `JSON.stringify` writes it. -/
def jsonArray (xs : List String) : List Char :=
  '[' :: ((xs.map jsonString).intersperse [','] ).flatten ++ [']']

/-- The call `JSON.stringify(affectedItems)` on an object with the keys `drinks`
and `toppings`, in that order. -/
def JSON_stringify (affectedItems : ItemNames) : String :=
  String.mk (Char.ofNat 123 :: ("\"drinks\":".data ++ jsonArray affectedItems.drinks
    ++ ",\"toppings\":".data ++ jsonArray affectedItems.toppings ++ [Char.ofNat 125]))

/-- The expression `user || 'unknown'`: an absent and an empty user are falsy. -/
def userOrUnknown (user : Option String) : String :=
  match user with
  | none => "unknown"
  | some u => if u = "" then "unknown" else u

/-- Code of `logAction`: one INSERT into `action_logs`; a rejected `db.run` adds
no row. -/
def logAction (env : Env) (action ingredient : String) (user : Option String)
    (affectedItems : ItemNames) (w : World) : Except String Unit × World :=
  if env.insertOk then
    let row : ActionLog :=
      { action := action, ingredient := ingredient, user := userOrUnknown user,
        affected_items := JSON_stringify affectedItems, timestamp := env.logNow }
    (.ok (), { w with db := { w.db with action_logs := w.db.action_logs ++ [row] } })
  else (.error env.dbError, w)

/-! ## Routes -/

/-- The fields `ingredient` and `user` read from `req.body`. -/
structure ApplyRequest where
  ingredient : Option String
  user : Option String
deriving DecidableEq, Repr

/-- What a route answers: the success object, whose items are carried under the
key `itemsKey`, or a status code with `error` and, for status 500, `details`. -/
inductive Response where
  | success (ingredient : String) (itemsKey : String) (items : ItemNames) (message : String)
  | failure (status : Nat) (error : String) (details : Option String)
deriving DecidableEq, Repr

/-- Handler of `POST /api/86`. -/
def post86 (env : Env) (req : ApplyRequest) (w : World) : Response × World :=
  match req.ingredient with
  | none => (.failure 400 "Ingredient is required" none, w)
  | some ingredient =>
    if ingredient = "" then (.failure 400 "Ingredient is required" none, w)
    else
      match removeIngredientFromMenu env ingredient w with
      | (.error e, w1) => (.failure 500 "Failed to remove ingredient from menu" (some e), w1)
      | (.ok affectedItems, w1) =>
        match logAction env "86" ingredient req.user affectedItems w1 with
        | (.error e, w2) => (.failure 500 "Failed to remove ingredient from menu" (some e), w2)
        | (.ok _, w2) =>
          (.success ingredient "affectedItems" affectedItems
            ("Successfully removed " ++ ingredient ++ " from menu"), w2)

/-- Handler of `POST /api/restore`. -/
def postRestore (env : Env) (req : ApplyRequest) (w : World) : Response × World :=
  match req.ingredient with
  | none => (.failure 400 "Ingredient is required" none, w)
  | some ingredient =>
    if ingredient = "" then (.failure 400 "Ingredient is required" none, w)
    else
      match restoreIngredientToMenu env ingredient w with
      | (.error e, w1) => (.failure 500 "Failed to restore ingredient to menu" (some e), w1)
      | (.ok restoredItems, w1) =>
        match logAction env "restore" ingredient req.user restoredItems w1 with
        | (.error e, w2) => (.failure 500 "Failed to restore ingredient to menu" (some e), w2)
        | (.ok _, w2) =>
          (.success ingredient "restoredItems" restoredItems
            ("Successfully restored " ++ ingredient ++ " to menu"), w2)

/-! ## Overall status -/

/-- Row of the aggregate query of `getOverallMenuStatus`. -/
structure StatusRow where
  item_type : Option String
  total_items : Nat
  available_count : Nat
  out_of_stock_count : Nat
deriving DecidableEq, Repr

/-- The object `{ total, available, outOfStock }`. -/
structure Counts where
  total : Nat
  available : Nat
  outOfStock : Nat
deriving DecidableEq, Repr

/-- The object returned by `getOverallMenuStatus`. -/
structure MenuStatus where
  drinks : Counts
  toppings : Counts
deriving DecidableEq, Repr

/-- The distinct values of `item_type`, one per group of `GROUP BY item_type`
(NULL is a group of its own), in order of first appearance. -/
def groupTypes : List MenuItem → List (Option String)
  | [] => []
  | m :: rest => m.item_type :: (groupTypes rest).filter fun t => t != m.item_type

/-- The aggregate query `SELECT item_type, COUNT(*), SUM(CASE WHEN is_available = 1
THEN 1 ELSE 0 END), SUM(CASE WHEN is_available = 0 THEN 1 ELSE 0 END) FROM menu_items
GROUP BY item_type`. -/
def selectStatusRows (s : Store) : List StatusRow :=
  (groupTypes s.menu_items).map fun t =>
    let g := s.menu_items.filter fun m => m.item_type == t
    { item_type := t,
      total_items := g.length,
      available_count := (g.map fun m => if m.is_available = 1 then 1 else 0).sum,
      out_of_stock_count := (g.map fun m => if m.is_available = 0 then 1 else 0).sum }

/-- The `results.forEach` of `getOverallMenuStatus`: each row overwrites the entry
of its bucket. -/
def fillStatus (results : List StatusRow) : MenuStatus :=
  results.foldl
    (fun status row =>
      let counts : Counts :=
        { total := row.total_items, available := row.available_count,
          outOfStock := row.out_of_stock_count }
      if row.item_type = some "topping" then { status with toppings := counts }
      else { status with drinks := counts })
    { drinks := { total := 0, available := 0, outOfStock := 0 },
      toppings := { total := 0, available := 0, outOfStock := 0 } }

/-- Code of `getOverallMenuStatus`. -/
def getOverallMenuStatus (env : Env) (w : World) : Except String MenuStatus :=
  if env.selectOk then .ok (fillStatus (selectStatusRows w.db)) else .error env.dbError

/-! ## Sequences of operations -/

/-- One invocation of an apply operation, directly or through its route, with the
behaviour of the outside world during it. -/
inductive Op where
  | remove (env : Env) (ingredient : String)
  | restore (env : Env) (ingredient : String)
  | route86 (env : Env) (req : ApplyRequest)
  | routeRestore (env : Env) (req : ApplyRequest)

/-- The world after one operation. -/
def Op.run : Op → World → World
  | .remove env ingredient, w => (removeIngredientFromMenu env ingredient w).2
  | .restore env ingredient, w => (restoreIngredientToMenu env ingredient w).2
  | .route86 env req, w => (post86 env req w).2
  | .routeRestore env req, w => (postRestore env req w).2

/-- The world after a sequence of operations, run one after the other. -/
def runOps (ops : List Op) (w : World) : World :=
  ops.foldl (fun acc op => op.run acc) w

/-! ## Status of an ingredient -/

/-- The object `{ available, outOfStock }` returned by `getIngredientStatus`. -/
structure IngredientStatus where
  available : ItemNames
  outOfStock : ItemNames
deriving DecidableEq, Repr

/-- The `menuItems.forEach` of `getIngredientStatus`: the name of each row is pushed
to the list of its category (`toppings` for a topping, `drinks` otherwise) in
`available` when `item.is_available` is truthy, that is non-zero, and in
`outOfStock` otherwise. -/
def partitionByAvailability (menuItems : List ResolvedItem) : IngredientStatus :=
  menuItems.foldl
    (fun st item =>
      if item.item_type = some "topping" then
        if item.is_available ≠ 0 then
          { st with available := { st.available with
              toppings := st.available.toppings ++ [item.name] } }
        else
          { st with outOfStock := { st.outOfStock with
              toppings := st.outOfStock.toppings ++ [item.name] } }
      else
        if item.is_available ≠ 0 then
          { st with available := { st.available with
              drinks := st.available.drinks ++ [item.name] } }
        else
          { st with outOfStock := { st.outOfStock with
              drinks := st.outOfStock.drinks ++ [item.name] } })
    { available := { drinks := [], toppings := [] },
      outOfStock := { drinks := [], toppings := [] } }

/-- Code of `getIngredientStatus`. -/
def getIngredientStatus (env : Env) (ingredient : String) (w : World) :
    Except String IngredientStatus :=
  match getMenuItemsByIngredient env ingredient w with
  | .error e => .error e
  | .ok menuItems => .ok (partitionByAvailability menuItems)

/-! ## Listings -/

/-- Order of two texts under SQLite's default collation BINARY: the bytes of the
UTF-8 encodings are compared, which orders as the code points do, a proper
beginning of a text coming before the text. -/
def charsLE : List Char → List Char → Bool
  | [], _ => true
  | _ :: _, [] => false
  | a :: as, b :: bs =>
    if a.toNat < b.toNat then true
    else if b.toNat < a.toNat then false
    else charsLE as bs

/-- The comparison of `ORDER BY name`. -/
def nameLE (a b : String) : Bool := charsLE a.data b.data

/-- The query `SELECT DISTINCT name FROM ingredients ORDER BY name`. -/
def selectDistinctNames (s : Store) : List String :=
  ((s.ingredients.map fun i => i.name).dedup).insertionSort fun a b => nameLE a b = true

/-- Code of `getAvailableIngredients`. -/
def getAvailableIngredients (env : Env) (w : World) : Except String (List String) :=
  if env.selectOk then .ok (selectDistinctNames w.db) else .error env.dbError

/-- The queries of `getMenuItems`: `SELECT * FROM menu_items`, with `WHERE
item_type = ?` when a category is given, `ORDER BY name`.  Rows of equal name are
kept in storage order. -/
def selectMenuItems (s : Store) (category : Option String) : List MenuItem :=
  let rows : List MenuItem :=
    match category with
    | some t => s.menu_items.filter fun m => m.item_type == some t
    | none => s.menu_items
  rows.insertionSort fun a b => nameLE a.name b.name = true

/-- Code of `getMenuItems`: the WHERE clause is added for a truthy `type` that is
one of `drink` and `topping`. -/
def getMenuItems (env : Env) (type : Option String) (w : World) :
    Except String (List MenuItem) :=
  if env.selectOk then
    match type with
    | some t =>
      if t ≠ "" ∧ (t = "drink" ∨ t = "topping") then .ok (selectMenuItems w.db (some t))
      else .ok (selectMenuItems w.db none)
    | none => .ok (selectMenuItems w.db none)
  else .error env.dbError

/-! ## The gateway request -/

/-- The object `this.uberEatsConfig`. -/
structure UberEatsConfig where
  baseURL : String
  storeId : String
  accessToken : String
deriving DecidableEq, Repr

/-- The object `suspension_info` of a suspended item. -/
structure SuspensionInfo where
  reason : String
  suspended_until : Option String
deriving DecidableEq, Repr

/-- The body `requestData`; `suspension_info` is `null` for `none`. -/
structure RequestData where
  item_id : String
  suspension_info : Option SuspensionInfo
deriving DecidableEq, Repr

/-- The arguments of `axios.post`. -/
structure PostRequest where
  url : String
  data : RequestData
  headers : List (String × String)
deriving DecidableEq, Repr

/-- A value that a JSON body holds under a key, as far as the expression
`value || 'Unknown error'` inside a template literal reads it.  A number carries
whether it is zero and the text JavaScript prints it as; an array carries the
text its elements join to. -/
inductive JsonValue where
  | null
  | bool (b : Bool)
  | number (isZero : Bool) (text : String)
  | string (s : String)
  | array (text : String)
  | object
deriving DecidableEq, Repr

/-- The value `error.response.data`, as far as `data.message` reads it: `null` or
`undefined`; any other value without a property `message` (a string, a number, a
boolean, an array, an object that lacks the key); or an object whose `message`
is the given value. -/
inductive ResponseData where
  | nullish
  | withoutMessage
  | withMessage (value : JsonValue)
deriving DecidableEq, Repr

/-- The fields read from `error.response`: `status` and `data`. -/
structure ErrorResponse where
  status : Nat
  data : ResponseData
deriving DecidableEq, Repr

/-- The error that `axios.post` rejects with; `response` is absent when the
failure is at the transport level. -/
structure AxiosError where
  message : String
  response : Option ErrorResponse
deriving DecidableEq, Repr

/-- How `axios.post` settles: with a response, whose `data` is returned, or with
an error. -/
inductive PostOutcome where
  | resolved (data : String)
  | rejected (error : AxiosError)
deriving DecidableEq, Repr

/-- What `updateItemAvailability` throws: a `new Error(message)`, the error it
caught, or the TypeError that reading a property of `null` or `undefined`
raises. -/
inductive Thrown where
  | created (message : String)
  | original (error : AxiosError)
  | typeError
deriving DecidableEq, Repr

/-- The request that `updateItemAvailability` builds. -/
def availabilityRequest (cfg : UberEatsConfig) (uberItemId : String) (isAvailable : Bool) :
    PostRequest :=
  { url := cfg.baseURL ++ "/stores/" ++ cfg.storeId ++ "/menus/items",
    data :=
      { item_id := uberItemId,
        suspension_info :=
          if isAvailable then none
          else some { reason := "OUT_OF_STOCK", suspended_until := none } },
    headers := [("Authorization", "Bearer " ++ cfg.accessToken),
                ("Content-Type", "application/json")] }

/-- Whether a value is truthy: `null`, `false`, zero and the empty string are
not. -/
def JsonValue.truthy : JsonValue → Bool
  | .null => false
  | .bool b => b
  | .number isZero _ => !isZero
  | .string s => s != ""
  | .array _ => true
  | .object => true

/-- The string a template literal puts in place of a value. -/
def JsonValue.text : JsonValue → String
  | .null => "null"
  | .bool b => if b then "true" else "false"
  | .number _ text => text
  | .string s => s
  | .array text => text
  | .object => "[object Object]"

/-- The expression `error.response.data.message`: `none` when reading the
property throws a TypeError, because `data` is `null` or `undefined`; otherwise
the value read, `undefined` being the inner `none`. -/
def readMessage : ResponseData → Option (Option JsonValue)
  | .nullish => none
  | .withoutMessage => some none
  | .withMessage value => some (some value)

/-- The expression `message || 'Unknown error'` as the template literal prints
it. -/
def messageOrUnknown (message : Option JsonValue) : String :=
  match message with
  | none => "Unknown error"
  | some value => if value.truthy then value.text else "Unknown error"

/-- Code of `updateItemAvailability` in full: the request is built and posted by
`axiosPost`; the response body is returned; for an error with a response the
message of the new error is built from `error.response.status` and
`error.response.data.message`, which throws a TypeError when `data` is `null` or
`undefined`, and the new error is thrown; any other error is thrown again. -/
def updateItemAvailabilityCall (cfg : UberEatsConfig) (axiosPost : PostRequest → PostOutcome)
    (uberItemId : String) (isAvailable : Bool) : PostRequest × Except Thrown String :=
  let request := availabilityRequest cfg uberItemId isAvailable
  match axiosPost request with
  | .resolved data => (request, .ok data)
  | .rejected error =>
    match error.response with
    | some response =>
      match readMessage response.data with
      | some message =>
        (request, .error (.created ("UberEats API Error: " ++ toString response.status ++
          " - " ++ messageOrUnknown message)))
      | none => (request, .error .typeError)
    | none => (request, .error (.original error))

/-! ## Every operation of the manager -/

/-- Code of `syncMenuFromUberEats`: the remote menu is fetched and returned, a
failed fetch is thrown again; no statement is sent to the database. -/
def syncMenuFromUberEats (fetch : PostOutcome) (w : World) : Except Thrown String × World :=
  match fetch with
  | .resolved data => (.ok data, w)
  | .rejected error => (.error (.original error), w)

/-- The status operations, with their arguments. -/
inductive StatusOp where
  | getIngredientStatus (ingredient : String)
  | getOverallMenuStatus
  | getAvailableIngredients
  | getMenuItems (type : Option String)
deriving DecidableEq, Repr

/-- What a status operation returns or throws. -/
inductive StatusResult where
  | ingredientStatus (result : Except String IngredientStatus)
  | overallStatus (result : Except String MenuStatus)
  | ingredients (result : Except String (List String))
  | menuItems (result : Except String (List MenuItem))

/-- A status operation run in a world.  Each of the four awaits a single
`this.db.all` with a SELECT and nothing else, so the world it leaves is the one
it found. -/
def StatusOp.run (env : Env) : StatusOp → World → StatusResult × World
  | .getIngredientStatus ingredient, w =>
    (.ingredientStatus (Menu.getIngredientStatus env ingredient w), w)
  | .getOverallMenuStatus, w => (.overallStatus (Menu.getOverallMenuStatus env w), w)
  | .getAvailableIngredients, w => (.ingredients (Menu.getAvailableIngredients env w), w)
  | .getMenuItems type, w => (.menuItems (Menu.getMenuItems env type w), w)

/-- One invocation of any operation of `UberEatsMenuManager` that touches the
database or the gateway: an apply operation, a status operation or the menu
sync. -/
inductive Step where
  | apply (op : Op)
  | status (env : Env) (op : StatusOp)
  | sync (fetch : PostOutcome)

/-- The world after one step. -/
def Step.run : Step → World → World
  | .apply op, w => op.run w
  | .status env op, w => (op.run env w).2
  | .sync fetch, w => (syncMenuFromUberEats fetch w).2

/-- The world after a sequence of steps. -/
def runSteps (steps : List Step) (w : World) : World :=
  steps.foldl (fun acc step => step.run acc) w

/-- The apply operations among the steps, in order. -/
def applySteps (steps : List Step) : List Op :=
  steps.filterMap fun step =>
    match step with
    | .apply op => some op
    | _ => none

/-! ## Provisioning (scripts/setup-database.js) -/

/-- The id that AUTOINCREMENT gives to a new row: one more than the largest id in
the table. -/
def nextId (ids : List Nat) : Nat := ids.foldl max 0 + 1

/-- The database right after the `CREATE TABLE IF NOT EXISTS` statements have run
on a new file. -/
def emptyStore : Store :=
  { menu_items := [], ingredients := [], item_ingredients := [], action_logs := [] }

/-- The statement `INSERT OR IGNORE INTO ingredients (name) VALUES (?)`: the row is
dropped when the name is stored already (`name TEXT UNIQUE`). -/
def insertIngredient (s : Store) (name : String) : Store :=
  if s.ingredients.any fun i => i.name == name then s
  else
    { s with ingredients :=
        s.ingredients ++ [{ id := nextId (s.ingredients.map fun i => i.id), name := name }] }

/-- The statement `INSERT OR IGNORE INTO menu_items (uber_item_id, name,
is_available) VALUES (?, ?, ?)`: the row is dropped when the remote id is stored
already (`uber_item_id TEXT UNIQUE`); the table of this script has no category
column. -/
def insertMenuItem (now : String) (s : Store) (uberItemId name : String) (isAvailable : Int) :
    Store :=
  if s.menu_items.any fun m => m.uber_item_id == uberItemId then s
  else
    { s with menu_items :=
        s.menu_items ++
          [{ id := nextId (s.menu_items.map fun m => m.id), uber_item_id := uberItemId,
             name := name, item_type := none, is_available := isAvailable,
             updated_at := now }] }

/-- The statement `INSERT OR IGNORE INTO item_ingredients (menu_item_id,
ingredient_id) VALUES (?, ?)`.  The table has no constraint but its own
AUTOINCREMENT key, so no row is ever dropped. -/
def insertItemIngredient (s : Store) (menuItemId ingredientId : Nat) : Store :=
  { s with item_ingredients :=
      s.item_ingredients ++ [{ menu_item_id := menuItemId, ingredient_id := ingredientId }] }

/-- The array `ingredients` of `setupDatabase`. -/
def setupIngredients : List String :=
  ["tapioca", "boba", "popping boba", "jelly", "pudding",
   "taro", "matcha", "thai tea", "jasmine tea", "oolong",
   "brown sugar", "honey", "almond", "coconut"]

/-- The array `menuItems` of `setupDatabase`: remote id and name. -/
def setupMenuItems : List (String × String) :=
  [("item_001", "Classic Milk Tea with Tapioca"),
   ("item_002", "Taro Milk Tea with Boba"),
   ("item_003", "Thai Tea Latte with Jelly"),
   ("item_004", "Matcha Latte with Pudding"),
   ("item_005", "Brown Sugar Milk Tea with Tapioca"),
   ("item_006", "Jasmine Green Tea with Popping Boba"),
   ("item_007", "Coconut Milk Tea with Jelly"),
   ("item_008", "Oolong Tea with Honey and Boba"),
   ("item_009", "Almond Milk Tea with Pudding"),
   ("item_010", "Add Tapioca Topping"),
   ("item_011", "Add Boba Topping"),
   ("item_012", "Add Jelly Topping"),
   ("item_013", "Add Pudding Topping"),
   ("item_014", "Add Popping Boba Topping")]

/-- The array `mappings` of `setupDatabase`: item name and ingredient names. -/
def setupMappings : List (String × List String) :=
  [("Classic Milk Tea with Tapioca", ["tapioca"]),
   ("Brown Sugar Milk Tea with Tapioca", ["tapioca", "brown sugar"]),
   ("Add Tapioca Topping", ["tapioca"]),
   ("Taro Milk Tea with Boba", ["boba", "taro"]),
   ("Oolong Tea with Honey and Boba", ["boba", "honey", "oolong"]),
   ("Add Boba Topping", ["boba"]),
   ("Thai Tea Latte with Jelly", ["jelly", "thai tea"]),
   ("Coconut Milk Tea with Jelly", ["jelly", "coconut"]),
   ("Add Jelly Topping", ["jelly"]),
   ("Matcha Latte with Pudding", ["pudding", "matcha"]),
   ("Almond Milk Tea with Pudding", ["pudding", "almond"]),
   ("Add Pudding Topping", ["pudding"]),
   ("Jasmine Green Tea with Popping Boba", ["popping boba", "jasmine tea"]),
   ("Add Popping Boba Topping", ["popping boba"])]

/-- The mapping loop of `setupDatabase` for one entry: the item is looked up by
name and, when found, each ingredient is looked up by name and, when found,
linked. -/
def setupMapping (s : Store) (mapping : String × List String) : Store :=
  match s.menu_items.find? fun m => m.name == mapping.1 with
  | none => s
  | some menuItem =>
    mapping.2.foldl
      (fun acc ingredientName =>
        match acc.ingredients.find? fun i => i.name == ingredientName with
        | none => acc
        | some ingredient => insertItemIngredient acc menuItem.id ingredient.id)
      s

/-- Code of `setupDatabase`, every statement succeeding: the ingredients, then the
menu items, then the mappings. -/
def setupDatabase (now : String) (s : Store) : Store :=
  let s1 := setupIngredients.foldl insertIngredient s
  let s2 := setupMenuItems.foldl (fun acc item => insertMenuItem now acc item.1 item.2 1) s1
  setupMappings.foldl setupMapping s2

/-! ## Chat front end (discord-bot.js) -/

/-- The characters that `String.prototype.trim` strips: the white space and line
terminator code points of ECMAScript. -/
def isJsWhitespace (c : Char) : Bool :=
  [9, 10, 11, 12, 13, 32, 160, 5760, 8232, 8233, 8239, 8287, 12288, 65279].contains c.toNat ||
    (8192 ≤ c.toNat && c.toNat ≤ 8202)

/-- The method `trim()`. -/
def trimChars (cs : List Char) : List Char :=
  ((cs.dropWhile isJsWhitespace).reverse.dropWhile isJsWhitespace).reverse

/-- The call `split(/ +/)`: the text is cut at every maximal run of spaces; a run
at the start or at the end leaves an empty piece there. -/
def splitSpaces : List Char → List (List Char)
  | [] => [[]]
  | c :: cs =>
    if c = ' ' then
      if cs.head? = some ' ' then splitSpaces cs else [] :: splitSpaces cs
    else
      match splitSpaces cs with
      | [] => [[c]]
      | w :: rest => (c :: w) :: rest

/-- The call `split(',')`: the text is cut at every comma. -/
def splitComma : List Char → List (List Char)
  | [] => [[]]
  | c :: cs =>
    if c = ',' then [] :: splitComma cs
    else
      match splitComma cs with
      | [] => [[c]]
      | w :: rest => (c :: w) :: rest

/-- The fields of a Discord message that the bot reads. -/
structure Message where
  content : String
  authorUsername : String
  authorBot : Bool
  channelId : String
deriving DecidableEq, Repr

/-- What a command handler does first: the request it sends to the API, or the
embed it shows without sending one. -/
inductive BotAction where
  | post (path : String) (ingredient : String) (user : String)
  | get (path : String) (ingredient : Option String)
  | helpEmbed
  | errorEmbed (text : String)
deriving DecidableEq, Repr

/-- Code of `handle86Command` up to its request. -/
def handle86Command (toLowerCase : String → String) (message : Message) (args : List String) :
    BotAction :=
  if args.length = 0 then
    .errorEmbed "Please specify an ingredient to 86.\nExample: `!86 tapioca`"
  else .post "/api/86" (toLowerCase (" ".intercalate args)) message.authorUsername

/-- Code of `handleRestoreCommand` up to its request. -/
def handleRestoreCommand (toLowerCase : String → String) (message : Message)
    (args : List String) : BotAction :=
  if args.length = 0 then
    .errorEmbed "Please specify an ingredient to restore.\nExample: `!restore tapioca`"
  else .post "/api/restore" (toLowerCase (" ".intercalate args)) message.authorUsername

/-- Code of `handleStatusCommand` up to its request. -/
def handleStatusCommand (toLowerCase : String → String) (args : List String) : BotAction :=
  if args.length > 0 then .get "/api/status" (some (toLowerCase (" ".intercalate args)))
  else .get "/api/status" none

/-- Code of `handleCommand`, with the `toLowerCase` of the JavaScript engine as a
parameter: the prefix (one character) is sliced off, the rest is trimmed and
split at runs of spaces, the first piece lower-cased is the command. -/
def handleCommand (toLowerCase : String → String) (message : Message) : BotAction :=
  let args := (splitSpaces (trimChars (message.content.data.drop 1))).map String.mk
  let command := toLowerCase (args.headD "")
  if command = "86" then handle86Command toLowerCase message args.tail
  else if command = "restore" then handleRestoreCommand toLowerCase message args.tail
  else if command = "status" then handleStatusCommand toLowerCase args.tail
  else if command = "menu" then .get "/api/ingredients" none
  else if command = "help" then .helpEmbed
  else .errorEmbed "Unknown command. Use `!help` to see available commands."

/-- The expression `process.env.ALLOWED_CHANNELS?.split(',') || []`: `[]` when the
variable is unset, the pieces of its value otherwise. -/
def allowedChannels (allowed : Option String) : List String :=
  match allowed with
  | none => []
  | some v => (splitComma v.data).map String.mk

/-- Handler of `messageCreate`: whether the message reaches `handleCommand`. -/
def messageCreate (allowed : Option String) (message : Message) : Bool :=
  if message.authorBot then false
  else if message.content.data.head? ≠ some '!' then false
  else if (allowedChannels allowed).length > 0 ∧
      ¬ (allowedChannels allowed).contains message.channelId then false
  else true

/-! ## Vocabulary of the statements -/

/-- The two apply loops written once: `removeLoop` is the instance `false`,
`restoreLoop` the instance `true` (`removeLoop_eq`, `restoreLoop_eq`). -/
def applyLoop (v : Bool) (env : Env) :
    List ResolvedItem → Nat → World → ItemNames → World × ItemNames
  | [], _, w, acc => (w, acc)
  | item :: rest, k, w, acc =>
    match updateItemAvailability env k item.uber_item_id v w with
    | (.error _, w1) => applyLoop v env rest (k + 1) w1 acc
    | (.ok _, w1) =>
      match updateLocalItemStatus env k item.uber_item_id v w1 with
      | (.error _, w2) => applyLoop v env rest (k + 1) w2 acc
      | (.ok _, w2) =>
        if item.item_type = some "topping" then
          applyLoop v env rest (k + 1) w2 { acc with toppings := acc.toppings ++ [item.name] }
        else
          applyLoop v env rest (k + 1) w2 { acc with drinks := acc.drinks ++ [item.name] }

/-- The value `isAvailable ? 1 : 0` written by `updateLocalItemStatus`. -/
def flagOf (v : Bool) : Int := if v then 1 else 0

/-- Both awaited calls of loop iteration `k` resolve. -/
def Env.stepOk (env : Env) (k : Nat) : Bool := env.gatewayOk k && env.updateOk k

/-- The rows, of those iterated from iteration `k` on, whose gateway call and
local write both resolved. -/
def succeeded (env : Env) : List ResolvedItem → Nat → List ResolvedItem
  | [], _ => []
  | r :: rest, k =>
    if env.stepOk k then r :: succeeded env rest (k + 1) else succeeded env rest (k + 1)

/-- The row goes to the `toppings` bucket. -/
def ResolvedItem.isTopping (r : ResolvedItem) : Bool := r.item_type == some "topping"

/-- Names of the rows of the `drinks` bucket: every row that is not a topping. -/
def drinkNames (rows : List ResolvedItem) : List String :=
  (rows.filter fun r => !r.isTopping).map fun r => r.name

/-- Names of the rows of the `toppings` bucket. -/
def toppingNames (rows : List ResolvedItem) : List String :=
  (rows.filter fun r => r.isTopping).map fun r => r.name

/-- The clock reading of the last iteration, from `k` on, that wrote the item
`uberItemId`; `none` when no iteration wrote it. -/
def lastWriteTime (env : Env) : List ResolvedItem → Nat → String → Option String
  | [], _, _ => none
  | r :: rest, k, uberItemId =>
    match lastWriteTime env rest (k + 1) uberItemId with
    | some t => some t
    | none => if env.stepOk k && r.uber_item_id == uberItemId then some (env.now k) else none

/-- The calls a loop over `rows` awaits, in order: one gateway call per row and,
after a gateway call that resolved, one local write. -/
def loopEvents (v : Bool) (env : Env) : List ResolvedItem → Nat → List Event
  | [], _ => []
  | r :: rest, k =>
    (Event.gatewayCall r.uber_item_id v (env.gatewayOk k) ::
      (if env.gatewayOk k then [Event.localWrite r.uber_item_id v (env.updateOk k)] else []))
    ++ loopEvents v env rest (k + 1)

/-- The gateway calls of a trace: item and requested availability. -/
def gatewayCalls (events : List Event) : List (String × Bool) :=
  events.filterMap fun e =>
    match e with
    | .gatewayCall i v _ => some (i, v)
    | .localWrite _ _ _ => none

/-- Value of the most recent gateway call for the item that resolved. -/
def lastGatewaySuccess (events : List Event) (uberItemId : String) : Option Bool :=
  events.foldl
    (fun acc e =>
      match e with
      | .gatewayCall i v true => if i = uberItemId then some v else acc
      | _ => acc)
    none

/-- Value of the most recent local write for the item that resolved. -/
def lastWriteSuccess (events : List Event) (uberItemId : String) : Option Bool :=
  events.foldl
    (fun acc e =>
      match e with
      | .localWrite i v true => if i = uberItemId then some v else acc
      | _ => acc)
    none

/-- Every `is_available` of the table is 0 or 1, as the column type BOOLEAN
intends and as every INSERT of the provisioning scripts writes it. -/
def Store.flagsBoolean (s : Store) : Prop :=
  ∀ m ∈ s.menu_items, m.is_available = 0 ∨ m.is_available = 1

/-- The row of `menu_items` after a loop over `rows`: an item that some iteration
wrote carries the requested flag and the clock reading of the last such
iteration, every other item is as it was. -/
def stamp (v : Bool) (env : Env) (rows : List ResolvedItem) (k : Nat) (m : MenuItem) :
    MenuItem :=
  match lastWriteTime env rows k m.uber_item_id with
  | some t => { m with is_available := flagOf v, updated_at := t }
  | none => m

/-- The row that the resolution query returns for an item after a loop over
`rows`: as `stamp`, on the columns the query copies. -/
def stampRow (v : Bool) (env : Env) (rows : List ResolvedItem) (k : Nat) (r : ResolvedItem) :
    ResolvedItem :=
  match lastWriteTime env rows k r.uber_item_id with
  | some t => { r with is_available := flagOf v, updated_at := t }
  | none => r

/-- The operation `applyAvailability(ingredient, desiredAvailable)` of the
specification: `restoreIngredientToMenu` for `true`, `removeIngredientFromMenu` for
`false`. -/
def applyAvailability (v : Bool) (env : Env) (ingredient : String) (w : World) :
    Except String ItemNames × World :=
  if v then restoreIngredientToMenu env ingredient w
  else removeIngredientFromMenu env ingredient w

/-- The world after a loop over `rows` that starts in `w`. -/
def worldAfter (v : Bool) (env : Env) (rows : List ResolvedItem) (w : World) : World :=
  { db := { w.db with menu_items := w.db.menu_items.map (stamp v env rows 0) },
    events := w.events ++ loopEvents v env rows 0 }

/-- The buckets returned by a loop over `rows`. -/
def bucketsAfter (env : Env) (rows : List ResolvedItem) : ItemNames :=
  { drinks := drinkNames (succeeded env rows 0),
    toppings := toppingNames (succeeded env rows 0) }

/-- The row that `logAction` inserts. -/
def auditRow (env : Env) (action ingredient : String) (user : Option String)
    (items : ItemNames) : ActionLog :=
  { action := action, ingredient := ingredient, user := userOrUnknown user,
    affected_items := JSON_stringify items, timestamp := env.logNow }

/-- The world with one more row in `action_logs`. -/
def World.appendLog (w : World) (row : ActionLog) : World :=
  { w with db := { w.db with action_logs := w.db.action_logs ++ [row] } }

/-- Every local write of the trace comes directly after a gateway call for the same
item and the same value that resolved; `prev` is that call when the event just
before the list is one. -/
def pairedFrom (prev : Option (String × Bool)) : List Event → Bool
  | [] => true
  | .gatewayCall i v ok :: rest => pairedFrom (if ok then some (i, v) else none) rest
  | .localWrite i v _ :: rest => (prev == some (i, v)) && pairedFrom none rest

/-- Every local write of the trace directly follows its resolved gateway call. -/
def pairedWrites (events : List Event) : Bool := pairedFrom none events

/-- Remote id and stored flag of every row of `menu_items`, in storage order. -/
def flagView (items : List MenuItem) : List (String × Int) :=
  items.map fun m => (m.uber_item_id, m.is_available)

/-- The stored flags are those of the store `s0` overridden, item by item, by the
most recent local write that resolved, and the trace pairs every local write
with its gateway call. -/
def Reflects (s0 : Store) (w : World) : Prop :=
  flagView w.db.menu_items =
      s0.menu_items.map (fun m =>
        (m.uber_item_id,
          match lastWriteSuccess w.events m.uber_item_id with
          | some v => flagOf v
          | none => m.is_available)) ∧
    pairedWrites w.events = true

/-! ## Sample data -/

/-- The store of the example of scripts/test-drinks-toppings.js: the ingredient
`pearls`, linked to the drink `Pearl Milk Tea` and to the topping `Pearls`, both
available. -/
def pearlStore : Store :=
  { menu_items :=
      [{ id := 1, uber_item_id := "drink_pearl_milk_tea_001", name := "Pearl Milk Tea",
         item_type := some "drink", is_available := 1, updated_at := "2024-01-01 00:00:00" },
       { id := 2, uber_item_id := "topping_pearls_001", name := "Pearls",
         item_type := some "topping", is_available := 1, updated_at := "2024-01-01 00:00:00" }],
    ingredients := [{ id := 1, name := "pearls" }],
    item_ingredients := [{ menu_item_id := 1, ingredient_id := 1 },
                         { menu_item_id := 2, ingredient_id := 1 }],
    action_logs := [] }

/-- An outside world in which every call resolves. -/
def envAllOk : Env :=
  { selectOk := true, gatewayOk := fun _ => true, updateOk := fun _ => true,
    now := fun _ => "2024-01-02T00:00:00.000Z", insertOk := true,
    logNow := "2024-01-02T00:00:01.000Z", dbError := "SQLITE_BUSY: database is locked",
    gatewayError := "UberEats API Error: 503 - Unknown error" }

/-- An outside world in which the gateway rejects the first call of the loop and
everything else resolves. -/
def envFirstGatewayFails : Env :=
  { envAllOk with gatewayOk := fun k => decide (k ≠ 0) }

/-- An outside world in which every gateway call resolves and every UPDATE of
the loop is rejected. -/
def envWritesFail : Env :=
  { envAllOk with updateOk := fun _ => false }

/-- An outside world in which every call of the loop resolves and the INSERT of
`logAction` is rejected. -/
def envInsertFails : Env :=
  { envAllOk with insertOk := false }

/-- An outside world in which the gateway rejects every call and the INSERT of
`logAction` is rejected. -/
def envAllFail : Env :=
  { envAllOk with gatewayOk := fun _ => false, updateOk := fun _ => false, insertOk := false }

/-- An outside world in which the gateway rejects every call and the database
answers. -/
def envGatewayDown : Env :=
  { envAllOk with gatewayOk := fun _ => false }

/-- Two texts of the same length whose characters agree position by position
once each is folded by `Char.toLower`, which turns `A`..`Z` into `a`..`z` and
keeps every other character. -/
def sameCharsIgnoringAsciiCase : List Char → List Char → Bool
  | [], [] => true
  | c :: cs, d :: ds => (c.toLower == d.toLower) && sameCharsIgnoringAsciiCase cs ds
  | _, _ => false

/-- Two names are equal up to the case of the letters `A`..`Z`. -/
def sameIgnoringAsciiCase (a b : String) : Prop :=
  sameCharsIgnoringAsciiCase a.data b.data = true

/-- The lower-case form of a letter of the Basic Latin or Latin-1 Supplement
block, as the Unicode simple case mapping gives it: `A`..`Z` become `a`..`z`,
and U+00C0..U+00DE without the multiplication sign U+00D7 become
U+00E0..U+00FE; any other character is kept. -/
def letterLower (c : Char) : Char :=
  let d := c.toLower
  if 0xC0 ≤ d.toNat ∧ d.toNat ≤ 0xDE ∧ d.toNat ≠ 0xD7 then Char.ofNat (d.toNat + 32) else d

/-- Two texts of the same length whose characters agree position by position
once each letter is put in lower case. -/
def sameCharsIgnoringCase : List Char → List Char → Bool
  | [], [] => true
  | c :: cs, d :: ds => (letterLower c == letterLower d) && sameCharsIgnoringCase cs ds
  | _, _ => false

/-- Two names are equal up to the case of their letters.  The letters whose
case is known here are those of `letterLower`, so names that this relates are
equal up to letter case, accented Latin letters included. -/
def sameIgnoringCase (a b : String) : Prop := sameCharsIgnoringCase a.data b.data = true

/-- The row that the resolution query builds from a menu item and the name of
the matching ingredient. -/
def resolvedRow (mi : MenuItem) (ingredientName : String) : ResolvedItem :=
  { id := mi.id, uber_item_id := mi.uber_item_id, name := mi.name,
    item_type := mi.item_type, is_available := mi.is_available,
    updated_at := mi.updated_at, ingredient_name := ingredientName }

/-- A store with the ingredients `boba` and `popping boba` of
scripts/setup-database.js, each linked to its topping. -/
def bobaStore : Store :=
  { menu_items :=
      [{ id := 11, uber_item_id := "item_011", name := "Add Boba Topping",
         item_type := some "topping", is_available := 1, updated_at := "2024-01-01 00:00:00" },
       { id := 14, uber_item_id := "item_014", name := "Add Popping Boba Topping",
         item_type := some "topping", is_available := 1, updated_at := "2024-01-01 00:00:00" }],
    ingredients := [{ id := 2, name := "boba" }, { id := 3, name := "popping boba" }],
    item_ingredients := [{ menu_item_id := 11, ingredient_id := 2 },
                         { menu_item_id := 14, ingredient_id := 3 }],
    action_logs := [] }

/-- A store in which a drink has the category `drink`, another item has no
category (NULL, which the CHECK of the column admits) and a third is a
topping. -/
def mixedStore : Store :=
  { menu_items :=
      [{ id := 1, uber_item_id := "drink_pearl_milk_tea_001", name := "Pearl Milk Tea",
         item_type := some "drink", is_available := 1, updated_at := "2024-01-01 00:00:00" },
       { id := 2, uber_item_id := "item_002", name := "Taro Milk Tea with Boba",
         item_type := none, is_available := 1, updated_at := "2024-01-01 00:00:00" },
       { id := 3, uber_item_id := "topping_pearls_001", name := "Pearls",
         item_type := some "topping", is_available := 1, updated_at := "2024-01-01 00:00:00" }],
    ingredients := [],
    item_ingredients := [],
    action_logs := [] }

/-- A store whose `ingredients` table holds `Pearls` and `pearls`, two names that
the UNIQUE constraint of the column, which compares exactly, both admits. -/
def twoCaseStore : Store :=
  { menu_items := [],
    ingredients := [{ id := 1, name := "pearls" }, { id := 2, name := "Pearls" }],
    item_ingredients := [],
    action_logs := [] }

/-- A store whose only ingredient is `Éclair`, linked to one drink. -/
def eclairStore : Store :=
  { menu_items :=
      [{ id := 1, uber_item_id := "item_001", name := "Éclair Milk Tea",
         item_type := some "drink", is_available := 1, updated_at := "2024-01-01 00:00:00" }],
    ingredients := [{ id := 1, name := "Éclair" }],
    item_ingredients := [{ menu_item_id := 1, ingredient_id := 1 }],
    action_logs := [] }

/-- A sample configuration of the gateway. -/
def sampleConfig : UberEatsConfig :=
  { baseURL := "https://api.uber.com/v2/eats", storeId := "store-1", accessToken := "token" }

/-- A store in which the drink `Taro Milk Tea with Boba` of
scripts/setup-database.js is linked to the two ingredients `boba` and `taro`. -/
def taroStore : Store :=
  { menu_items :=
      [{ id := 2, uber_item_id := "item_002", name := "Taro Milk Tea with Boba",
         item_type := some "drink", is_available := 1, updated_at := "2024-01-01 00:00:00" }],
    ingredients := [{ id := 2, name := "boba" }, { id := 6, name := "taro" }],
    item_ingredients := [{ menu_item_id := 2, ingredient_id := 2 },
                         { menu_item_id := 2, ingredient_id := 6 }],
    action_logs := [] }

/-- The store of the pearls example with the link between the drink and `pearls`
stored twice, which `item_ingredients` admits. -/
def doubleLinkStore : Store :=
  { pearlStore with
    item_ingredients := [{ menu_item_id := 1, ingredient_id := 1 },
                         { menu_item_id := 1, ingredient_id := 1 },
                         { menu_item_id := 2, ingredient_id := 1 }] }

/-- A command word followed by words, each after a run of one or more spaces
(`n + 1` spaces for the entry `(n, word)`). -/
def joinWords (w0 : List Char) (ws : List (Nat × List Char)) : List Char :=
  w0 ++ ws.flatMap fun p => List.replicate (p.1 + 1) ' ' ++ p.2

/-- A message from a user in channel `123`. -/
def sampleMessage (content : String) : Message :=
  { content := content, authorUsername := "al", authorBot := false, channelId := "123" }

/-! ## The loops -/

theorem removeLoop_eq (env : Env) (rows : List ResolvedItem) (k : Nat) (w : World)
    (acc : ItemNames) : removeLoop env rows k w acc = applyLoop false env rows k w acc := by
  induction rows generalizing k w acc with
  | nil => rfl
  | cons r rest ih =>
    simp only [removeLoop, applyLoop]
    split
    · exact ih _ _ _
    · split
      · exact ih _ _ _
      · split <;> exact ih _ _ _

theorem restoreLoop_eq (env : Env) (rows : List ResolvedItem) (k : Nat) (w : World)
    (acc : ItemNames) : restoreLoop env rows k w acc = applyLoop true env rows k w acc := by
  induction rows generalizing k w acc with
  | nil => rfl
  | cons r rest ih =>
    simp only [restoreLoop, applyLoop]
    split
    · exact ih _ _ _
    · split
      · exact ih _ _ _
      · split <;> exact ih _ _ _

/-- One iteration of the loop, by the outcome of its two calls. -/
theorem applyLoop_cons (v : Bool) (env : Env) (r : ResolvedItem) (rest : List ResolvedItem)
    (k : Nat) (w : World) (acc : ItemNames) :
    applyLoop v env (r :: rest) k w acc =
      if env.gatewayOk k then
        if env.updateOk k then
          applyLoop v env rest (k + 1)
            { db := { w.db with menu_items :=
                        updateMenuItems w.db.menu_items (flagOf v) (env.now k) r.uber_item_id },
              events := w.events ++ [Event.gatewayCall r.uber_item_id v true,
                                     Event.localWrite r.uber_item_id v true] }
            (if r.isTopping then { acc with toppings := acc.toppings ++ [r.name] }
             else { acc with drinks := acc.drinks ++ [r.name] })
        else
          applyLoop v env rest (k + 1)
            { w with events := w.events ++ [Event.gatewayCall r.uber_item_id v true,
                                            Event.localWrite r.uber_item_id v false] }
            acc
      else
        applyLoop v env rest (k + 1)
          { w with events := w.events ++ [Event.gatewayCall r.uber_item_id v false] } acc := by
  by_cases hg : env.gatewayOk k = true
  · by_cases hu : env.updateOk k = true
    · by_cases ht : r.item_type = some "topping"
      · simp [applyLoop, updateItemAvailability, updateLocalItemStatus, hg, hu, ht,
          ResolvedItem.isTopping, flagOf]
      · simp [applyLoop, updateItemAvailability, updateLocalItemStatus, hg, hu, ht,
          ResolvedItem.isTopping, flagOf]
    · simp [applyLoop, updateItemAvailability, updateLocalItemStatus, hg, hu]
  · simp [applyLoop, updateItemAvailability, hg]

theorem applyLoop_buckets (v : Bool) (env : Env) (rows : List ResolvedItem) (k : Nat)
    (w : World) (acc : ItemNames) :
    (applyLoop v env rows k w acc).2 =
      { drinks := acc.drinks ++ drinkNames (succeeded env rows k),
        toppings := acc.toppings ++ toppingNames (succeeded env rows k) } := by
  induction rows generalizing k w acc with
  | nil => simp [applyLoop, succeeded, drinkNames, toppingNames]
  | cons r rest ih =>
    rw [applyLoop_cons]
    by_cases hg : env.gatewayOk k = true
    · by_cases hu : env.updateOk k = true
      · by_cases ht : r.isTopping = true
        · simp [hg, hu, ht, ih, succeeded, Env.stepOk, drinkNames, toppingNames]
        · simp [hg, hu, ht, ih, succeeded, Env.stepOk, drinkNames, toppingNames]
      · simp [hg, hu, ih, succeeded, Env.stepOk]
    · simp [hg, ih, succeeded, Env.stepOk]

theorem applyLoop_events (v : Bool) (env : Env) (rows : List ResolvedItem) (k : Nat)
    (w : World) (acc : ItemNames) :
    (applyLoop v env rows k w acc).1.events = w.events ++ loopEvents v env rows k := by
  induction rows generalizing k w acc with
  | nil => simp [applyLoop, loopEvents]
  | cons r rest ih =>
    rw [applyLoop_cons]
    by_cases hg : env.gatewayOk k = true
    · by_cases hu : env.updateOk k = true
      · simp [hg, hu, ih, loopEvents]
      · simp [hg, hu, ih, loopEvents]
    · simp [hg, ih, loopEvents]

theorem stamp_update (v : Bool) (env : Env) (r : ResolvedItem) (rest : List ResolvedItem)
    (k : Nat) (h : env.stepOk k = true) (m : MenuItem) :
    stamp v env rest (k + 1)
        (if m.uber_item_id == r.uber_item_id then
          { m with is_available := flagOf v, updated_at := env.now k } else m) =
      stamp v env (r :: rest) k m := by
  by_cases hm : m.uber_item_id = r.uber_item_id
  · cases hl : lastWriteTime env rest (k + 1) r.uber_item_id <;>
      simp [stamp, lastWriteTime, hm, hl, h]
  · have hm2 : ¬ r.uber_item_id = m.uber_item_id := fun e => hm e.symm
    cases hl : lastWriteTime env rest (k + 1) m.uber_item_id <;>
      simp [stamp, lastWriteTime, hm, hm2, hl, h]

theorem stamp_skip (v : Bool) (env : Env) (r : ResolvedItem) (rest : List ResolvedItem)
    (k : Nat) (h : env.stepOk k = false) (m : MenuItem) :
    stamp v env rest (k + 1) m = stamp v env (r :: rest) k m := by
  cases hl : lastWriteTime env rest (k + 1) m.uber_item_id <;>
    simp [stamp, lastWriteTime, hl, h]

theorem applyLoop_db (v : Bool) (env : Env) (rows : List ResolvedItem) (k : Nat)
    (w : World) (acc : ItemNames) :
    (applyLoop v env rows k w acc).1.db =
      { w.db with menu_items := w.db.menu_items.map (stamp v env rows k) } := by
  induction rows generalizing k w acc with
  | nil =>
    have : (fun m => stamp v env [] k m) = id := by
      funext m; simp [stamp, lastWriteTime]
    simp [applyLoop, this]
  | cons r rest ih =>
    rw [applyLoop_cons]
    by_cases hg : env.gatewayOk k = true
    · by_cases hu : env.updateOk k = true
      · have hs : env.stepOk k = true := by simp [Env.stepOk, hg, hu]
        simp only [hg, hu, if_true, ih, updateMenuItems, List.map_map]
        congr 1
        apply List.map_congr_left
        intro m _
        exact stamp_update v env r rest k hs m
      · have hs : env.stepOk k = false := by simp [Env.stepOk, hg, hu]
        have e : w.db.menu_items.map (stamp v env rest (k + 1)) =
            w.db.menu_items.map (stamp v env (r :: rest) k) :=
          List.map_congr_left fun m _ => stamp_skip v env r rest k hs m
        rw [if_pos hg, if_neg hu, ih]
        dsimp only
        rw [e]
    · have hs : env.stepOk k = false := by simp [Env.stepOk, hg]
      have e : w.db.menu_items.map (stamp v env rest (k + 1)) =
          w.db.menu_items.map (stamp v env (r :: rest) k) :=
        List.map_congr_left fun m _ => stamp_skip v env r rest k hs m
      rw [if_neg hg, ih]
      dsimp only
      rw [e]

theorem applyLoop_eq (v : Bool) (env : Env) (rows : List ResolvedItem) (w : World) :
    applyLoop v env rows 0 w { drinks := [], toppings := [] } =
      (worldAfter v env rows w, bucketsAfter env rows) := by
  have h1 := applyLoop_buckets v env rows 0 w { drinks := [], toppings := [] }
  have h2 := applyLoop_events v env rows 0 w { drinks := [], toppings := [] }
  have h3 := applyLoop_db v env rows 0 w { drinks := [], toppings := [] }
  generalize applyLoop v env rows 0 w { drinks := [], toppings := [] } = res at h1 h2 h3
  obtain ⟨⟨db, evs⟩, b⟩ := res
  simp only at h1 h2 h3
  simp [worldAfter, bucketsAfter, h1, h2, h3]

/-! ## The apply operations, case by case -/

theorem applyAvailability_dbError (v : Bool) (env : Env) (ing : String) (w : World)
    (hs : env.selectOk = false) :
    applyAvailability v env ing w = (.error env.dbError, w) := by
  cases v <;>
    simp [applyAvailability, removeIngredientFromMenu, restoreIngredientToMenu,
      getMenuItemsByIngredient, hs]

theorem applyAvailability_notFound (v : Bool) (env : Env) (ing : String) (w : World)
    (hs : env.selectOk = true) (h0 : selectByIngredient w.db ing = []) :
    applyAvailability v env ing w = (.error (notFoundMessage ing), w) := by
  cases v <;>
    simp [applyAvailability, removeIngredientFromMenu, restoreIngredientToMenu,
      getMenuItemsByIngredient, hs, h0]

theorem applyAvailability_ok (v : Bool) (env : Env) (ing : String) (w : World)
    (hs : env.selectOk = true) (h0 : selectByIngredient w.db ing ≠ []) :
    applyAvailability v env ing w =
      (.ok (bucketsAfter env (selectByIngredient w.db ing)),
        worldAfter v env (selectByIngredient w.db ing) w) := by
  cases v <;>
    simp [applyAvailability, removeIngredientFromMenu, restoreIngredientToMenu,
      getMenuItemsByIngredient, hs, h0, removeLoop_eq, restoreLoop_eq, applyLoop_eq]

/-! ## Resolution after a loop -/

theorem stamp_id (v : Bool) (env : Env) (rows : List ResolvedItem) (k : Nat) (m : MenuItem) :
    (stamp v env rows k m).id = m.id := by
  unfold stamp; split <;> rfl

theorem select_stamp (v : Bool) (env : Env) (rows : List ResolvedItem) (k : Nat) (s : Store)
    (ing : String) :
    selectByIngredient { s with menu_items := s.menu_items.map (stamp v env rows k) } ing =
      (selectByIngredient s ing).map (stampRow v env rows k) := by
  simp only [selectByIngredient, List.flatMap_map, List.map_flatMap, List.map_map]
  apply List.flatMap_congr
  intro mi _
  rw [stamp_id]
  apply List.flatMap_congr
  intro ii _
  apply List.map_congr_left
  intro i _
  simp only [Function.comp, stamp, stampRow]
  split <;> rfl

/-! ## Which iterations wrote -/

theorem succeeded_all (env : Env) (h : ∀ k, env.stepOk k = true) (rows : List ResolvedItem)
    (k : Nat) : succeeded env rows k = rows := by
  induction rows generalizing k with
  | nil => rfl
  | cons r rest ih => simp [succeeded, h, ih]

theorem succeeded_none (env : Env) (h : ∀ k, env.stepOk k = false) (rows : List ResolvedItem)
    (k : Nat) : succeeded env rows k = [] := by
  induction rows generalizing k with
  | nil => rfl
  | cons r rest ih => simp [succeeded, h, ih]

theorem mem_succeeded (env : Env) (rows : List ResolvedItem) (k : Nat) (r : ResolvedItem) :
    r ∈ succeeded env rows k ↔ ∃ i, rows[i]? = some r ∧ env.stepOk (k + i) = true := by
  induction rows generalizing k with
  | nil => simp [succeeded]
  | cons x rest ih =>
    constructor
    · intro h
      by_cases hk : env.stepOk k = true
      · simp only [succeeded, hk, if_true, List.mem_cons] at h
        rcases h with rfl | h
        · exact ⟨0, by simp, by simpa using hk⟩
        · obtain ⟨i, hi, hs⟩ := (ih (k + 1)).1 h
          exact ⟨i + 1, by simpa using hi, by rw [← hs]; congr 1; omega⟩
      · simp only [succeeded, hk, if_false] at h
        obtain ⟨i, hi, hs⟩ := (ih (k + 1)).1 h
        exact ⟨i + 1, by simpa using hi, by rw [← hs]; congr 1; omega⟩
    · rintro ⟨i, hi, hs⟩
      cases i with
      | zero =>
        simp only [List.getElem?_cons_zero, Option.some.injEq] at hi
        subst hi
        have hk : env.stepOk k = true := by simpa using hs
        simp [succeeded, hk]
      | succ j =>
        simp only [List.getElem?_cons_succ] at hi
        have hm : r ∈ succeeded env rest (k + 1) :=
          (ih (k + 1)).2 ⟨j, hi, by rw [← hs]; congr 1; omega⟩
        by_cases hk : env.stepOk k = true
        · simp [succeeded, hk, hm]
        · simp [succeeded, hk, hm]

theorem lastWriteTime_isSome (env : Env) (rows : List ResolvedItem) (k : Nat) (uid : String) :
    (lastWriteTime env rows k uid).isSome = true ↔
      uid ∈ (succeeded env rows k).map fun r => r.uber_item_id := by
  induction rows generalizing k with
  | nil => simp [lastWriteTime, succeeded]
  | cons r rest ih =>
    have ih1 := ih (k + 1)
    by_cases hk : env.stepOk k = true
    · cases hl : lastWriteTime env rest (k + 1) uid with
      | some t =>
        rw [hl] at ih1
        have hm := ih1.1 rfl
        simp only [lastWriteTime, hl, succeeded, hk, if_true, List.map_cons, List.mem_cons]
        simp [hm]
      | none =>
        rw [hl] at ih1
        have hm : ¬ uid ∈ (succeeded env rest (k + 1)).map fun r => r.uber_item_id :=
          fun h => by simpa using ih1.2 h
        simp only [lastWriteTime, hl, succeeded, hk, if_true, List.map_cons, List.mem_cons]
        by_cases he : r.uber_item_id = uid
        · simp [he]
        · have he2 : ¬ uid = r.uber_item_id := fun e => he e.symm
          simp [he, he2, hm]
    · cases hl : lastWriteTime env rest (k + 1) uid with
      | some t =>
        rw [hl] at ih1
        have hm := ih1.1 rfl
        simp only [lastWriteTime, hl, succeeded, hk, if_false]
        simp [hm]
      | none =>
        rw [hl] at ih1
        have hm : ¬ uid ∈ (succeeded env rest (k + 1)).map fun r => r.uber_item_id :=
          fun h => by simpa using ih1.2 h
        simp only [lastWriteTime, hl, succeeded, hk, if_false]
        simp [hk, hm]

theorem stamp_flag (v : Bool) (env : Env) (rows : List ResolvedItem) (k : Nat) (m : MenuItem) :
    (stamp v env rows k m).is_available =
      if m.uber_item_id ∈ (succeeded env rows k).map (fun r => r.uber_item_id) then flagOf v
      else m.is_available := by
  have h := lastWriteTime_isSome env rows k m.uber_item_id
  cases hl : lastWriteTime env rows k m.uber_item_id with
  | some t =>
    rw [hl] at h
    simp [stamp, hl, h.1 rfl]
  | none =>
    rw [hl] at h
    have hm : ¬ m.uber_item_id ∈ (succeeded env rows k).map fun r => r.uber_item_id :=
      fun e => by simpa using h.2 e
    simp [stamp, hl, hm]

theorem stampRow_flag (v : Bool) (env : Env) (rows : List ResolvedItem) (k : Nat)
    (r : ResolvedItem) :
    (stampRow v env rows k r).is_available =
      if r.uber_item_id ∈ (succeeded env rows k).map (fun x => x.uber_item_id) then flagOf v
      else r.is_available := by
  have h := lastWriteTime_isSome env rows k r.uber_item_id
  cases hl : lastWriteTime env rows k r.uber_item_id with
  | some t =>
    rw [hl] at h
    simp [stampRow, hl, h.1 rfl]
  | none =>
    rw [hl] at h
    have hm : ¬ r.uber_item_id ∈ (succeeded env rows k).map fun x => x.uber_item_id :=
      fun e => by simpa using h.2 e
    simp [stampRow, hl, hm]

theorem stampRow_fields (v : Bool) (env : Env) (rows : List ResolvedItem) (k : Nat)
    (r : ResolvedItem) :
    (stampRow v env rows k r).id = r.id ∧
      (stampRow v env rows k r).uber_item_id = r.uber_item_id ∧
      (stampRow v env rows k r).name = r.name ∧
      (stampRow v env rows k r).item_type = r.item_type ∧
      (stampRow v env rows k r).ingredient_name = r.ingredient_name := by
  unfold stampRow
  split <;> simp

theorem stepOk_of_all (env : Env) (hgw : ∀ k, env.gatewayOk k = true)
    (hup : ∀ k, env.updateOk k = true) (k : Nat) : env.stepOk k = true := by
  simp [Env.stepOk, hgw, hup]

theorem mem_bucket_of_mem (rows : List ResolvedItem) (r : ResolvedItem) (h : r ∈ rows) :
    if r.item_type = some "topping" then r.name ∈ toppingNames rows
    else r.name ∈ drinkNames rows := by
  by_cases ht : r.item_type = some "topping"
  · rw [if_pos ht]
    exact List.mem_map.2 ⟨r, List.mem_filter.2 ⟨h, by simp [ResolvedItem.isTopping, ht]⟩, rfl⟩
  · rw [if_neg ht]
    exact List.mem_map.2 ⟨r, List.mem_filter.2 ⟨h, by simp [ResolvedItem.isTopping, ht]⟩, rfl⟩

theorem logAction_ok (env : Env) (action ing : String) (user : Option String) (b : ItemNames)
    (w : World) (hins : env.insertOk = true) :
    logAction env action ing user b w =
      (.ok (), w.appendLog (auditRow env action ing user b)) := by
  simp [logAction, hins, World.appendLog, auditRow]

theorem logAction_fail (env : Env) (action ing : String) (user : Option String) (b : ItemNames)
    (w : World) (hins : env.insertOk = false) :
    logAction env action ing user b w = (.error env.dbError, w) := by
  simp [logAction, hins]

theorem remove_eq_apply (env : Env) (ing : String) (w : World) :
    removeIngredientFromMenu env ing w = applyAvailability false env ing w := by
  simp [applyAvailability]

theorem restore_eq_apply (env : Env) (ing : String) (w : World) :
    restoreIngredientToMenu env ing w = applyAvailability true env ing w := by
  simp [applyAvailability]

/-! ## The routes, case by case -/

theorem post86_invalid (env : Env) (req : ApplyRequest) (w : World)
    (h : req.ingredient = none ∨ req.ingredient = some "") :
    post86 env req w = (.failure 400 "Ingredient is required" none, w) := by
  rcases h with h | h <;> simp [post86, h]

theorem postRestore_invalid (env : Env) (req : ApplyRequest) (w : World)
    (h : req.ingredient = none ∨ req.ingredient = some "") :
    postRestore env req w = (.failure 400 "Ingredient is required" none, w) := by
  rcases h with h | h <;> simp [postRestore, h]

theorem post86_dbError (env : Env) (ing : String) (user : Option String) (w : World)
    (hne : ing ≠ "") (hs : env.selectOk = false) :
    post86 env { ingredient := some ing, user := user } w =
      (.failure 500 "Failed to remove ingredient from menu" (some env.dbError), w) := by
  simp [post86, hne, remove_eq_apply, applyAvailability_dbError false env ing w hs]

theorem postRestore_dbError (env : Env) (ing : String) (user : Option String) (w : World)
    (hne : ing ≠ "") (hs : env.selectOk = false) :
    postRestore env { ingredient := some ing, user := user } w =
      (.failure 500 "Failed to restore ingredient to menu" (some env.dbError), w) := by
  simp [postRestore, hne, restore_eq_apply, applyAvailability_dbError true env ing w hs]

theorem post86_notFound (env : Env) (ing : String) (user : Option String) (w : World)
    (hne : ing ≠ "") (hs : env.selectOk = true) (h0 : selectByIngredient w.db ing = []) :
    post86 env { ingredient := some ing, user := user } w =
      (.failure 500 "Failed to remove ingredient from menu" (some (notFoundMessage ing)), w) := by
  simp [post86, hne, remove_eq_apply, applyAvailability_notFound false env ing w hs h0]

theorem postRestore_notFound (env : Env) (ing : String) (user : Option String) (w : World)
    (hne : ing ≠ "") (hs : env.selectOk = true) (h0 : selectByIngredient w.db ing = []) :
    postRestore env { ingredient := some ing, user := user } w =
      (.failure 500 "Failed to restore ingredient to menu" (some (notFoundMessage ing)), w) := by
  simp [postRestore, hne, restore_eq_apply, applyAvailability_notFound true env ing w hs h0]

theorem post86_insertFail (env : Env) (ing : String) (user : Option String) (w : World)
    (hne : ing ≠ "") (hs : env.selectOk = true) (h0 : selectByIngredient w.db ing ≠ [])
    (hins : env.insertOk = false) :
    post86 env { ingredient := some ing, user := user } w =
      (.failure 500 "Failed to remove ingredient from menu" (some env.dbError),
        worldAfter false env (selectByIngredient w.db ing) w) := by
  simp [post86, hne, remove_eq_apply, applyAvailability_ok false env ing w hs h0,
    logAction_fail env "86" ing user _ _ hins]

theorem postRestore_insertFail (env : Env) (ing : String) (user : Option String) (w : World)
    (hne : ing ≠ "") (hs : env.selectOk = true) (h0 : selectByIngredient w.db ing ≠ [])
    (hins : env.insertOk = false) :
    postRestore env { ingredient := some ing, user := user } w =
      (.failure 500 "Failed to restore ingredient to menu" (some env.dbError),
        worldAfter true env (selectByIngredient w.db ing) w) := by
  simp [postRestore, hne, restore_eq_apply, applyAvailability_ok true env ing w hs h0,
    logAction_fail env "restore" ing user _ _ hins]

theorem post86_ok (env : Env) (ing : String) (user : Option String) (w : World)
    (hne : ing ≠ "") (hs : env.selectOk = true) (h0 : selectByIngredient w.db ing ≠ [])
    (hins : env.insertOk = true) :
    post86 env { ingredient := some ing, user := user } w =
      (.success ing "affectedItems" (bucketsAfter env (selectByIngredient w.db ing))
          ("Successfully removed " ++ ing ++ " from menu"),
        (worldAfter false env (selectByIngredient w.db ing) w).appendLog
          (auditRow env "86" ing user (bucketsAfter env (selectByIngredient w.db ing)))) := by
  simp [post86, hne, remove_eq_apply, applyAvailability_ok false env ing w hs h0,
    logAction_ok env "86" ing user _ _ hins]

theorem postRestore_ok (env : Env) (ing : String) (user : Option String) (w : World)
    (hne : ing ≠ "") (hs : env.selectOk = true) (h0 : selectByIngredient w.db ing ≠ [])
    (hins : env.insertOk = true) :
    postRestore env { ingredient := some ing, user := user } w =
      (.success ing "restoredItems" (bucketsAfter env (selectByIngredient w.db ing))
          ("Successfully restored " ++ ing ++ " to menu"),
        (worldAfter true env (selectByIngredient w.db ing) w).appendLog
          (auditRow env "restore" ing user (bucketsAfter env (selectByIngredient w.db ing)))) := by
  simp [postRestore, hne, restore_eq_apply, applyAvailability_ok true env ing w hs h0,
    logAction_ok env "restore" ing user _ _ hins]

/-! ## Claims -/

/-- C1. When the resolution answers with at least one row and every gateway call
and every database statement succeeds, `removeIngredientFromMenu` returns buckets
holding the name of every resolved row, a topping in `toppings` and any other row
in `drinks`; afterwards the ingredient resolves to the same items and each of them
is stored with `is_available = 0`; the `logAction` call of the route then appends
a row with action `86`, and so does the route `/api/86` as a whole on a request
that carries the ingredient (the route only reaches the call for a non-empty
ingredient). -/
theorem remove_all_succeed (env : Env) (ing : String) (user : Option String) (w : World)
    (hres : selectByIngredient w.db ing ≠ [])
    (hsel : env.selectOk = true)
    (hgw : ∀ k, env.gatewayOk k = true)
    (hup : ∀ k, env.updateOk k = true)
    (hins : env.insertOk = true) :
    ∃ b w1,
      removeIngredientFromMenu env ing w = (.ok b, w1) ∧
      (∀ r ∈ selectByIngredient w.db ing,
        if r.item_type = some "topping" then r.name ∈ b.toppings else r.name ∈ b.drinks) ∧
      b.toppings = toppingNames (selectByIngredient w.db ing) ∧
      b.drinks = drinkNames (selectByIngredient w.db ing) ∧
      (selectByIngredient w1.db ing).map (fun r => r.id) =
        (selectByIngredient w.db ing).map (fun r => r.id) ∧
      (∀ r ∈ selectByIngredient w1.db ing, r.is_available = 0) ∧
      (∃ row w2, logAction env "86" ing user b w1 = (.ok (), w2) ∧
        w2.db.action_logs = w1.db.action_logs ++ [row] ∧ row.action = "86") ∧
      (ing ≠ "" → ∃ msg row w2,
        post86 env { ingredient := some ing, user := user } w =
          (.success ing "affectedItems" b msg, w2) ∧
        w2.db.action_logs = w.db.action_logs ++ [row] ∧ row.action = "86") := by
  have hall := stepOk_of_all env hgw hup
  have hop := applyAvailability_ok false env ing w hsel hres
  simp only [applyAvailability, Bool.false_eq_true, if_false] at hop
  have hb : bucketsAfter env (selectByIngredient w.db ing) =
      { drinks := drinkNames (selectByIngredient w.db ing),
        toppings := toppingNames (selectByIngredient w.db ing) } := by
    simp [bucketsAfter, succeeded_all env hall]
  refine ⟨_, _, hop, ?_, ?_, ?_, ?_, ?_, ?_, ?_⟩
  · intro r hr
    have := mem_bucket_of_mem _ r hr
    rw [hb]
    exact this
  · rw [hb]
  · rw [hb]
  · simp only [worldAfter, select_stamp, List.map_map]
    apply List.map_congr_left
    intro r _
    exact (stampRow_fields false env _ 0 r).1
  · intro r hr
    simp only [worldAfter, select_stamp, List.mem_map] at hr
    obtain ⟨r0, hr0, rfl⟩ := hr
    rw [stampRow_flag, succeeded_all env hall]
    have : r0.uber_item_id ∈ (selectByIngredient w.db ing).map fun x => x.uber_item_id :=
      List.mem_map.2 ⟨r0, hr0, rfl⟩
    simp [this, flagOf]
  · exact ⟨_, _, logAction_ok env "86" ing user _ _ hins, rfl, rfl⟩
  · intro hne
    exact ⟨_, _, _, post86_ok env ing user w hne hsel hres hins, rfl, rfl⟩

/-- C1, at the store of the pearls example with a world in which every call
resolves. -/
theorem remove_all_succeed_witness :
    selectByIngredient pearlStore "pearls" ≠ [] ∧
    ∃ b w1,
      removeIngredientFromMenu envAllOk "pearls" { db := pearlStore, events := [] } = (.ok b, w1) ∧
      b.toppings = toppingNames (selectByIngredient pearlStore "pearls") ∧
      b.drinks = drinkNames (selectByIngredient pearlStore "pearls") ∧
      (∀ r ∈ selectByIngredient w1.db "pearls", r.is_available = 0) := by
  refine ⟨by decide, ?_⟩
  obtain ⟨b, w1, h1, _, h3, h4, _, h6, _⟩ :=
    remove_all_succeed envAllOk "pearls" none { db := pearlStore, events := [] }
      (by decide) rfl (fun _ => rfl) (fun _ => rfl) rfl
  exact ⟨b, w1, h1, h3, h4, h6⟩

/-- C2. Partial-failure isolation, for `removeIngredientFromMenu` (`v = false`) and
`restoreIngredientToMenu` (`v = true`) alike: when the resolution answers with at
least one row, the operation does not raise whatever the outcome of each gateway
call and each local write; the buckets hold exactly the names of the rows whose
gateway call and local write both resolved (`succeeded`), each in the bucket of
its category and in resolution order, so a failed row contributes no entry; and
every stored flag is the requested value if a row of that item succeeded and is
unchanged otherwise. -/
theorem partial_failure_isolation (v : Bool) (env : Env) (ing : String) (w : World)
    (hsel : env.selectOk = true) (hres : selectByIngredient w.db ing ≠ []) :
    ∃ b w1,
      (if v then restoreIngredientToMenu env ing w else removeIngredientFromMenu env ing w) =
        (.ok b, w1) ∧
      (∀ r, r ∈ succeeded env (selectByIngredient w.db ing) 0 ↔
        ∃ i, (selectByIngredient w.db ing)[i]? = some r ∧
          env.gatewayOk i = true ∧ env.updateOk i = true) ∧
      b.drinks = drinkNames (succeeded env (selectByIngredient w.db ing) 0) ∧
      b.toppings = toppingNames (succeeded env (selectByIngredient w.db ing) 0) ∧
      w1.db.menu_items.map (fun m => m.is_available) =
        w.db.menu_items.map (fun m =>
          if m.uber_item_id ∈
              (succeeded env (selectByIngredient w.db ing) 0).map (fun r => r.uber_item_id)
          then (if v then 1 else 0) else m.is_available) ∧
      (∀ r ∈ selectByIngredient w1.db ing,
        r.uber_item_id ∈
            (succeeded env (selectByIngredient w.db ing) 0).map (fun x => x.uber_item_id) →
          r.is_available = (if v then 1 else 0)) := by
  have hop := applyAvailability_ok v env ing w hsel hres
  refine ⟨_, _, hop, ?_, rfl, rfl, ?_, ?_⟩
  · intro r
    rw [mem_succeeded]
    simp [Env.stepOk]
  · simp only [worldAfter, List.map_map]
    apply List.map_congr_left
    intro m _
    simp only [Function.comp, stamp_flag, flagOf]
  · intro r hr hmem
    simp only [worldAfter, select_stamp, List.mem_map] at hr
    obtain ⟨r0, _, rfl⟩ := hr
    rw [(stampRow_fields v env _ 0 r0).2.1] at hmem
    rw [stampRow_flag, if_pos hmem, flagOf]

/-- C2, at the store of the pearls example when the gateway rejects the call for
the first resolved row: the drink is absent from the buckets and keeps its flag,
the topping is processed. -/
theorem partial_failure_isolation_witness :
    envFirstGatewayFails.selectOk = true ∧ selectByIngredient pearlStore "pearls" ≠ [] ∧
    ∃ b w1,
      removeIngredientFromMenu envFirstGatewayFails "pearls" { db := pearlStore, events := [] } =
        (.ok b, w1) ∧
      b.drinks = [] ∧ b.toppings = ["Pearls"] ∧
      w1.db.menu_items.map (fun m => m.is_available) = [1, 0] := by
  refine ⟨rfl, by decide, ?_⟩
  obtain ⟨b, w1, h1, _, h3, h4, h5, _⟩ :=
    partial_failure_isolation false envFirstGatewayFails "pearls"
      { db := pearlStore, events := [] } rfl (by decide)
  refine ⟨b, w1, h1, ?_, ?_, ?_⟩
  · rw [h3]; decide
  · rw [h4]; decide
  · rw [h5]; decide

/-- C3. When the resolution answers with no row, `removeIngredientFromMenu` and
`restoreIngredientToMenu` fail with the message `No menu items found containing
"<ingredient>"` and leave the world as it was: no gateway call is recorded and no
table is changed; the routes `/api/86` and `/api/restore` answer with an error
and leave the world as it was, so no `action_logs` row is appended. -/
theorem not_found_no_effect (env : Env) (ing : String) (user : Option String) (w : World)
    (hsel : env.selectOk = true) (h0 : selectByIngredient w.db ing = []) :
    removeIngredientFromMenu env ing w =
      (.error ("No menu items found containing \"" ++ ing ++ "\""), w) ∧
    restoreIngredientToMenu env ing w =
      (.error ("No menu items found containing \"" ++ ing ++ "\""), w) ∧
    (∃ status e details,
      post86 env { ingredient := some ing, user := user } w =
        (.failure status e details, w)) ∧
    (∃ status e details,
      postRestore env { ingredient := some ing, user := user } w =
        (.failure status e details, w)) := by
  refine ⟨?_, ?_, ?_, ?_⟩
  · rw [remove_eq_apply, applyAvailability_notFound false env ing w hsel h0]; rfl
  · rw [restore_eq_apply, applyAvailability_notFound true env ing w hsel h0]; rfl
  · by_cases hne : ing = ""
    · exact ⟨_, _, _, post86_invalid env _ w (Or.inr (by simp [hne]))⟩
    · exact ⟨_, _, _, post86_notFound env ing user w hne hsel h0⟩
  · by_cases hne : ing = ""
    · exact ⟨_, _, _, postRestore_invalid env _ w (Or.inr (by simp [hne]))⟩
    · exact ⟨_, _, _, postRestore_notFound env ing user w hne hsel h0⟩

/-- C3, at the store of the pearls example for the ingredient `mango`, which no
item contains. -/
theorem not_found_no_effect_witness :
    envAllOk.selectOk = true ∧ selectByIngredient pearlStore "mango" = [] ∧
    removeIngredientFromMenu envAllOk "mango" { db := pearlStore, events := [] } =
      (.error "No menu items found containing \"mango\"", { db := pearlStore, events := [] }) :=
  ⟨rfl, by decide,
    (not_found_no_effect envAllOk "mango" none { db := pearlStore, events := [] } rfl
      (by decide)).1⟩

/-! ## The trace of a loop -/

theorem lastWriteSuccess_snoc (evs : List Event) (e : Event) (uid : String) :
    lastWriteSuccess (evs ++ [e]) uid =
      match e with
      | .localWrite i v true => if i = uid then some v else lastWriteSuccess evs uid
      | _ => lastWriteSuccess evs uid := by
  simp only [lastWriteSuccess, List.foldl_append, List.foldl_cons, List.foldl_nil]

theorem lastWriteSuccess_loop (v : Bool) (env : Env) (rows : List ResolvedItem) (k : Nat)
    (evs : List Event) (uid : String) :
    lastWriteSuccess (evs ++ loopEvents v env rows k) uid =
      if uid ∈ (succeeded env rows k).map (fun r => r.uber_item_id) then some v
      else lastWriteSuccess evs uid := by
  induction rows generalizing k evs with
  | nil => simp [loopEvents, succeeded]
  | cons r rest ih =>
    by_cases hg : env.gatewayOk k = true
    · by_cases hu : env.updateOk k = true
      · have e1 : evs ++ loopEvents v env (r :: rest) k =
            ((evs ++ [Event.gatewayCall r.uber_item_id v true]) ++
              [Event.localWrite r.uber_item_id v true]) ++ loopEvents v env rest (k + 1) := by
          simp [loopEvents, hg, hu]
        rw [e1, ih, lastWriteSuccess_snoc, lastWriteSuccess_snoc]
        by_cases he : r.uber_item_id = uid
        · simp [succeeded, Env.stepOk, hg, hu, he]
        · have he2 : ¬ uid = r.uber_item_id := fun e => he e.symm
          simp [succeeded, Env.stepOk, hg, hu, he, he2]
      · have hu2 : env.updateOk k = false := by simpa using hu
        have e1 : evs ++ loopEvents v env (r :: rest) k =
            ((evs ++ [Event.gatewayCall r.uber_item_id v true]) ++
              [Event.localWrite r.uber_item_id v false]) ++ loopEvents v env rest (k + 1) := by
          simp [loopEvents, hg, hu2]
        rw [e1, ih, lastWriteSuccess_snoc, lastWriteSuccess_snoc]
        simp [succeeded, Env.stepOk, hg, hu2]
    · have hg2 : env.gatewayOk k = false := by simpa using hg
      have e1 : evs ++ loopEvents v env (r :: rest) k =
          (evs ++ [Event.gatewayCall r.uber_item_id v false]) ++
            loopEvents v env rest (k + 1) := by
        simp [loopEvents, hg2]
      rw [e1, ih, lastWriteSuccess_snoc]
      simp [succeeded, Env.stepOk, hg2]

theorem pairedFrom_loop (v : Bool) (env : Env) (rows : List ResolvedItem) (k : Nat)
    (q : Option (String × Bool)) : pairedFrom q (loopEvents v env rows k) = true := by
  induction rows generalizing k q with
  | nil => simp [loopEvents, pairedFrom]
  | cons r rest ih =>
    by_cases hg : env.gatewayOk k = true
    · simp [loopEvents, hg, pairedFrom, ih]
    · have hg2 : env.gatewayOk k = false := by simpa using hg
      simp [loopEvents, hg2, pairedFrom, ih]

theorem pairedFrom_append (a b : List Event) (h : ∀ q, pairedFrom q b = true)
    (q : Option (String × Bool)) : pairedFrom q (a ++ b) = pairedFrom q a := by
  induction a generalizing q with
  | nil => simp [pairedFrom, h]
  | cons e rest ih =>
    cases e with
    | gatewayCall i v ok => simp [pairedFrom, ih]
    | localWrite i v ok => simp [pairedFrom, ih]

theorem stamp_uber (v : Bool) (env : Env) (rows : List ResolvedItem) (k : Nat) (m : MenuItem) :
    (stamp v env rows k m).uber_item_id = m.uber_item_id := by
  unfold stamp; split <;> rfl

/-- The invariant `Reflects` is kept by a loop. -/
theorem Reflects_worldAfter (s0 : Store) (v : Bool) (env : Env) (rows : List ResolvedItem)
    (w : World) (h : Reflects s0 w) : Reflects s0 (worldAfter v env rows w) := by
  obtain ⟨h1, h2⟩ := h
  constructor
  · have e1 : flagView ((w.db.menu_items).map (stamp v env rows 0)) =
        (flagView w.db.menu_items).map (fun p =>
          (p.1, if p.1 ∈ (succeeded env rows 0).map (fun r => r.uber_item_id) then flagOf v
                else p.2)) := by
      simp only [flagView, List.map_map]
      apply List.map_congr_left
      intro m _
      simp only [Function.comp, stamp_uber, stamp_flag]
    simp only [worldAfter]
    rw [e1, h1, List.map_map]
    apply List.map_congr_left
    intro m _
    simp only [Function.comp, lastWriteSuccess_loop]
    split_ifs <;> rfl
  · simp only [worldAfter, pairedWrites]
    rw [pairedFrom_append _ _ (pairedFrom_loop v env rows 0)]
    exact h2

theorem Reflects_appendLog (s0 : Store) (w : World) (row : ActionLog) (h : Reflects s0 w) :
    Reflects s0 (w.appendLog row) := h

/-! ## What one operation does to the world -/

theorem applyAvailability_world (v : Bool) (env : Env) (ing : String) (w : World) :
    (applyAvailability v env ing w).2 = w ∨
      (applyAvailability v env ing w).2 = worldAfter v env (selectByIngredient w.db ing) w := by
  by_cases hs : env.selectOk = true
  · by_cases h0 : selectByIngredient w.db ing = []
    · left; rw [applyAvailability_notFound v env ing w hs h0]
    · right; rw [applyAvailability_ok v env ing w hs h0]
  · have hs2 : env.selectOk = false := by simpa using hs
    left; rw [applyAvailability_dbError v env ing w hs2]

theorem post86_world (env : Env) (req : ApplyRequest) (w : World) :
    (post86 env req w).2 = w ∨
      ∃ ing, (post86 env req w).2 = worldAfter false env (selectByIngredient w.db ing) w ∨
        ∃ row, (post86 env req w).2 =
          (worldAfter false env (selectByIngredient w.db ing) w).appendLog row := by
  obtain ⟨oi, user⟩ := req
  cases oi with
  | none => left; rw [post86_invalid env _ w (Or.inl rfl)]
  | some ing =>
    by_cases hne : ing = ""
    · left; rw [post86_invalid env _ w (Or.inr (by simp [hne]))]
    · by_cases hs : env.selectOk = true
      · by_cases h0 : selectByIngredient w.db ing = []
        · left; rw [post86_notFound env ing user w hne hs h0]
        · by_cases hi : env.insertOk = true
          · right
            exact ⟨ing, Or.inr ⟨_, by rw [post86_ok env ing user w hne hs h0 hi]⟩⟩
          · have hi2 : env.insertOk = false := by simpa using hi
            right
            exact ⟨ing, Or.inl (by rw [post86_insertFail env ing user w hne hs h0 hi2])⟩
      · have hs2 : env.selectOk = false := by simpa using hs
        left; rw [post86_dbError env ing user w hne hs2]

theorem postRestore_world (env : Env) (req : ApplyRequest) (w : World) :
    (postRestore env req w).2 = w ∨
      ∃ ing, (postRestore env req w).2 = worldAfter true env (selectByIngredient w.db ing) w ∨
        ∃ row, (postRestore env req w).2 =
          (worldAfter true env (selectByIngredient w.db ing) w).appendLog row := by
  obtain ⟨oi, user⟩ := req
  cases oi with
  | none => left; rw [postRestore_invalid env _ w (Or.inl rfl)]
  | some ing =>
    by_cases hne : ing = ""
    · left; rw [postRestore_invalid env _ w (Or.inr (by simp [hne]))]
    · by_cases hs : env.selectOk = true
      · by_cases h0 : selectByIngredient w.db ing = []
        · left; rw [postRestore_notFound env ing user w hne hs h0]
        · by_cases hi : env.insertOk = true
          · right
            exact ⟨ing, Or.inr ⟨_, by rw [postRestore_ok env ing user w hne hs h0 hi]⟩⟩
          · have hi2 : env.insertOk = false := by simpa using hi
            right
            exact ⟨ing, Or.inl (by rw [postRestore_insertFail env ing user w hne hs h0 hi2])⟩
      · have hs2 : env.selectOk = false := by simpa using hs
        left; rw [postRestore_dbError env ing user w hne hs2]

/-- After one operation the world is as before, or as after one loop, or as
after one loop with one more audit row. -/
theorem Op.run_cases (op : Op) (w : World) :
    op.run w = w ∨
      ∃ v env rows, op.run w = worldAfter v env rows w ∨
        ∃ row, op.run w = (worldAfter v env rows w).appendLog row := by
  cases op with
  | remove env ing =>
    simp only [Op.run, remove_eq_apply]
    rcases applyAvailability_world false env ing w with h | h
    · exact Or.inl h
    · exact Or.inr ⟨_, _, _, Or.inl h⟩
  | restore env ing =>
    simp only [Op.run, restore_eq_apply]
    rcases applyAvailability_world true env ing w with h | h
    · exact Or.inl h
    · exact Or.inr ⟨_, _, _, Or.inl h⟩
  | route86 env req =>
    simp only [Op.run]
    rcases post86_world env req w with h | ⟨ing, h | ⟨row, h⟩⟩
    · exact Or.inl h
    · exact Or.inr ⟨_, _, _, Or.inl h⟩
    · exact Or.inr ⟨_, _, _, Or.inr ⟨row, h⟩⟩
  | routeRestore env req =>
    simp only [Op.run]
    rcases postRestore_world env req w with h | ⟨ing, h | ⟨row, h⟩⟩
    · exact Or.inl h
    · exact Or.inr ⟨_, _, _, Or.inl h⟩
    · exact Or.inr ⟨_, _, _, Or.inr ⟨row, h⟩⟩

theorem Reflects_run (s0 : Store) (op : Op) (w : World) (h : Reflects s0 w) :
    Reflects s0 (op.run w) := by
  rcases Op.run_cases op w with e | ⟨v, env, rows, e | ⟨row, e⟩⟩
  · rw [e]; exact h
  · rw [e]; exact Reflects_worldAfter s0 v env rows w h
  · rw [e]; exact Reflects_appendLog s0 _ row (Reflects_worldAfter s0 v env rows w h)

theorem Reflects_runOps (s0 : Store) (ops : List Op) (w : World) (h : Reflects s0 w) :
    Reflects s0 (runOps ops w) := by
  induction ops generalizing w with
  | nil => exact h
  | cons op rest ih => exact ih _ (Reflects_run s0 op w h)

theorem Reflects_init (s0 : Store) : Reflects s0 { db := s0, events := [] } := by
  constructor
  · simp [flagView, lastWriteSuccess]
  · rfl

/-- C4, as stated, fails: in the store of the pearls example, after one
`removeIngredientFromMenu("pearls")` whose gateway calls resolve and whose UPDATEs
are rejected, the most recent gateway call that succeeded for the drink asked for
unavailable, while the drink is still stored with `is_available = 1`. -/
theorem flag_differs_from_last_gateway_success :
    lastGatewaySuccess
        (runOps [Op.remove envWritesFail "pearls"] { db := pearlStore, events := [] }).events
        "drink_pearl_milk_tea_001" = some false ∧
      flagView
        (runOps [Op.remove envWritesFail "pearls"] { db := pearlStore, events := [] }).db.menu_items
        = [("drink_pearl_milk_tea_001", 1), ("topping_pearls_001", 1)] := by
  decide

/-- C4, amended. After every sequence of operations (the two apply operations,
called directly or through their routes), whatever the outcome of each gateway
call and each database statement, every menu item's stored `is_available` is the
value of the most recent local write for that item that resolved, or its
initial value when there is none; and every local write of the trace, resolved
or not, comes directly after a gateway call for the same item and the same value
that resolved, so no stored flag is the value of a gateway call that failed. -/
theorem flag_reflects_last_applied_call (s : Store) (ops : List Op) :
    flagView (runOps ops { db := s, events := [] }).db.menu_items =
        s.menu_items.map (fun m =>
          (m.uber_item_id,
            match lastWriteSuccess (runOps ops { db := s, events := [] }).events
                m.uber_item_id with
            | some v => if v then 1 else 0
            | none => m.is_available)) ∧
      pairedWrites (runOps ops { db := s, events := [] }).events = true :=
  Reflects_runOps s ops _ (Reflects_init s)

/-! ## When no iteration succeeds -/

theorem stamp_of_succeeded_nil (v : Bool) (env : Env) (rows : List ResolvedItem) (k : Nat)
    (h : succeeded env rows k = []) (m : MenuItem) : stamp v env rows k m = m := by
  have hs := lastWriteTime_isSome env rows k m.uber_item_id
  rw [h] at hs
  cases hl : lastWriteTime env rows k m.uber_item_id with
  | some t => rw [hl] at hs; simp at hs
  | none => simp [stamp, hl]

theorem worldAfter_db_of_succeeded_nil (v : Bool) (env : Env) (rows : List ResolvedItem)
    (w : World) (h : succeeded env rows 0 = []) : (worldAfter v env rows w).db = w.db := by
  have e : w.db.menu_items.map (stamp v env rows 0) = w.db.menu_items := by
    conv_rhs => rw [← List.map_id w.db.menu_items]
    exact List.map_congr_left fun m _ => stamp_of_succeeded_nil v env rows 0 h m
  simp [worldAfter, e]

theorem bucketsAfter_of_succeeded_nil (env : Env) (rows : List ResolvedItem)
    (h : succeeded env rows 0 = []) : bucketsAfter env rows = { drinks := [], toppings := [] } := by
  simp [bucketsAfter, h, drinkNames, toppingNames]

theorem stepOk_false_of_some_fail (env : Env)
    (h : ∀ k, env.gatewayOk k = false ∨ env.updateOk k = false) (k : Nat) :
    env.stepOk k = false := by
  rcases h k with h | h <;> simp [Env.stepOk, h]

/-- C5, as stated, fails: in the store of the pearls example, when the gateway
rejects every call and the INSERT of `logAction` is rejected as well, `/api/86`
answers `pearls` with status 500 and appends no `action_logs` row, although the
ingredient resolves and every per-item operation failed. -/
theorem route_error_when_every_item_fails :
    selectByIngredient pearlStore "pearls" ≠ [] ∧
      (∀ k, envAllFail.gatewayOk k = false) ∧
      (post86 envAllFail { ingredient := some "pearls", user := none }
          { db := pearlStore, events := [] }).1 =
        .failure 500 "Failed to remove ingredient from menu"
          (some "SQLITE_BUSY: database is locked") ∧
      (post86 envAllFail { ingredient := some "pearls", user := none }
          { db := pearlStore, events := [] }).2.db.action_logs = [] :=
  ⟨by decide, fun _ => rfl, by decide, by decide⟩

/-- C5, amended. When the resolution answers with at least one row and every
iteration fails (its gateway call or its local write is rejected), both apply
operations (`v = false` remove, `v = true` restore) return normally with both
buckets empty and leave every table as it was; for a non-empty ingredient the
routes then answer with the success object and append exactly one `action_logs`
row, whose `affected_items` is the serialisation of two empty lists, provided the
INSERT of `logAction` resolves; when that INSERT is rejected they answer with
status 500 and append no row. -/
theorem all_items_fail (v : Bool) (env : Env) (ing : String) (user : Option String) (w : World)
    (hsel : env.selectOk = true) (hres : selectByIngredient w.db ing ≠ [])
    (hfail : ∀ k, env.gatewayOk k = false ∨ env.updateOk k = false) :
    ∃ w1,
      (if v then restoreIngredientToMenu env ing w else removeIngredientFromMenu env ing w) =
        (.ok { drinks := [], toppings := [] }, w1) ∧
      w1.db = w.db ∧
      (ing ≠ "" → env.insertOk = true →
        (∃ (msg : String) (row : ActionLog) (w2 : World),
          post86 env { ingredient := some ing, user := user } w =
            (.success ing "affectedItems" { drinks := [], toppings := [] } msg, w2) ∧
          w2.db.action_logs = w.db.action_logs ++ [row] ∧ row.action = "86" ∧
          row.affected_items = "\x7b\"drinks\":[],\"toppings\":[]\x7d") ∧
        (∃ (msg : String) (row : ActionLog) (w2 : World),
          postRestore env { ingredient := some ing, user := user } w =
            (.success ing "restoredItems" { drinks := [], toppings := [] } msg, w2) ∧
          w2.db.action_logs = w.db.action_logs ++ [row] ∧ row.action = "restore" ∧
          row.affected_items = "\x7b\"drinks\":[],\"toppings\":[]\x7d")) ∧
      (ing ≠ "" → env.insertOk = false →
        (∃ (e : String) (d : Option String) (w2 : World),
          post86 env { ingredient := some ing, user := user } w = (.failure 500 e d, w2) ∧
          w2.db.action_logs = w.db.action_logs) ∧
        (∃ (e : String) (d : Option String) (w2 : World),
          postRestore env { ingredient := some ing, user := user } w = (.failure 500 e d, w2) ∧
          w2.db.action_logs = w.db.action_logs)) := by
  have hnone := succeeded_none env (stepOk_false_of_some_fail env hfail)
    (selectByIngredient w.db ing) 0
  have hb := bucketsAfter_of_succeeded_nil env _ hnone
  have hop := applyAvailability_ok v env ing w hsel hres
  rw [hb] at hop
  refine ⟨_, hop, worldAfter_db_of_succeeded_nil v env _ w hnone, ?_, ?_⟩
  · intro hne hins
    have h1 := post86_ok env ing user w hne hsel hres hins
    have h2 := postRestore_ok env ing user w hne hsel hres hins
    rw [hb] at h1 h2
    have hj : JSON_stringify { drinks := [], toppings := [] } =
        "\x7b\"drinks\":[],\"toppings\":[]\x7d" := by decide
    exact ⟨⟨_, _, _, h1, rfl, rfl, hj⟩, ⟨_, _, _, h2, rfl, rfl, hj⟩⟩
  · intro hne hins
    exact ⟨⟨_, _, _, post86_insertFail env ing user w hne hsel hres hins, rfl⟩,
      ⟨_, _, _, postRestore_insertFail env ing user w hne hsel hres hins, rfl⟩⟩

/-- C5 amended, at the store of the pearls example with a gateway that rejects
every call and a database that answers. -/
theorem all_items_fail_witness :
    envGatewayDown.selectOk = true ∧ selectByIngredient pearlStore "pearls" ≠ [] ∧
    (∀ k, envGatewayDown.gatewayOk k = false ∨ envGatewayDown.updateOk k = false) ∧
    ∃ w1,
      removeIngredientFromMenu envGatewayDown "pearls" { db := pearlStore, events := [] } =
        (.ok { drinks := [], toppings := [] }, w1) ∧
      w1.db = pearlStore := by
  refine ⟨rfl, by decide, fun _ => Or.inl rfl, ?_⟩
  obtain ⟨w1, h1, h2, _⟩ :=
    all_items_fail false envGatewayDown "pearls" none { db := pearlStore, events := [] }
      rfl (by decide) (fun _ => Or.inl rfl)
  exact ⟨w1, h1, h2⟩

/-- C6, as stated, fails: in the store of the pearls example, a request to
`/api/restore` for `pearls`, which resolves to two items, appends no
`action_logs` row when the INSERT of `logAction` is rejected, although both
items have been processed. -/
theorem resolved_request_without_audit_row :
    selectByIngredient pearlStore "pearls" ≠ [] ∧
      (postRestore envInsertFails { ingredient := some "pearls", user := some "al" }
          { db := pearlStore, events := [] }).2.db.action_logs = [] ∧
      gatewayCalls
        (postRestore envInsertFails { ingredient := some "pearls", user := some "al" }
          { db := pearlStore, events := [] }).2.events =
        [("drink_pearl_milk_tea_001", true), ("topping_pearls_001", true)] := by
  decide

/-- C6, amended. For every request to `/api/86` or `/api/restore` whose non-empty
ingredient resolves to at least one item: when the INSERT of `logAction` resolves,
exactly one `action_logs` row is appended, to the world that the apply operation
left (after all items have been processed), with action `86` or `restore`
respectively, the request's ingredient, the request's user (`unknown` when the
user is absent or the empty string) and `affected_items` the JSON serialisation
of exactly the buckets the operation returned, which are the buckets of the
response; when the INSERT is rejected no row is appended. -/
theorem one_audit_row (env : Env) (ing : String) (user : Option String) (w : World)
    (hne : ing ≠ "") (hsel : env.selectOk = true) (hres : selectByIngredient w.db ing ≠ []) :
    ∃ (b1 b2 : ItemNames) (w1 w1r : World),
      removeIngredientFromMenu env ing w = (.ok b1, w1) ∧
      restoreIngredientToMenu env ing w = (.ok b2, w1r) ∧
      (env.insertOk = true →
        (∃ (msg : String) (w2 : World),
          post86 env { ingredient := some ing, user := user } w =
            (.success ing "affectedItems" b1 msg, w2) ∧
          w2.events = w1.events ∧ w2.db.menu_items = w1.db.menu_items ∧
          w2.db.action_logs = w.db.action_logs ++
            [{ action := "86", ingredient := ing, user := userOrUnknown user,
               affected_items := JSON_stringify b1, timestamp := env.logNow }]) ∧
        (∃ (msg : String) (w2 : World),
          postRestore env { ingredient := some ing, user := user } w =
            (.success ing "restoredItems" b2 msg, w2) ∧
          w2.events = w1r.events ∧ w2.db.menu_items = w1r.db.menu_items ∧
          w2.db.action_logs = w.db.action_logs ++
            [{ action := "restore", ingredient := ing, user := userOrUnknown user,
               affected_items := JSON_stringify b2, timestamp := env.logNow }])) ∧
      (env.insertOk = false →
        (post86 env { ingredient := some ing, user := user } w).2.db.action_logs =
            w.db.action_logs ∧
          (postRestore env { ingredient := some ing, user := user } w).2.db.action_logs =
            w.db.action_logs) ∧
      (user = none ∨ user = some "" → userOrUnknown user = "unknown") ∧
      (∀ u, user = some u → u ≠ "" → userOrUnknown user = u) := by
  have h1 := applyAvailability_ok false env ing w hsel hres
  have h2 := applyAvailability_ok true env ing w hsel hres
  rw [← remove_eq_apply] at h1
  rw [← restore_eq_apply] at h2
  refine ⟨_, _, _, _, h1, h2, ?_, ?_, ?_, ?_⟩
  · intro hins
    exact ⟨⟨_, _, post86_ok env ing user w hne hsel hres hins, rfl, rfl, rfl⟩,
      ⟨_, _, postRestore_ok env ing user w hne hsel hres hins, rfl, rfl, rfl⟩⟩
  · intro hins
    rw [post86_insertFail env ing user w hne hsel hres hins,
      postRestore_insertFail env ing user w hne hsel hres hins]
    exact ⟨rfl, rfl⟩
  · rintro (h | h) <;> simp [h, userOrUnknown]
  · intro u hu hne2
    simp [hu, userOrUnknown, hne2]

/-- C6 amended, at the store of the pearls example with a world in which every
call resolves: the row appended by `/api/86` for a request without a user. -/
theorem one_audit_row_witness :
    ("pearls" : String) ≠ "" ∧ envAllOk.selectOk = true ∧
    selectByIngredient pearlStore "pearls" ≠ [] ∧
    ∃ (b1 : ItemNames) (msg : String) (w2 : World),
      post86 envAllOk { ingredient := some "pearls", user := none }
          { db := pearlStore, events := [] } =
        (.success "pearls" "affectedItems" b1 msg, w2) ∧
      w2.db.action_logs =
        [{ action := "86", ingredient := "pearls", user := "unknown",
           affected_items := JSON_stringify b1, timestamp := envAllOk.logNow }] := by
  refine ⟨by decide, rfl, by decide, ?_⟩
  obtain ⟨b1, _, w1, _, _, _, h, _, _, _⟩ :=
    one_audit_row envAllOk "pearls" none { db := pearlStore, events := [] }
      (by decide) rfl (by decide)
  obtain ⟨⟨msg, w2, hp, _, _, hl⟩, _⟩ := h rfl
  exact ⟨b1, msg, w2, hp, hl⟩

/-- C7, as stated, fails: in the store of the pearls example, when every call of
the loop resolves and the INSERT of `logAction` is rejected, `/api/86` answers
`pearls` with the error response of status 500 although the request has made both
gateway calls and has stored both items as unavailable. -/
theorem error_response_after_mutations :
    (post86 envInsertFails { ingredient := some "pearls", user := none }
        { db := pearlStore, events := [] }).1 =
      .failure 500 "Failed to remove ingredient from menu"
        (some "SQLITE_BUSY: database is locked") ∧
    gatewayCalls
      (post86 envInsertFails { ingredient := some "pearls", user := none }
        { db := pearlStore, events := [] }).2.events =
      [("drink_pearl_milk_tea_001", false), ("topping_pearls_001", false)] ∧
    flagView pearlStore.menu_items =
      [("drink_pearl_milk_tea_001", 1), ("topping_pearls_001", 1)] ∧
    flagView
      (post86 envInsertFails { ingredient := some "pearls", user := none }
        { db := pearlStore, events := [] }).2.db.menu_items =
      [("drink_pearl_milk_tea_001", 0), ("topping_pearls_001", 0)] := by
  decide

/-- C7, amended. When the INSERT of `logAction` is not rejected, an error
response of `/api/86` or `/api/restore` (validation, not-found, a rejected
resolution query) leaves the world exactly as it was: no gateway call has been
made and no table has been changed; and once a non-empty ingredient has resolved
to at least one item the response is the success object whatever the outcome of
each gateway call and each local write. -/
theorem error_response_atomic (env : Env) (req : ApplyRequest) (w : World)
    (hins : env.insertOk = true) :
    (∀ status e d, (post86 env req w).1 = .failure status e d → (post86 env req w).2 = w) ∧
    (∀ status e d,
      (postRestore env req w).1 = .failure status e d → (postRestore env req w).2 = w) ∧
    (∀ ing, req.ingredient = some ing → ing ≠ "" → env.selectOk = true →
      selectByIngredient w.db ing ≠ [] →
      (∃ (b : ItemNames) (msg : String) (w2 : World),
        post86 env req w = (.success ing "affectedItems" b msg, w2)) ∧
      (∃ (b : ItemNames) (msg : String) (w2 : World),
        postRestore env req w = (.success ing "restoredItems" b msg, w2))) := by
  obtain ⟨oi, user⟩ := req
  refine ⟨?_, ?_, ?_⟩
  · intro status e d hf
    cases oi with
    | none => rw [post86_invalid env _ w (Or.inl rfl)]
    | some ing =>
      by_cases hne : ing = ""
      · rw [post86_invalid env _ w (Or.inr (by simp [hne]))]
      · by_cases hs : env.selectOk = true
        · by_cases h0 : selectByIngredient w.db ing = []
          · rw [post86_notFound env ing user w hne hs h0]
          · rw [post86_ok env ing user w hne hs h0 hins] at hf
            exact absurd hf (by simp)
        · have hs2 : env.selectOk = false := by simpa using hs
          rw [post86_dbError env ing user w hne hs2]
  · intro status e d hf
    cases oi with
    | none => rw [postRestore_invalid env _ w (Or.inl rfl)]
    | some ing =>
      by_cases hne : ing = ""
      · rw [postRestore_invalid env _ w (Or.inr (by simp [hne]))]
      · by_cases hs : env.selectOk = true
        · by_cases h0 : selectByIngredient w.db ing = []
          · rw [postRestore_notFound env ing user w hne hs h0]
          · rw [postRestore_ok env ing user w hne hs h0 hins] at hf
            exact absurd hf (by simp)
        · have hs2 : env.selectOk = false := by simpa using hs
          rw [postRestore_dbError env ing user w hne hs2]
  · intro ing hi hne hs h0
    simp only at hi
    subst hi
    exact ⟨⟨_, _, _, post86_ok env ing user w hne hs h0 hins⟩,
      ⟨_, _, _, postRestore_ok env ing user w hne hs h0 hins⟩⟩

/-- C7 amended, at the store of the pearls example for the ingredient `mango`,
which no item contains: the error response leaves the world as it was. -/
theorem error_response_atomic_witness :
    envAllOk.insertOk = true ∧
    (post86 envAllOk { ingredient := some "mango", user := none }
        { db := pearlStore, events := [] }).2 = { db := pearlStore, events := [] } :=
  ⟨rfl,
    (error_response_atomic envAllOk { ingredient := some "mango", user := none }
      { db := pearlStore, events := [] } rfl).1 500 "Failed to remove ingredient from menu"
      (some "No menu items found containing \"mango\"") (by decide)⟩

/-! ## Two operations in a row -/

theorem succeeded_map (env1 env2 : Env) (h : ∀ k, env2.stepOk k = env1.stepOk k)
    (f : ResolvedItem → ResolvedItem) (rows : List ResolvedItem) (k : Nat) :
    succeeded env2 (rows.map f) k = (succeeded env1 rows k).map f := by
  induction rows generalizing k with
  | nil => rfl
  | cons r rest ih =>
    by_cases hk : env1.stepOk k = true
    · simp [succeeded, h, hk, ih]
    · simp [succeeded, h, hk, ih]

theorem succeeded_ids_stampRow (env1 env2 : Env) (h : ∀ k, env2.stepOk k = env1.stepOk k)
    (v : Bool) (rows0 rows : List ResolvedItem) (k : Nat) :
    (succeeded env2 (rows.map (stampRow v env1 rows0 0)) k).map (fun r => r.uber_item_id) =
      (succeeded env1 rows k).map (fun r => r.uber_item_id) := by
  rw [succeeded_map env1 env2 h, List.map_map]
  apply List.map_congr_left
  intro r _
  exact (stampRow_fields v env1 rows0 0 r).2.1

theorem gatewayCalls_loop (v : Bool) (env : Env) (rows : List ResolvedItem) (k : Nat)
    (evs : List Event) :
    gatewayCalls (evs ++ loopEvents v env rows k) =
      gatewayCalls evs ++ rows.map (fun r => (r.uber_item_id, v)) := by
  induction rows generalizing k with
  | nil => simp [loopEvents, gatewayCalls]
  | cons r rest ih =>
    have ih1 := ih (k + 1)
    simp only [gatewayCalls, List.filterMap_append] at ih1 ⊢
    by_cases hg : env.gatewayOk k = true
    · simp only [loopEvents, hg, if_true, List.filterMap_append, List.filterMap_cons,
        List.filterMap_nil, List.map_cons]
      have := List.append_cancel_left ih1
      rw [this]
      simp
    · simp only [loopEvents, hg, if_false, List.filterMap_append, List.filterMap_cons,
        List.filterMap_nil, List.map_cons]
      have := List.append_cancel_left ih1
      rw [this]
      simp

theorem names_map_stampRow (v : Bool) (env : Env) (rows0 rows : List ResolvedItem) :
    drinkNames (rows.map (stampRow v env rows0 0)) = drinkNames rows ∧
      toppingNames (rows.map (stampRow v env rows0 0)) = toppingNames rows := by
  induction rows with
  | nil => exact ⟨rfl, rfl⟩
  | cons r rest ih =>
    obtain ⟨_, _, hn, ht, _⟩ := stampRow_fields v env rows0 0 r
    have hT : (stampRow v env rows0 0 r).isTopping = r.isTopping := by
      simp [ResolvedItem.isTopping, ht]
    obtain ⟨ihd, iht⟩ := ih
    simp only [drinkNames, toppingNames] at ihd iht ⊢
    constructor
    · by_cases hr : r.isTopping = true
      · simp [List.filter_cons, hT, hr, ihd]
      · simp [List.filter_cons, hT, hr, ihd, hn]
    · by_cases hr : r.isTopping = true
      · simp [List.filter_cons, hT, hr, iht, hn]
      · simp [List.filter_cons, hT, hr, iht]

theorem select_worldAfter (v : Bool) (env : Env) (rows : List ResolvedItem) (w : World)
    (ing : String) :
    selectByIngredient (worldAfter v env rows w).db ing =
      (selectByIngredient w.db ing).map (stampRow v env rows 0) := by
  simp only [worldAfter, select_stamp]

theorem flagView_stamp_twice (v : Bool) (env1 env2 : Env) (rows rows1 : List ResolvedItem)
    (hids : (succeeded env2 rows1 0).map (fun r => r.uber_item_id) =
      (succeeded env1 rows 0).map (fun r => r.uber_item_id))
    (items : List MenuItem) :
    flagView ((items.map (stamp v env1 rows 0)).map (stamp v env2 rows1 0)) =
      flagView (items.map (stamp v env1 rows 0)) := by
  simp only [flagView, List.map_map]
  apply List.map_congr_left
  intro m _
  simp only [Function.comp, stamp_uber, stamp_flag, hids]
  split_ifs <;> rfl

/-- C8. Idempotence of `removeIngredientFromMenu`: when the resolution query, the
gateway and the database have the same outcome at every iteration of both
calls, the stored flag of every menu item after the second of two calls in a
row is its flag after the first; the items resolved are the same; and the second
call still sends one gateway call per resolved row, in resolution order. -/
theorem remove_twice_same_state (env1 env2 : Env) (ing : String) (w : World)
    (hsel : env2.selectOk = env1.selectOk)
    (hgw : ∀ k, env2.gatewayOk k = env1.gatewayOk k)
    (hup : ∀ k, env2.updateOk k = env1.updateOk k) :
    flagView
        (removeIngredientFromMenu env2 ing (removeIngredientFromMenu env1 ing w).2).2.db.menu_items
      = flagView (removeIngredientFromMenu env1 ing w).2.db.menu_items ∧
    (selectByIngredient (removeIngredientFromMenu env1 ing w).2.db ing).map
        (fun r => r.uber_item_id) =
      (selectByIngredient w.db ing).map (fun r => r.uber_item_id) ∧
    (env1.selectOk = true →
      gatewayCalls
          (removeIngredientFromMenu env2 ing (removeIngredientFromMenu env1 ing w).2).2.events =
        gatewayCalls (removeIngredientFromMenu env1 ing w).2.events ++
          (selectByIngredient (removeIngredientFromMenu env1 ing w).2.db ing).map
            (fun r => (r.uber_item_id, false))) := by
  have hstep : ∀ k, env2.stepOk k = env1.stepOk k := fun k => by
    simp [Env.stepOk, hgw, hup]
  simp only [remove_eq_apply]
  by_cases hs : env1.selectOk = true
  · have hs2 : env2.selectOk = true := by rw [hsel, hs]
    by_cases h0 : selectByIngredient w.db ing = []
    · rw [applyAvailability_notFound false env1 ing w hs h0]
      simp only
      rw [applyAvailability_notFound false env2 ing w hs2 h0]
      simp [h0]
    · rw [applyAvailability_ok false env1 ing w hs h0]
      simp only
      have hsel1 := select_worldAfter false env1 (selectByIngredient w.db ing) w ing
      have h1 : selectByIngredient
          (worldAfter false env1 (selectByIngredient w.db ing) w).db ing ≠ [] := by
        rw [hsel1]; simpa using h0
      rw [applyAvailability_ok false env2 ing _ hs2 h1]
      simp only
      refine ⟨?_, ?_, ?_⟩
      · rw [hsel1]
        exact flagView_stamp_twice false env1 env2 _ _
          (succeeded_ids_stampRow env1 env2 hstep false _ _ 0) w.db.menu_items
      · rw [hsel1, List.map_map]
        apply List.map_congr_left
        intro r _
        exact (stampRow_fields false env1 _ 0 r).2.1
      · intro _
        simp only [worldAfter, gatewayCalls_loop]
  · have hs1 : env1.selectOk = false := by simpa using hs
    have hs2 : env2.selectOk = false := by rw [hsel, hs1]
    rw [applyAvailability_dbError false env1 ing w hs1]
    simp only
    rw [applyAvailability_dbError false env2 ing w hs2]
    simp [hs1]

/-- C8, at the store of the pearls example, with the gateway rejecting the first
call of the loop both times. -/
theorem remove_twice_same_state_witness :
    flagView
        (removeIngredientFromMenu envFirstGatewayFails "pearls"
          (removeIngredientFromMenu envFirstGatewayFails "pearls"
            { db := pearlStore, events := [] }).2).2.db.menu_items
      = flagView
        (removeIngredientFromMenu envFirstGatewayFails "pearls"
          { db := pearlStore, events := [] }).2.db.menu_items :=
  (remove_twice_same_state envFirstGatewayFails envFirstGatewayFails "pearls"
    { db := pearlStore, events := [] } rfl (fun _ => rfl) (fun _ => rfl)).1

/-- C9. Round trip: when the resolution answers with at least one row and every
call of both operations resolves, `removeIngredientFromMenu` followed by
`restoreIngredientToMenu` on the same ingredient returns, from the restore, the
buckets that the remove returned, resolves the same items, and leaves every
resolved item (each of which the remove had stored as unavailable) stored with
`is_available = 1`. -/
theorem remove_then_restore (env1 env2 : Env) (ing : String) (w : World)
    (hres : selectByIngredient w.db ing ≠ [])
    (hsel1 : env1.selectOk = true) (hgw1 : ∀ k, env1.gatewayOk k = true)
    (hup1 : ∀ k, env1.updateOk k = true)
    (hsel2 : env2.selectOk = true) (hgw2 : ∀ k, env2.gatewayOk k = true)
    (hup2 : ∀ k, env2.updateOk k = true) :
    ∃ (b1 b2 : ItemNames) (w1 w2 : World),
      removeIngredientFromMenu env1 ing w = (.ok b1, w1) ∧
      restoreIngredientToMenu env2 ing w1 = (.ok b2, w2) ∧
      b2 = b1 ∧
      (∀ r ∈ selectByIngredient w1.db ing, r.is_available = 0) ∧
      (selectByIngredient w2.db ing).map (fun r => r.uber_item_id) =
        (selectByIngredient w.db ing).map (fun r => r.uber_item_id) ∧
      (∀ r ∈ selectByIngredient w2.db ing, r.is_available = 1) := by
  have hall1 := stepOk_of_all env1 hgw1 hup1
  have hall2 := stepOk_of_all env2 hgw2 hup2
  have hop1 := applyAvailability_ok false env1 ing w hsel1 hres
  rw [← remove_eq_apply] at hop1
  have hsel := select_worldAfter false env1 (selectByIngredient w.db ing) w ing
  have h1 : selectByIngredient
      (worldAfter false env1 (selectByIngredient w.db ing) w).db ing ≠ [] := by
    rw [hsel]; simpa using hres
  have hop2 := applyAvailability_ok true env2 ing _ hsel2 h1
  rw [← restore_eq_apply] at hop2
  refine ⟨_, _, _, _, hop1, hop2, ?_, ?_, ?_, ?_⟩
  · rw [hsel]
    simp only [bucketsAfter, succeeded_all env1 hall1, succeeded_all env2 hall2]
    obtain ⟨hd, ht⟩ := names_map_stampRow false env1 (selectByIngredient w.db ing)
      (selectByIngredient w.db ing)
    rw [hd, ht]
  · intro r hr
    rw [hsel, List.mem_map] at hr
    obtain ⟨r0, hr0, rfl⟩ := hr
    rw [stampRow_flag, succeeded_all env1 hall1]
    have : r0.uber_item_id ∈ (selectByIngredient w.db ing).map fun x => x.uber_item_id :=
      List.mem_map.2 ⟨r0, hr0, rfl⟩
    simp [this, flagOf]
  · rw [select_worldAfter, hsel, List.map_map, List.map_map]
    apply List.map_congr_left
    intro r _
    simp only [Function.comp]
    rw [(stampRow_fields true env2 _ 0 _).2.1, (stampRow_fields false env1 _ 0 r).2.1]
  · intro r hr
    rw [select_worldAfter, List.mem_map] at hr
    obtain ⟨r1, hr1, rfl⟩ := hr
    rw [stampRow_flag, succeeded_all env2 hall2]
    have : r1.uber_item_id ∈
        (selectByIngredient (worldAfter false env1 (selectByIngredient w.db ing) w).db ing).map
          fun x => x.uber_item_id :=
      List.mem_map.2 ⟨r1, hr1, rfl⟩
    simp [this, flagOf]

/-- C9, at the store of the pearls example with a world in which every call
resolves. -/
theorem remove_then_restore_witness :
    selectByIngredient pearlStore "pearls" ≠ [] ∧
    ∃ (b1 b2 : ItemNames) (w1 w2 : World),
      removeIngredientFromMenu envAllOk "pearls" { db := pearlStore, events := [] } =
        (.ok b1, w1) ∧
      restoreIngredientToMenu envAllOk "pearls" w1 = (.ok b2, w2) ∧
      b2 = b1 ∧
      (∀ r ∈ selectByIngredient w2.db "pearls", r.is_available = 1) := by
  refine ⟨by decide, ?_⟩
  obtain ⟨b1, b2, w1, w2, h1, h2, h3, _, _, h6⟩ :=
    remove_then_restore envAllOk envAllOk "pearls" { db := pearlStore, events := [] }
      (by decide) rfl (fun _ => rfl) (fun _ => rfl) rfl (fun _ => rfl) (fun _ => rfl)
  exact ⟨b1, b2, w1, w2, h1, h2, h3, h6⟩

/-! ## Overall status -/

theorem flagsBoolean_worldAfter (v : Bool) (env : Env) (rows : List ResolvedItem) (w : World)
    (h : w.db.flagsBoolean) : (worldAfter v env rows w).db.flagsBoolean := by
  intro m hm
  simp only [worldAfter, List.mem_map] at hm
  obtain ⟨m0, hm0, rfl⟩ := hm
  rw [stamp_flag]
  split_ifs
  · cases v <;> simp [flagOf]
  · exact h m0 hm0

theorem flagsBoolean_run (op : Op) (w : World) (h : w.db.flagsBoolean) :
    (op.run w).db.flagsBoolean := by
  rcases Op.run_cases op w with e | ⟨v, env, rows, e | ⟨row, e⟩⟩
  · rw [e]; exact h
  · rw [e]; exact flagsBoolean_worldAfter v env rows w h
  · rw [e]; exact flagsBoolean_worldAfter v env rows w h

theorem flagsBoolean_runOps (ops : List Op) (w : World) (h : w.db.flagsBoolean) :
    (runOps ops w).db.flagsBoolean := by
  induction ops generalizing w with
  | nil => exact h
  | cons op rest ih => exact ih _ (flagsBoolean_run op w h)

theorem counts_add_up (g : List MenuItem) (h : ∀ m ∈ g, m.is_available = 0 ∨ m.is_available = 1) :
    (g.map fun m => if m.is_available = 1 then 1 else 0).sum +
        (g.map fun m => if m.is_available = 0 then 1 else 0).sum = g.length := by
  induction g with
  | nil => rfl
  | cons m rest ih =>
    have ih1 := ih fun x hx => h x (List.mem_cons_of_mem _ hx)
    rcases h m (List.mem_cons_self _ _) with h0 | h1
    · simp only [List.map_cons, List.sum_cons, List.length_cons, h0]
      simp only [zero_ne_one, if_false, if_true]
      omega
    · simp only [List.map_cons, List.sum_cons, List.length_cons, h1]
      simp only [one_ne_zero, if_false, if_true]
      omega

theorem selectStatusRows_add_up (s : Store) (h : s.flagsBoolean) :
    ∀ row ∈ selectStatusRows s,
      row.available_count + row.out_of_stock_count = row.total_items := by
  intro row hrow
  simp only [selectStatusRows, List.mem_map] at hrow
  obtain ⟨t, _, rfl⟩ := hrow
  exact counts_add_up _ fun m hm => h m (List.mem_filter.1 hm).1

theorem foldl_status_add_up (rows : List StatusRow)
    (h : ∀ row ∈ rows, row.available_count + row.out_of_stock_count = row.total_items)
    (st : MenuStatus)
    (hd : st.drinks.available + st.drinks.outOfStock = st.drinks.total)
    (ht : st.toppings.available + st.toppings.outOfStock = st.toppings.total) :
    let res := rows.foldl
      (fun status row =>
        let counts : Counts :=
          { total := row.total_items, available := row.available_count,
            outOfStock := row.out_of_stock_count }
        if row.item_type = some "topping" then { status with toppings := counts }
        else { status with drinks := counts })
      st
    res.drinks.available + res.drinks.outOfStock = res.drinks.total ∧
      res.toppings.available + res.toppings.outOfStock = res.toppings.total := by
  induction rows generalizing st with
  | nil => exact ⟨hd, ht⟩
  | cons row rest ih =>
    have hr := h row (List.mem_cons_self _ _)
    have hrest := fun x hx => h x (List.mem_cons_of_mem _ hx)
    simp only [List.foldl_cons]
    by_cases hT : row.item_type = some "topping"
    · simp only [hT, if_true]
      exact ih hrest _ hd hr
    · simp only [hT, if_false]
      exact ih hrest _ hr ht

/-- C10. In every world reached from a store whose `is_available` flags are all
0 or 1 (the BOOLEAN column as every INSERT of the repository fills it) by any
sequence of the apply operations, called directly or through their routes, with
arbitrary outcomes of every gateway call and database statement,
`getOverallMenuStatus` returns, when its query is answered, counts with
`available + outOfStock = total` for `drinks` and for `toppings`. -/
theorem overall_counts_add_up (w : World) (ops : List Op) (env : Env)
    (hflags : w.db.flagsBoolean) (hsel : env.selectOk = true) :
    ∃ st : MenuStatus,
      getOverallMenuStatus env (runOps ops w) = .ok st ∧
      st.drinks.available + st.drinks.outOfStock = st.drinks.total ∧
      st.toppings.available + st.toppings.outOfStock = st.toppings.total := by
  have hf := flagsBoolean_runOps ops w hflags
  have hrows := selectStatusRows_add_up _ hf
  have hsum := foldl_status_add_up _ hrows
    { drinks := { total := 0, available := 0, outOfStock := 0 },
      toppings := { total := 0, available := 0, outOfStock := 0 } } rfl rfl
  exact ⟨fillStatus (selectStatusRows (runOps ops w).db),
    by simp [getOverallMenuStatus, hsel], hsum.1, hsum.2⟩

/-- C10, at the store of the pearls example after a remove whose first gateway
call is rejected followed by a restore through the route. -/
theorem overall_counts_add_up_witness :
    pearlStore.flagsBoolean ∧ envAllOk.selectOk = true ∧
    ∃ st : MenuStatus,
      getOverallMenuStatus envAllOk
          (runOps [Op.remove envFirstGatewayFails "pearls",
                   Op.routeRestore envAllOk { ingredient := some "pearls", user := none }]
            { db := pearlStore, events := [] }) = .ok st ∧
      st.drinks.available + st.drinks.outOfStock = st.drinks.total ∧
      st.toppings.available + st.toppings.outOfStock = st.toppings.total :=
  have hp : pearlStore.flagsBoolean := by
    intro m hm
    simp only [pearlStore, List.mem_cons, List.mem_singleton, List.not_mem_nil, or_false] at hm
    rcases hm with rfl | rfl <;> simp
  ⟨hp, rfl, overall_counts_add_up { db := pearlStore, events := [] } _ envAllOk hp rfl⟩

/-! ## Status of an ingredient -/

theorem partition_foldl (rows : List ResolvedItem) (acc : IngredientStatus) :
    rows.foldl
        (fun st item =>
          if item.item_type = some "topping" then
            if item.is_available ≠ 0 then
              { st with available := { st.available with
                  toppings := st.available.toppings ++ [item.name] } }
            else
              { st with outOfStock := { st.outOfStock with
                  toppings := st.outOfStock.toppings ++ [item.name] } }
          else
            if item.is_available ≠ 0 then
              { st with available := { st.available with
                  drinks := st.available.drinks ++ [item.name] } }
            else
              { st with outOfStock := { st.outOfStock with
                  drinks := st.outOfStock.drinks ++ [item.name] } })
        acc =
      { available :=
          { drinks := acc.available.drinks ++
              drinkNames (rows.filter fun r => r.is_available != 0),
            toppings := acc.available.toppings ++
              toppingNames (rows.filter fun r => r.is_available != 0) },
        outOfStock :=
          { drinks := acc.outOfStock.drinks ++
              drinkNames (rows.filter fun r => r.is_available == 0),
            toppings := acc.outOfStock.toppings ++
              toppingNames (rows.filter fun r => r.is_available == 0) } } := by
  induction rows generalizing acc with
  | nil => simp [drinkNames, toppingNames]
  | cons r rest ih =>
    rw [List.foldl_cons, ih]
    by_cases ht : r.item_type = some "topping"
    · by_cases ha : r.is_available = 0
      · simp [ht, ha, drinkNames, toppingNames, ResolvedItem.isTopping, List.filter_cons]
      · simp [ht, ha, drinkNames, toppingNames, ResolvedItem.isTopping, List.filter_cons]
    · by_cases ha : r.is_available = 0
      · simp [ht, ha, drinkNames, toppingNames, ResolvedItem.isTopping, List.filter_cons]
      · simp [ht, ha, drinkNames, toppingNames, ResolvedItem.isTopping, List.filter_cons]

theorem partitionByAvailability_eq (rows : List ResolvedItem) :
    partitionByAvailability rows =
      { available :=
          { drinks := drinkNames (rows.filter fun r => r.is_available != 0),
            toppings := toppingNames (rows.filter fun r => r.is_available != 0) },
        outOfStock :=
          { drinks := drinkNames (rows.filter fun r => r.is_available == 0),
            toppings := toppingNames (rows.filter fun r => r.is_available == 0) } } := by
  unfold partitionByAvailability
  rw [partition_foldl]
  simp

theorem names_length (rows : List ResolvedItem) :
    (drinkNames rows).length + (toppingNames rows).length = rows.length := by
  induction rows with
  | nil => rfl
  | cons r rest ih =>
    simp only [drinkNames, toppingNames, List.length_map] at ih ⊢
    by_cases ht : r.isTopping = true
    · simp only [List.filter_cons, ht, Bool.not_true, if_true, List.length_cons]
      simp only [Bool.false_eq_true, if_false]
      omega
    · have ht2 : r.isTopping = false := by simpa using ht
      simp only [List.filter_cons, ht2, Bool.not_false, if_true, List.length_cons]
      simp only [Bool.false_eq_true, if_false]
      omega

theorem filter_flag_length (rows : List ResolvedItem) :
    (rows.filter fun r => r.is_available != 0).length +
        (rows.filter fun r => r.is_available == 0).length = rows.length := by
  induction rows with
  | nil => rfl
  | cons r rest ih =>
    by_cases ha : r.is_available = 0
    · simp only [List.filter_cons, ha, bne_self_eq_false, beq_self_eq_true, if_true,
        List.length_cons]
      simp only [Bool.false_eq_true, if_false]
      omega
    · have h1 : (r.is_available != 0) = true := by simpa using ha
      have h2 : (r.is_available == 0) = false := by simpa using ha
      simp only [List.filter_cons, h1, h2, if_true, List.length_cons]
      simp only [Bool.false_eq_true, if_false]
      omega

theorem stampRow_flag_all_ok (v : Bool) (env : Env) (hall : ∀ k, env.stepOk k = true)
    (rows : List ResolvedItem) (r : ResolvedItem) (hr : r ∈ rows) :
    (stampRow v env rows 0 r).is_available = flagOf v := by
  rw [stampRow_flag, succeeded_all env hall]
  have : r.uber_item_id ∈ rows.map fun x => x.uber_item_id := List.mem_map.2 ⟨r, hr, rfl⟩
  simp [this]

/-- What `getIngredientStatus` partitions after a loop over `rows` in which every
iteration succeeded: all names are out of stock after a remove and available
after a restore. -/
theorem partition_after_loop_all_ok (v : Bool) (env : Env) (hall : ∀ k, env.stepOk k = true)
    (rows : List ResolvedItem) :
    partitionByAvailability (rows.map (stampRow v env rows 0)) =
      if v then
        { available := { drinks := drinkNames rows, toppings := toppingNames rows },
          outOfStock := { drinks := [], toppings := [] } }
      else
        { available := { drinks := [], toppings := [] },
          outOfStock := { drinks := drinkNames rows, toppings := toppingNames rows } } := by
  have hflag : ∀ r ∈ rows.map (stampRow v env rows 0), r.is_available = flagOf v := by
    intro r hr
    obtain ⟨r0, hr0, rfl⟩ := List.mem_map.1 hr
    exact stampRow_flag_all_ok v env hall rows r0 hr0
  obtain ⟨hd, ht⟩ := names_map_stampRow v env rows rows
  rw [partitionByAvailability_eq]
  cases v with
  | true =>
    have h1 : (rows.map (stampRow true env rows 0)).filter (fun r => r.is_available != 0) =
        rows.map (stampRow true env rows 0) :=
      List.filter_eq_self.2 fun r hr => by simp [hflag r hr, flagOf]
    have h2 : (rows.map (stampRow true env rows 0)).filter (fun r => r.is_available == 0) =
        [] :=
      List.filter_eq_nil_iff.2 fun r hr => by simp [hflag r hr, flagOf]
    rw [h1, h2, hd, ht]
    simp [drinkNames, toppingNames]
  | false =>
    have h1 : (rows.map (stampRow false env rows 0)).filter (fun r => r.is_available != 0) =
        [] :=
      List.filter_eq_nil_iff.2 fun r hr => by simp [hflag r hr, flagOf]
    have h2 : (rows.map (stampRow false env rows 0)).filter (fun r => r.is_available == 0) =
        rows.map (stampRow false env rows 0) :=
      List.filter_eq_self.2 fun r hr => by simp [hflag r hr, flagOf]
    rw [h1, h2, hd, ht]
    simp [drinkNames, toppingNames]

/-- C11. The pearls example: in the store where `pearls` is linked to exactly the
drink `Pearl Milk Tea` and the topping `Pearls`, both available, when the
resolution query, every gateway call and every local write of the call resolve,
`removeIngredientFromMenu("pearls")` returns `drinks = [Pearl Milk Tea]` and
`toppings = [Pearls]`, and a following `getIngredientStatus("pearls")` whose query
is answered returns empty `available` lists and the same two lists as
`outOfStock`. -/
theorem pearls_example (env1 env2 : Env) (events : List Event)
    (hsel1 : env1.selectOk = true) (hgw : ∀ k, env1.gatewayOk k = true)
    (hup : ∀ k, env1.updateOk k = true) (hsel2 : env2.selectOk = true) :
    ∃ w1 : World,
      removeIngredientFromMenu env1 "pearls" { db := pearlStore, events := events } =
        (.ok { drinks := ["Pearl Milk Tea"], toppings := ["Pearls"] }, w1) ∧
      getIngredientStatus env2 "pearls" w1 =
        .ok { available := { drinks := [], toppings := [] },
              outOfStock := { drinks := ["Pearl Milk Tea"], toppings := ["Pearls"] } } := by
  have hall := stepOk_of_all env1 hgw hup
  have hres : selectByIngredient pearlStore "pearls" ≠ [] := by decide
  have hop := applyAvailability_ok false env1 "pearls" { db := pearlStore, events := events }
    hsel1 hres
  rw [← remove_eq_apply] at hop
  have hd : drinkNames (selectByIngredient pearlStore "pearls") = ["Pearl Milk Tea"] := by
    decide
  have ht : toppingNames (selectByIngredient pearlStore "pearls") = ["Pearls"] := by decide
  refine ⟨worldAfter false env1 (selectByIngredient pearlStore "pearls")
    { db := pearlStore, events := events }, ?_, ?_⟩
  · rw [hop]
    simp only [bucketsAfter, succeeded_all env1 hall, hd, ht]
  · simp only [getIngredientStatus, getMenuItemsByIngredient, hsel2, if_true,
      select_worldAfter, partition_after_loop_all_ok false env1 hall, hd, ht]
    rfl

/-- C11, with the sample world in which every call resolves. -/
theorem pearls_example_witness :
    ∃ w1 : World,
      removeIngredientFromMenu envAllOk "pearls" { db := pearlStore, events := [] } =
        (.ok { drinks := ["Pearl Milk Tea"], toppings := ["Pearls"] }, w1) ∧
      getIngredientStatus envAllOk "pearls" w1 =
        .ok { available := { drinks := [], toppings := [] },
              outOfStock := { drinks := ["Pearl Milk Tea"], toppings := ["Pearls"] } } :=
  pearls_example envAllOk envAllOk [] rfl (fun _ => rfl) (fun _ => rfl) rfl

/-- C12. Whenever its query is answered, `getIngredientStatus` raises no error and
partitions the resolved rows: `available` holds, by category and in resolution
order, the names of the rows whose stored flag is truthy (non-zero) and
`outOfStock` those of the rows whose flag is 0, a topping going to `toppings` and
any other row to `drinks`; the four lengths sum to the number of resolved rows;
with no resolved row all four lists are empty. -/
theorem ingredient_status_partitions (env : Env) (ing : String) (w : World)
    (hsel : env.selectOk = true) :
    ∃ st : IngredientStatus,
      getIngredientStatus env ing w = .ok st ∧
      st.available.drinks =
        drinkNames ((selectByIngredient w.db ing).filter fun r => r.is_available != 0) ∧
      st.available.toppings =
        toppingNames ((selectByIngredient w.db ing).filter fun r => r.is_available != 0) ∧
      st.outOfStock.drinks =
        drinkNames ((selectByIngredient w.db ing).filter fun r => r.is_available == 0) ∧
      st.outOfStock.toppings =
        toppingNames ((selectByIngredient w.db ing).filter fun r => r.is_available == 0) ∧
      st.available.drinks.length + st.available.toppings.length +
          st.outOfStock.drinks.length + st.outOfStock.toppings.length =
        (selectByIngredient w.db ing).length ∧
      (selectByIngredient w.db ing = [] →
        st = { available := { drinks := [], toppings := [] },
               outOfStock := { drinks := [], toppings := [] } }) := by
  refine ⟨partitionByAvailability (selectByIngredient w.db ing), ?_, ?_, ?_, ?_, ?_, ?_, ?_⟩
  · simp [getIngredientStatus, getMenuItemsByIngredient, hsel]
  · rw [partitionByAvailability_eq]
  · rw [partitionByAvailability_eq]
  · rw [partitionByAvailability_eq]
  · rw [partitionByAvailability_eq]
  · rw [partitionByAvailability_eq]
    simp only
    have h1 := names_length
      ((selectByIngredient w.db ing).filter fun r => r.is_available != 0)
    have h2 := names_length
      ((selectByIngredient w.db ing).filter fun r => r.is_available == 0)
    have h3 := filter_flag_length (selectByIngredient w.db ing)
    omega
  · intro h0
    rw [h0]
    rfl

/-- C12, at the store of the pearls example, where both items are available. -/
theorem ingredient_status_partitions_witness :
    envAllOk.selectOk = true ∧
    getIngredientStatus envAllOk "pearls" { db := pearlStore, events := [] } =
      .ok { available := { drinks := ["Pearl Milk Tea"], toppings := ["Pearls"] },
            outOfStock := { drinks := [], toppings := [] } } := by
  refine ⟨rfl, ?_⟩
  obtain ⟨st, h, h1, h2, h3, h4, _⟩ :=
    ingredient_status_partitions envAllOk "pearls" { db := pearlStore, events := [] } rfl
  rw [h]
  have e : st = { available := { drinks := ["Pearl Milk Tea"], toppings := ["Pearls"] },
                  outOfStock := { drinks := [], toppings := [] } } := by
    obtain ⟨⟨ad, at_⟩, ⟨od, ot⟩⟩ := st
    simp only at h1 h2 h3 h4
    rw [h1, h2, h3, h4]
    decide
  rw [e]

/-! ## Resolution by name -/

theorem sameAsciiChars_iff_map (a b : List Char) :
    sameCharsIgnoringAsciiCase a b = true ↔ a.map Char.toLower = b.map Char.toLower := by
  induction a generalizing b with
  | nil => cases b <;> simp [sameCharsIgnoringAsciiCase]
  | cons c cs ih =>
    cases b with
    | nil => simp [sameCharsIgnoringAsciiCase]
    | cons d ds => simp [sameCharsIgnoringAsciiCase, ih]

theorem sameIgnoringAsciiCase_iff_LOWER (a b : String) :
    sameIgnoringAsciiCase a b ↔ LOWER a = LOWER b := by
  unfold sameIgnoringAsciiCase LOWER
  rw [sameAsciiChars_iff_map]
  constructor
  · intro h; rw [h]
  · intro h; exact congrArg String.data h

theorem sameAsciiChars_length (a b : List Char) (h : sameCharsIgnoringAsciiCase a b = true) :
    a.length = b.length := by
  have := congrArg List.length ((sameAsciiChars_iff_map a b).1 h)
  simpa using this

theorem mem_selectByIngredient (s : Store) (q : String) (r : ResolvedItem) :
    r ∈ selectByIngredient s q ↔
      ∃ mi ∈ s.menu_items, ∃ ii ∈ s.item_ingredients, ∃ i ∈ s.ingredients,
        mi.id = ii.menu_item_id ∧ ii.ingredient_id = i.id ∧ sameIgnoringAsciiCase i.name q ∧
          r = resolvedRow mi i.name := by
  simp only [selectByIngredient, List.mem_flatMap, List.mem_filter, List.mem_map,
    beq_iff_eq, sameIgnoringAsciiCase_iff_LOWER, resolvedRow]
  constructor
  · rintro ⟨mi, hmi, ii, ⟨hii, e1⟩, i, ⟨⟨hi, e2⟩, e3⟩, rfl⟩
    exact ⟨mi, hmi, ii, hii, i, hi, e1, e2, e3, rfl⟩
  · rintro ⟨mi, hmi, ii, hii, i, hi, e1, e2, e3, rfl⟩
    exact ⟨mi, hmi, ii, ⟨hii, e1⟩, i, ⟨⟨hi, e2⟩, e3⟩, rfl⟩

theorem sameChars_of_ascii (a b : List Char) (h : sameCharsIgnoringAsciiCase a b = true) :
    sameCharsIgnoringCase a b = true := by
  induction a generalizing b with
  | nil => cases b <;> simp_all [sameCharsIgnoringAsciiCase, sameCharsIgnoringCase]
  | cons c cs ih =>
    cases b with
    | nil => simp [sameCharsIgnoringAsciiCase] at h
    | cons d ds =>
      simp only [sameCharsIgnoringAsciiCase, Bool.and_eq_true, beq_iff_eq] at h
      simp only [sameCharsIgnoringCase, Bool.and_eq_true, beq_iff_eq, letterLower]
      exact ⟨by rw [h.1], ih ds h.2⟩

/-- C13, as stated, fails: `ÉCLAIR` and `éclair` are equal up to letter case, and
in a store whose ingredient `Éclair` is linked to one drink the first resolves
that drink and the second resolves nothing, so `getMenuItemsByIngredient` does not
answer alike for them. -/
theorem resolution_differs_in_accented_case :
    sameIgnoringCase "ÉCLAIR" "éclair" ∧
    (selectByIngredient eclairStore "ÉCLAIR").map (fun r => r.name) = ["Éclair Milk Tea"] ∧
    selectByIngredient eclairStore "éclair" = [] ∧
    getMenuItemsByIngredient envAllOk "ÉCLAIR" { db := eclairStore, events := [] } ≠
      getMenuItemsByIngredient envAllOk "éclair" { db := eclairStore, events := [] } := by
  refine ⟨by unfold sameIgnoringCase; decide, by decide, by decide, ?_⟩
  intro h
  have hlen := congrArg
    (fun r : Except String (List ResolvedItem) =>
      match r with
      | .ok rows => rows.length
      | .error _ => 0) h
  revert hlen
  decide

/-- C13, amended. Resolution ignores the case of the letters `A`..`Z` only, as
SQLite's `LOWER` folds them, and is otherwise exact.  For two names equal up to
the case of those letters (same length, the same characters position by position
once folded), which are in particular equal up to letter case,
`getMenuItemsByIngredient` answers alike; and a row is returned exactly for a
menu item linked to an ingredient whose whole name equals the query up to the
case of those letters, so the name of the matching ingredient has the length of
the query and a query that is a proper part of an ingredient name, or properly
contains it, does not resolve that ingredient's items. -/
theorem resolution_ignores_case_only (env : Env) (w : World) (a b : String)
    (hab : sameIgnoringAsciiCase a b) :
    sameIgnoringCase a b ∧
    getMenuItemsByIngredient env a w = getMenuItemsByIngredient env b w ∧
    (∀ (q : String) (r : ResolvedItem),
      r ∈ selectByIngredient w.db q ↔
        ∃ mi ∈ w.db.menu_items, ∃ ii ∈ w.db.item_ingredients, ∃ i ∈ w.db.ingredients,
          mi.id = ii.menu_item_id ∧ ii.ingredient_id = i.id ∧
            sameIgnoringAsciiCase i.name q ∧ r = resolvedRow mi i.name) ∧
    (∀ (q : String), ∀ r ∈ selectByIngredient w.db q,
      sameIgnoringAsciiCase r.ingredient_name q ∧ r.ingredient_name.length = q.length) := by
  refine ⟨sameChars_of_ascii a.data b.data hab, ?_,
    fun q r => mem_selectByIngredient w.db q r, ?_⟩
  · have h := (sameIgnoringAsciiCase_iff_LOWER a b).1 hab
    simp only [getMenuItemsByIngredient, selectByIngredient, h]
  · intro q r hr
    obtain ⟨mi, _, ii, _, i, _, _, _, h3, rfl⟩ := (mem_selectByIngredient w.db q r).1 hr
    exact ⟨h3, sameAsciiChars_length _ _ h3⟩

/-- C13, amended, for `PEARLS` and `pearls` in the store of the pearls example;
and in the store with `boba` and `popping boba` the query `boba` resolves the
boba topping only. -/
theorem resolution_ignores_case_only_witness :
    sameIgnoringAsciiCase "PEARLS" "pearls" ∧
    getMenuItemsByIngredient envAllOk "PEARLS" { db := pearlStore, events := [] } =
      getMenuItemsByIngredient envAllOk "pearls" { db := pearlStore, events := [] } ∧
    (selectByIngredient bobaStore "boba").map (fun r => r.name) = ["Add Boba Topping"] :=
  have h : sameIgnoringAsciiCase "PEARLS" "pearls" := by
    unfold sameIgnoringAsciiCase
    decide
  ⟨h,
    (resolution_ignores_case_only envAllOk { db := pearlStore, events := [] }
      "PEARLS" "pearls" h).2.1,
    by decide⟩

/-! ## Validation -/

/-- C14. A request to `/api/86` or `/api/restore` whose ingredient is missing or
the empty string is answered with status 400 and the error `Ingredient is
required`, whatever the outside world would do (so without awaiting the
resolution query), and leaves the world as it was: no gateway call, no write to
`menu_items`, no `action_logs` row. -/
theorem missing_ingredient_rejected (env : Env) (req : ApplyRequest) (w : World)
    (h : req.ingredient = none ∨ req.ingredient = some "") :
    post86 env req w = (.failure 400 "Ingredient is required" none, w) ∧
    postRestore env req w = (.failure 400 "Ingredient is required" none, w) :=
  ⟨post86_invalid env req w h, postRestore_invalid env req w h⟩

/-- C14, for a request with the empty ingredient in a world whose database would
reject every statement. -/
theorem missing_ingredient_rejected_witness :
    post86 envAllFail { ingredient := some "", user := some "al" }
        { db := pearlStore, events := [] } =
      (.failure 400 "Ingredient is required" none, { db := pearlStore, events := [] }) :=
  (missing_ingredient_rejected envAllFail { ingredient := some "", user := some "al" }
    { db := pearlStore, events := [] } (Or.inr rfl)).1

/-- C15, as stated, fails: `/api/86` does not reject an ingredient of three spaces
as a validation failure; it resolves it, finds no item in the store of the
pearls example and answers with status 500 and the not-found message. -/
theorem blank_ingredient_is_resolved :
    (post86 envAllOk { ingredient := some "   ", user := none }
        { db := pearlStore, events := [] }).1 =
      .failure 500 "Failed to remove ingredient from menu"
        (some "No menu items found containing \"   \"") ∧
    (post86 envAllOk { ingredient := none, user := none }
        { db := pearlStore, events := [] }).1 =
      .failure 400 "Ingredient is required" none := by
  decide

/-- C15, amended. The routes do not trim: every non-empty ingredient string, one
of spaces only included, passes validation and is resolved as it stands.  The
answer is never the validation error of status 400; it is status 500 with the
database error when the resolution query is rejected and status 500 with the
not-found message when the string resolves to no item. -/
theorem nonempty_ingredient_is_resolved (env : Env) (ing : String) (user : Option String)
    (w : World) (hne : ing ≠ "") :
    (∀ e d, (post86 env { ingredient := some ing, user := user } w).1 ≠ .failure 400 e d) ∧
    (∀ e d, (postRestore env { ingredient := some ing, user := user } w).1 ≠
      .failure 400 e d) ∧
    (env.selectOk = false →
      post86 env { ingredient := some ing, user := user } w =
        (.failure 500 "Failed to remove ingredient from menu" (some env.dbError), w) ∧
      postRestore env { ingredient := some ing, user := user } w =
        (.failure 500 "Failed to restore ingredient to menu" (some env.dbError), w)) ∧
    (env.selectOk = true → selectByIngredient w.db ing = [] →
      post86 env { ingredient := some ing, user := user } w =
        (.failure 500 "Failed to remove ingredient from menu"
          (some ("No menu items found containing \"" ++ ing ++ "\"")), w) ∧
      postRestore env { ingredient := some ing, user := user } w =
        (.failure 500 "Failed to restore ingredient to menu"
          (some ("No menu items found containing \"" ++ ing ++ "\"")), w)) := by
  have key : ∀ e d,
      (post86 env { ingredient := some ing, user := user } w).1 ≠ .failure 400 e d ∧
      (postRestore env { ingredient := some ing, user := user } w).1 ≠ .failure 400 e d := by
    intro e d
    by_cases hs : env.selectOk = true
    · by_cases h0 : selectByIngredient w.db ing = []
      · rw [post86_notFound env ing user w hne hs h0,
          postRestore_notFound env ing user w hne hs h0]
        simp
      · by_cases hi : env.insertOk = true
        · rw [post86_ok env ing user w hne hs h0 hi, postRestore_ok env ing user w hne hs h0 hi]
          simp
        · have hi2 : env.insertOk = false := by simpa using hi
          rw [post86_insertFail env ing user w hne hs h0 hi2,
            postRestore_insertFail env ing user w hne hs h0 hi2]
          simp
    · have hs2 : env.selectOk = false := by simpa using hs
      rw [post86_dbError env ing user w hne hs2, postRestore_dbError env ing user w hne hs2]
      simp
  refine ⟨fun e d => (key e d).1, fun e d => (key e d).2, ?_, ?_⟩
  · intro hs
    exact ⟨post86_dbError env ing user w hne hs, postRestore_dbError env ing user w hne hs⟩
  · intro hs h0
    exact ⟨post86_notFound env ing user w hne hs h0,
      postRestore_notFound env ing user w hne hs h0⟩

/-- C15 amended, for an ingredient of three spaces in the store of the pearls
example. -/
theorem nonempty_ingredient_is_resolved_witness :
    ("   " : String) ≠ "" ∧
    post86 envAllOk { ingredient := some "   ", user := none }
        { db := pearlStore, events := [] } =
      (.failure 500 "Failed to remove ingredient from menu"
        (some ("No menu items found containing \"" ++ "   " ++ "\"")),
        { db := pearlStore, events := [] }) :=
  ⟨by decide,
    ((nonempty_ingredient_is_resolved envAllOk "   " none { db := pearlStore, events := [] }
      (by decide)).2.2.2 rfl (by decide)).1⟩

/-! ## Shape of the responses -/

/-- C16, as stated, fails: the success response of `/api/restore` carries the
categorised result under the key `restoredItems`, not `affectedItems`. -/
theorem restore_response_key :
    (postRestore envAllOk { ingredient := some "pearls", user := none }
        { db := pearlStore, events := [] }).1 =
      .success "pearls" "restoredItems"
        { drinks := ["Pearl Milk Tea"], toppings := ["Pearls"] }
        "Successfully restored pearls to menu" := by
  decide

/-- C16, amended. For a non-empty ingredient whose resolution query is answered:
when at least one item is resolved and the INSERT of `logAction` resolves, the
response is the success object with the ingredient, the categorised result and a
message, the result being carried under the key `affectedItems` by `/api/86` and
under the key `restoredItems` by `/api/restore`; when no item is resolved, both
routes answer with status 500, an `error` and the not-found message as
`details`. -/
theorem response_shapes (env : Env) (ing : String) (user : Option String) (w : World)
    (hne : ing ≠ "") (hsel : env.selectOk = true) :
    (selectByIngredient w.db ing ≠ [] → env.insertOk = true →
      (∃ (items : ItemNames) (w2 : World),
        post86 env { ingredient := some ing, user := user } w =
          (.success ing "affectedItems" items
            ("Successfully removed " ++ ing ++ " from menu"), w2)) ∧
      (∃ (items : ItemNames) (w2 : World),
        postRestore env { ingredient := some ing, user := user } w =
          (.success ing "restoredItems" items
            ("Successfully restored " ++ ing ++ " to menu"), w2))) ∧
    (selectByIngredient w.db ing = [] →
      post86 env { ingredient := some ing, user := user } w =
        (.failure 500 "Failed to remove ingredient from menu"
          (some ("No menu items found containing \"" ++ ing ++ "\"")), w) ∧
      postRestore env { ingredient := some ing, user := user } w =
        (.failure 500 "Failed to restore ingredient to menu"
          (some ("No menu items found containing \"" ++ ing ++ "\"")), w)) := by
  constructor
  · intro h0 hi
    exact ⟨⟨_, _, post86_ok env ing user w hne hsel h0 hi⟩,
      ⟨_, _, postRestore_ok env ing user w hne hsel h0 hi⟩⟩
  · intro h0
    exact ⟨post86_notFound env ing user w hne hsel h0,
      postRestore_notFound env ing user w hne hsel h0⟩

/-- C16 amended, at the store of the pearls example: the success response of
`/api/86`. -/
theorem response_shapes_witness :
    ("pearls" : String) ≠ "" ∧ envAllOk.selectOk = true ∧
    ∃ (items : ItemNames) (w2 : World),
      post86 envAllOk { ingredient := some "pearls", user := none }
          { db := pearlStore, events := [] } =
        (.success "pearls" "affectedItems" items
          ("Successfully removed " ++ "pearls" ++ " from menu"), w2) :=
  ⟨by decide, rfl,
    ((response_shapes envAllOk "pearls" none { db := pearlStore, events := [] }
      (by decide) rfl).1 (by decide) rfl).1⟩

/-! ## Overall status with several categories -/

/-- C17 fails on the code: in a store with one item of category `drink`, one item
without category and one topping, all available, `getOverallMenuStatus` reports
one drink although two items are not toppings, so the two totals sum to 2 while
`menu_items` holds 3 rows: the row of each group overwrites the bucket it maps
to. -/
theorem overall_status_drops_a_group :
    getOverallMenuStatus envAllOk { db := mixedStore, events := [] } =
      .ok { drinks := { total := 1, available := 1, outOfStock := 0 },
            toppings := { total := 1, available := 1, outOfStock := 0 } } ∧
    (mixedStore.menu_items.filter fun m => m.item_type != some "topping").length = 2 ∧
    mixedStore.menu_items.length = 3 :=
  ⟨rfl, by decide, by decide⟩

/-! ## Listings -/

theorem charsLE_total (a b : List Char) : charsLE a b = true ∨ charsLE b a = true := by
  induction a generalizing b with
  | nil => left; simp [charsLE]
  | cons x xs ih =>
    cases b with
    | nil => right; simp [charsLE]
    | cons y ys =>
      rcases Nat.lt_trichotomy x.toNat y.toNat with h | h | h
      · left; simp [charsLE, h]
      · have h1 : ¬ x.toNat < y.toNat := by omega
        have h2 : ¬ y.toNat < x.toNat := by omega
        rcases ih ys with h3 | h3
        · left; simp [charsLE, h1, h2, h3]
        · right; simp [charsLE, h1, h2, h3]
      · right; simp [charsLE, h]

theorem charsLE_trans (a b c : List Char) (hab : charsLE a b = true)
    (hbc : charsLE b c = true) : charsLE a c = true := by
  induction a generalizing b c with
  | nil => simp [charsLE]
  | cons x xs ih =>
    cases b with
    | nil => simp [charsLE] at hab
    | cons y ys =>
      cases c with
      | nil => simp [charsLE] at hbc
      | cons z zs =>
        simp only [charsLE] at hab hbc ⊢
        by_cases h1 : x.toNat < y.toNat
        · by_cases h2 : y.toNat < z.toNat
          · have : x.toNat < z.toNat := by omega
            simp [this]
          · by_cases h3 : z.toNat < y.toNat
            · simp [h2, h3] at hbc
            · have : x.toNat < z.toNat := by omega
              simp [this]
        · by_cases h1b : y.toNat < x.toNat
          · simp [h1, h1b] at hab
          · simp only [h1, h1b, if_false] at hab
            by_cases h2 : y.toNat < z.toNat
            · have : x.toNat < z.toNat := by omega
              simp [this]
            · by_cases h3 : z.toNat < y.toNat
              · simp [h2, h3] at hbc
              · simp only [h2, h3, if_false] at hbc
                have h4 : ¬ x.toNat < z.toNat := by omega
                have h5 : ¬ z.toNat < x.toNat := by omega
                simp only [h4, h5, if_false]
                exact ih ys zs hab hbc

theorem sorted_names (l : List String) :
    (l.insertionSort fun a b => nameLE a b = true).Sorted fun a b => nameLE a b = true := by
  haveI : IsTotal String (fun a b => nameLE a b = true) :=
    ⟨fun a b => charsLE_total a.data b.data⟩
  haveI : IsTrans String (fun a b => nameLE a b = true) :=
    ⟨fun a b c h1 h2 => charsLE_trans a.data b.data c.data h1 h2⟩
  exact List.sorted_insertionSort _ l

theorem sorted_items (l : List MenuItem) :
    (l.insertionSort fun a b => nameLE a.name b.name = true).Sorted
      fun a b => nameLE a.name b.name = true := by
  haveI : IsTotal MenuItem (fun a b => nameLE a.name b.name = true) :=
    ⟨fun a b => charsLE_total a.name.data b.name.data⟩
  haveI : IsTrans MenuItem (fun a b => nameLE a.name b.name = true) :=
    ⟨fun a b c h1 h2 => charsLE_trans a.name.data b.name.data c.name.data h1 h2⟩
  exact List.sorted_insertionSort _ l

/-- C18, as stated, fails: with the ingredients `pearls` and `Pearls` stored,
`getAvailableIngredients` returns both, two names that are equal up to letter
case. -/
theorem ingredient_list_not_case_distinct :
    getAvailableIngredients envAllOk { db := twoCaseStore, events := [] } =
      .ok ["Pearls", "pearls"] ∧
    sameIgnoringCase "Pearls" "pearls" ∧ ("Pearls" : String) ≠ "pearls" :=
  ⟨rfl, by unfold sameIgnoringCase; decide, by decide⟩

/-- C18, amended. Whenever its query is answered, `getAvailableIngredients`
returns exactly the stored ingredient names, each once (distinct as exact
strings), sorted ascending in the order of SQLite's default collation. -/
theorem ingredient_list_sorted_distinct (env : Env) (w : World) (hsel : env.selectOk = true) :
    ∃ names : List String,
      getAvailableIngredients env w = .ok names ∧
      (∀ n, n ∈ names ↔ ∃ i ∈ w.db.ingredients, i.name = n) ∧
      names.Nodup ∧
      names.Sorted (fun a b => nameLE a b = true) := by
  refine ⟨selectDistinctNames w.db, by simp [getAvailableIngredients, hsel], ?_, ?_, ?_⟩
  · intro n
    unfold selectDistinctNames
    rw [(List.perm_insertionSort _ _).mem_iff, List.mem_dedup, List.mem_map]
  · unfold selectDistinctNames
    exact (List.perm_insertionSort _ _).nodup_iff.2 (List.nodup_dedup _)
  · exact sorted_names _

/-- C18 amended, at the store of the pearls example. -/
theorem ingredient_list_sorted_distinct_witness :
    envAllOk.selectOk = true ∧
    ∃ names : List String,
      getAvailableIngredients envAllOk { db := pearlStore, events := [] } = .ok names ∧
      names.Nodup := by
  refine ⟨rfl, ?_⟩
  obtain ⟨names, h1, _, h3, _⟩ :=
    ingredient_list_sorted_distinct envAllOk { db := pearlStore, events := [] } rfl
  exact ⟨names, h1, h3⟩

/-- C19. Whenever its query is answered, `getMenuItems` raises no error and
returns items ordered by name; for the filter `drink` or `topping` they are
exactly the stored items of that category, and for an absent filter or any other
value they are all stored items. -/
theorem menu_items_listing (env : Env) (type : Option String) (w : World)
    (hsel : env.selectOk = true) :
    ∃ items : List MenuItem,
      getMenuItems env type w = .ok items ∧
      items.Sorted (fun a b => nameLE a.name b.name = true) ∧
      (∀ t, type = some t → (t = "drink" ∨ t = "topping") →
        items.Perm (w.db.menu_items.filter fun m => m.item_type == some t)) ∧
      ((∀ t, type = some t → ¬ (t = "drink" ∨ t = "topping")) →
        items.Perm w.db.menu_items) := by
  cases type with
  | none =>
    refine ⟨selectMenuItems w.db none, by simp [getMenuItems, hsel], sorted_items _, ?_, ?_⟩
    · intro t ht; cases ht
    · intro _
      exact List.perm_insertionSort _ _
  | some t =>
    by_cases hv : t = "drink" ∨ t = "topping"
    · have hne : t ≠ "" := by
        rcases hv with h | h <;> rw [h] <;> decide
      refine ⟨selectMenuItems w.db (some t), by simp [getMenuItems, hsel, hv, hne],
        sorted_items _, ?_, ?_⟩
      · intro t2 ht2 _
        cases ht2
        exact List.perm_insertionSort _ _
      · intro h
        exact absurd hv (h t rfl)
    · refine ⟨selectMenuItems w.db none, by simp [getMenuItems, hsel, hv], sorted_items _,
        ?_, ?_⟩
      · intro t2 ht2 hv2
        cases ht2
        exact absurd hv2 hv
      · intro _
        exact List.perm_insertionSort _ _

/-- C19, at the store of the pearls example with the filter `topping`. -/
theorem menu_items_listing_witness :
    envAllOk.selectOk = true ∧
    ∃ items : List MenuItem,
      getMenuItems envAllOk (some "topping") { db := pearlStore, events := [] } = .ok items ∧
      items.Perm (pearlStore.menu_items.filter fun m => m.item_type == some "topping") := by
  refine ⟨rfl, ?_⟩
  obtain ⟨items, h1, _, h3, _⟩ :=
    menu_items_listing envAllOk (some "topping") { db := pearlStore, events := [] } rfl
  exact ⟨items, h1, h3 "topping" rfl (Or.inr rfl)⟩

/-! ## The gateway request -/

/-- What `updateItemAvailability` does in each case.  It posts a request whose
`item_id` is the given id and whose `suspension_info` is null exactly when
`isAvailable` is true, and otherwise has the reason `OUT_OF_STOCK` and
`suspended_until` null; when the post resolves it returns the response body;
when the post is rejected with a response whose body is neither `null` nor
`undefined` it throws a new error whose message is `UberEats API Error: <status>
- <message>`, the message being `Unknown error` when the body has no `message`
or a falsy one; when the body is `null` or `undefined` it throws a TypeError;
when the post is rejected without a response it throws the error it caught,
unchanged; the three thrown values are of different kinds. -/
theorem updateItemAvailabilityCall_cases (cfg : UberEatsConfig)
    (axiosPost : PostRequest → PostOutcome) (uberItemId : String) (isAvailable : Bool) :
    (updateItemAvailabilityCall cfg axiosPost uberItemId isAvailable).1.data.item_id =
      uberItemId ∧
    ((updateItemAvailabilityCall cfg axiosPost uberItemId isAvailable).1.data.suspension_info =
      none ↔ isAvailable = true) ∧
    (isAvailable = false →
      (updateItemAvailabilityCall cfg axiosPost uberItemId isAvailable).1.data.suspension_info =
        some { reason := "OUT_OF_STOCK", suspended_until := none }) ∧
    (∀ data,
      axiosPost (updateItemAvailabilityCall cfg axiosPost uberItemId isAvailable).1 =
          .resolved data →
        (updateItemAvailabilityCall cfg axiosPost uberItemId isAvailable).2 = .ok data) ∧
    (∀ error status,
      axiosPost (updateItemAvailabilityCall cfg axiosPost uberItemId isAvailable).1 =
          .rejected error →
        (error.response = some { status := status, data := .withoutMessage } →
          (updateItemAvailabilityCall cfg axiosPost uberItemId isAvailable).2 =
            .error (.created ("UberEats API Error: " ++ toString status ++ " - " ++
              "Unknown error"))) ∧
        (∀ value, error.response = some { status := status, data := .withMessage value } →
          (updateItemAvailabilityCall cfg axiosPost uberItemId isAvailable).2 =
            .error (.created ("UberEats API Error: " ++ toString status ++ " - " ++
              (if value.truthy then value.text else "Unknown error")))) ∧
        (error.response = some { status := status, data := .nullish } →
          (updateItemAvailabilityCall cfg axiosPost uberItemId isAvailable).2 =
            .error .typeError)) ∧
    (∀ error,
      axiosPost (updateItemAvailabilityCall cfg axiosPost uberItemId isAvailable).1 =
          .rejected error →
        error.response = none →
        (updateItemAvailabilityCall cfg axiosPost uberItemId isAvailable).2 =
          .error (.original error)) ∧
    (∀ (m : String) (error : AxiosError),
      Thrown.created m ≠ Thrown.original error ∧ Thrown.typeError ≠ Thrown.created m ∧
        Thrown.typeError ≠ Thrown.original error) := by
  have hreq : (updateItemAvailabilityCall cfg axiosPost uberItemId isAvailable).1 =
      availabilityRequest cfg uberItemId isAvailable := by
    unfold updateItemAvailabilityCall
    simp only
    split
    · rfl
    · split
      · split <;> rfl
      · rfl
  rw [hreq]
  refine ⟨rfl, ?_, ?_, ?_, ?_, ?_, ?_⟩
  · cases isAvailable <;> simp [availabilityRequest]
  · intro h; subst h; rfl
  · intro data h
    simp [updateItemAvailabilityCall, h]
  · intro error status h
    refine ⟨?_, ?_, ?_⟩
    · intro hr
      simp only [updateItemAvailabilityCall, h, hr, readMessage, messageOrUnknown]
    · intro value hr
      simp only [updateItemAvailabilityCall, h, hr, readMessage, messageOrUnknown]
    · intro hr
      simp only [updateItemAvailabilityCall, h, hr, readMessage]
  · intro error h hr
    simp [updateItemAvailabilityCall, h, hr]
  · intro m error
    refine ⟨?_, ?_, ?_⟩ <;> intro h <;> cases h

/-- C20, at a failing input. The remote answers the post for `item_011` with
status 502 and the JSON body `null`: `updateItemAvailability` throws the TypeError
of reading `message` of `null`, which is no error with a message, so neither the
status code nor `Unknown error` reaches the caller; had the body been an object
without `message`, or one whose `message` is `Bad Gateway`, the error thrown
would carry the status code with `Unknown error`, or with that message. -/
theorem gateway_error_without_status :
    (updateItemAvailabilityCall sampleConfig
        (fun _ => .rejected { message := "Request failed with status code 502",
                              response := some { status := 502, data := .nullish } })
        "item_011" false).2 = .error .typeError ∧
    (∀ m : String, Thrown.typeError ≠ Thrown.created m) ∧
    (updateItemAvailabilityCall sampleConfig
        (fun _ => .rejected { message := "Request failed with status code 502",
                              response := some { status := 502, data := .withoutMessage } })
        "item_011" false).2 = .error (.created "UberEats API Error: 502 - Unknown error") ∧
    (updateItemAvailabilityCall sampleConfig
        (fun _ => .rejected { message := "Request failed with status code 502",
                              response := some { status := 502,
                                                 data := .withMessage (.string "Bad Gateway") } })
        "item_011" false).2 = .error (.created "UberEats API Error: 502 - Bad Gateway") :=
  ⟨rfl, fun _ h => Thrown.noConfusion h, rfl, rfl⟩

/-! ## Status after an apply operation -/

/-- C30. Status agrees with the apply result: when the resolution answers with at
least one row and every gateway call and local write of the operation resolve, a
following `getIngredientStatus` on the same ingredient whose query is answered
returns, after `removeIngredientFromMenu`, empty `available` lists and as
`outOfStock` the very buckets the call returned, and after
`restoreIngredientToMenu`, as `available` the buckets the call returned and empty
`outOfStock` lists. -/
theorem status_agrees_with_result (env1 env2 : Env) (ing : String) (w : World)
    (hres : selectByIngredient w.db ing ≠ [])
    (hsel1 : env1.selectOk = true) (hgw : ∀ k, env1.gatewayOk k = true)
    (hup : ∀ k, env1.updateOk k = true) (hsel2 : env2.selectOk = true) :
    (∃ (b : ItemNames) (w1 : World),
      removeIngredientFromMenu env1 ing w = (.ok b, w1) ∧
      getIngredientStatus env2 ing w1 =
        .ok { available := { drinks := [], toppings := [] }, outOfStock := b }) ∧
    (∃ (b : ItemNames) (w1 : World),
      restoreIngredientToMenu env1 ing w = (.ok b, w1) ∧
      getIngredientStatus env2 ing w1 =
        .ok { available := b, outOfStock := { drinks := [], toppings := [] } }) := by
  have hall := stepOk_of_all env1 hgw hup
  have h1 := applyAvailability_ok false env1 ing w hsel1 hres
  have h2 := applyAvailability_ok true env1 ing w hsel1 hres
  rw [← remove_eq_apply] at h1
  rw [← restore_eq_apply] at h2
  have hb : bucketsAfter env1 (selectByIngredient w.db ing) =
      { drinks := drinkNames (selectByIngredient w.db ing),
        toppings := toppingNames (selectByIngredient w.db ing) } := by
    simp [bucketsAfter, succeeded_all env1 hall]
  constructor
  · refine ⟨_, _, h1, ?_⟩
    simp only [getIngredientStatus, getMenuItemsByIngredient, hsel2, if_true,
      select_worldAfter, partition_after_loop_all_ok false env1 hall, hb]
    rfl
  · refine ⟨_, _, h2, ?_⟩
    simp only [getIngredientStatus, getMenuItemsByIngredient, hsel2, if_true,
      select_worldAfter, partition_after_loop_all_ok true env1 hall, hb]

/-- C30, at the store with `boba` and `popping boba`. -/
theorem status_agrees_with_result_witness :
    selectByIngredient bobaStore "boba" ≠ [] ∧
    ∃ (b : ItemNames) (w1 : World),
      removeIngredientFromMenu envAllOk "boba" { db := bobaStore, events := [] } =
        (.ok b, w1) ∧
      getIngredientStatus envAllOk "boba" w1 =
        .ok { available := { drinks := [], toppings := [] }, outOfStock := b } :=
  ⟨by decide,
    (status_agrees_with_result envAllOk envAllOk "boba" { db := bobaStore, events := [] }
      (by decide) rfl (fun _ => rfl) (fun _ => rfl) rfl).1⟩

/-- C29. Restore ignores an item's other ingredients: in the store where the drink
`Taro Milk Tea with Boba` is linked to `boba` and to `taro`, after
`removeIngredientFromMenu("boba")`, `removeIngredientFromMenu("taro")` and
`restoreIngredientToMenu("boba")`, every call resolving, the drink is stored with
`is_available = 1` and `getIngredientStatus("taro")` lists it under `available`,
although `taro` was never restored. -/
theorem restore_ignores_other_ingredients :
    ∃ (s : Store) (a b : String) (name : String),
      a ≠ b ∧
      (selectByIngredient s a).map (fun r => r.name) = [name] ∧
      (selectByIngredient s b).map (fun r => r.name) = [name] ∧
      flagView
          (runOps [Op.remove envAllOk a, Op.remove envAllOk b, Op.restore envAllOk a]
            { db := s, events := [] }).db.menu_items = [("item_002", 1)] ∧
      flagView
          (runOps [Op.remove envAllOk a, Op.remove envAllOk b]
            { db := s, events := [] }).db.menu_items = [("item_002", 0)] ∧
      getIngredientStatus envAllOk b
          (runOps [Op.remove envAllOk a, Op.remove envAllOk b, Op.restore envAllOk a]
            { db := s, events := [] }) =
        .ok { available := { drinks := [name], toppings := [] },
              outOfStock := { drinks := [], toppings := [] } } :=
  ⟨taroStore, "boba", "taro", "Taro Milk Tea with Boba",
    by decide, by decide, by decide, by decide, by decide, rfl⟩

/-! ## Remove and restore side by side -/

theorem succeeded_subset (env : Env) (rows : List ResolvedItem) (k : Nat) (r : ResolvedItem)
    (h : r ∈ succeeded env rows k) : r ∈ rows := by
  obtain ⟨i, hi, _⟩ := (mem_succeeded env rows k r).1 h
  exact List.getElem?_mem hi

theorem succeeded_sublist (env : Env) (rows : List ResolvedItem) (k : Nat) :
    (succeeded env rows k).Sublist rows := by
  induction rows generalizing k with
  | nil => exact List.Sublist.slnil
  | cons r rest ih =>
    by_cases hk : env.stepOk k = true
    · simp only [succeeded, hk, if_true]
      exact (ih (k + 1)).cons₂ r
    · simp only [succeeded, hk, if_false]
      exact (ih (k + 1)).cons r

theorem stamp_true_of_false (env : Env) (rows : List ResolvedItem) (k : Nat) (m : MenuItem) :
    stamp true env rows k m =
      if (stamp false env rows k m).uber_item_id ∈
          (succeeded env rows k).map (fun r => r.uber_item_id)
      then { stamp false env rows k m with is_available := 1 }
      else stamp false env rows k m := by
  have h := lastWriteTime_isSome env rows k m.uber_item_id
  rw [stamp_uber]
  cases hl : lastWriteTime env rows k m.uber_item_id with
  | some t =>
    rw [hl] at h
    simp [stamp, hl, h.1 rfl, flagOf]
  | none =>
    rw [hl] at h
    have hm : ¬ m.uber_item_id ∈ (succeeded env rows k).map fun r => r.uber_item_id :=
      fun e => by simpa using h.2 e
    simp [stamp, hl, hm]

theorem stamp_of_not_resolved (v : Bool) (env : Env) (rows : List ResolvedItem) (k : Nat)
    (m : MenuItem) (h : m.uber_item_id ∉ rows.map fun r => r.uber_item_id) :
    stamp v env rows k m = m := by
  have hs := lastWriteTime_isSome env rows k m.uber_item_id
  cases hl : lastWriteTime env rows k m.uber_item_id with
  | some t =>
    rw [hl] at hs
    obtain ⟨r, hr, e⟩ := List.mem_map.1 (hs.1 rfl)
    exact absurd (List.mem_map.2 ⟨r, succeeded_subset env rows k r hr, e⟩) h
  | none => simp [stamp, hl]

theorem stamp_fields (v : Bool) (env : Env) (rows : List ResolvedItem) (k : Nat) (m : MenuItem) :
    (stamp v env rows k m).id = m.id ∧
      (stamp v env rows k m).uber_item_id = m.uber_item_id ∧
      (stamp v env rows k m).name = m.name ∧
      (stamp v env rows k m).item_type = m.item_type := by
  unfold stamp
  split <;> simp

/-- C27. `restoreIngredientToMenu` and `removeIngredientFromMenu` are one procedure
up to the availability value: in the same world and under the same outcomes of
the resolution query, of every gateway call and of every local write, they return
the same result (the same error or the same buckets); they send gateway calls
for the same item ids in the same order, with `true` and with `false`; and the
stores they leave are equal except that each item written by a succeeded
iteration is stored with 1 by the restore and with 0 by the remove. -/
theorem restore_mirrors_remove (env : Env) (ing : String) (w : World) :
    (restoreIngredientToMenu env ing w).1 = (removeIngredientFromMenu env ing w).1 ∧
    (∃ ids : List String,
      gatewayCalls (removeIngredientFromMenu env ing w).2.events =
        gatewayCalls w.events ++ ids.map (fun i => (i, false)) ∧
      gatewayCalls (restoreIngredientToMenu env ing w).2.events =
        gatewayCalls w.events ++ ids.map (fun i => (i, true))) ∧
    (restoreIngredientToMenu env ing w).2.db.ingredients =
      (removeIngredientFromMenu env ing w).2.db.ingredients ∧
    (restoreIngredientToMenu env ing w).2.db.item_ingredients =
      (removeIngredientFromMenu env ing w).2.db.item_ingredients ∧
    (restoreIngredientToMenu env ing w).2.db.action_logs =
      (removeIngredientFromMenu env ing w).2.db.action_logs ∧
    (∃ written : List String,
      (env.selectOk = true →
        written =
          (succeeded env (selectByIngredient w.db ing) 0).map (fun r => r.uber_item_id)) ∧
      (restoreIngredientToMenu env ing w).2.db.menu_items =
        (removeIngredientFromMenu env ing w).2.db.menu_items.map (fun m =>
          if m.uber_item_id ∈ written then { m with is_available := 1 } else m) ∧
      (∀ m ∈ (removeIngredientFromMenu env ing w).2.db.menu_items,
        m.uber_item_id ∈ written → m.is_available = 0)) := by
  rw [remove_eq_apply, restore_eq_apply]
  by_cases hs : env.selectOk = true
  · by_cases h0 : selectByIngredient w.db ing = []
    · rw [applyAvailability_notFound true env ing w hs h0,
        applyAvailability_notFound false env ing w hs h0]
      refine ⟨rfl, ⟨[], by simp, by simp⟩, rfl, rfl, rfl, [], ?_, by simp, by simp⟩
      intro _
      simp [h0, succeeded]
    · rw [applyAvailability_ok true env ing w hs h0,
        applyAvailability_ok false env ing w hs h0]
      refine ⟨rfl, ⟨(selectByIngredient w.db ing).map fun r => r.uber_item_id, ?_, ?_⟩,
        rfl, rfl, rfl,
        (succeeded env (selectByIngredient w.db ing) 0).map (fun r => r.uber_item_id),
        fun _ => rfl, ?_, ?_⟩
      · simp only [worldAfter, gatewayCalls_loop, List.map_map]
        rfl
      · simp only [worldAfter, gatewayCalls_loop, List.map_map]
        rfl
      · simp only [worldAfter, List.map_map]
        apply List.map_congr_left
        intro m _
        exact stamp_true_of_false env _ 0 m
      · intro m hm hmem
        simp only [worldAfter, List.mem_map] at hm
        obtain ⟨m0, _, rfl⟩ := hm
        rw [stamp_uber] at hmem
        rw [stamp_flag, if_pos hmem]
        rfl
  · have hs2 : env.selectOk = false := by simpa using hs
    rw [applyAvailability_dbError true env ing w hs2,
      applyAvailability_dbError false env ing w hs2]
    refine ⟨rfl, ⟨[], by simp, by simp⟩, rfl, rfl, rfl, [], ?_, by simp, by simp⟩
    intro h
    rw [hs2] at h
    cases h

/-- C28. Frame of the apply operations (`v = false` remove, `v = true` restore),
whatever the outcome of every call: the tables `ingredients`, `item_ingredients`
and `action_logs` are unchanged; `menu_items` keeps its rows in place, each with
its id, remote id, name and category, and a row whose remote id is not that of a
resolved row is unchanged in every field. -/
theorem apply_frame (v : Bool) (env : Env) (ing : String) (w : World) :
    (applyAvailability v env ing w).2 =
      (if v then restoreIngredientToMenu env ing w else removeIngredientFromMenu env ing w).2 ∧
    (applyAvailability v env ing w).2.db.ingredients = w.db.ingredients ∧
    (applyAvailability v env ing w).2.db.item_ingredients = w.db.item_ingredients ∧
    (applyAvailability v env ing w).2.db.action_logs = w.db.action_logs ∧
    List.Forall₂
      (fun m m2 =>
        m2.id = m.id ∧ m2.uber_item_id = m.uber_item_id ∧ m2.name = m.name ∧
          m2.item_type = m.item_type ∧
          (m.uber_item_id ∉ (selectByIngredient w.db ing).map (fun r => r.uber_item_id) →
            m2 = m))
      w.db.menu_items (applyAvailability v env ing w).2.db.menu_items := by
  refine ⟨by cases v <;> simp [applyAvailability], ?_⟩
  rcases applyAvailability_world v env ing w with h | h
  · rw [h]
    refine ⟨rfl, rfl, rfl, ?_⟩
    exact List.forall₂_same.2 fun m _ => ⟨rfl, rfl, rfl, rfl, fun _ => rfl⟩
  · rw [h]
    refine ⟨rfl, rfl, rfl, ?_⟩
    simp only [worldAfter]
    rw [List.forall₂_map_right_iff]
    refine List.forall₂_same.2 fun m _ => ?_
    obtain ⟨h1, h2, h3, h4⟩ := stamp_fields v env (selectByIngredient w.db ing) 0 m
    exact ⟨h1, h2, h3, h4, fun hn => stamp_of_not_resolved v env _ 0 m hn⟩

/-- C24, as stated, fails: in the store of the pearls example with the link between
the drink and `pearls` stored twice, `removeIngredientFromMenu("pearls")` sends two
gateway calls for the drink and lists its name twice in `drinks`. -/
theorem double_link_processed_twice :
    (removeIngredientFromMenu envAllOk "pearls" { db := doubleLinkStore, events := [] }).1 =
      .ok { drinks := ["Pearl Milk Tea", "Pearl Milk Tea"], toppings := ["Pearls"] } ∧
    gatewayCalls
      (removeIngredientFromMenu envAllOk "pearls"
        { db := doubleLinkStore, events := [] }).2.events =
      [("drink_pearl_milk_tea_001", false), ("drink_pearl_milk_tea_001", false),
       ("topping_pearls_001", false)] :=
  ⟨rfl, by decide⟩

/-- C24, amended. The apply operations (`v = false` remove, `v = true` restore) do
not deduplicate: when the resolution answers with at least one row they send
exactly one gateway call per resolved row, in resolution order, and each row
contributes at most one bucket entry (the buckets are the names of the rows whose
iteration succeeded, a sublist of the resolved rows); so an item is processed at
most once exactly when it is resolved by one row only: if the resolved rows have
pairwise different remote ids, no item receives two gateway calls. -/
theorem one_call_per_resolved_row (v : Bool) (env : Env) (ing : String) (w : World)
    (hsel : env.selectOk = true) (hres : selectByIngredient w.db ing ≠ []) :
    ∃ (b : ItemNames) (w1 : World),
      (if v then restoreIngredientToMenu env ing w else removeIngredientFromMenu env ing w) =
        (.ok b, w1) ∧
      gatewayCalls w1.events =
        gatewayCalls w.events ++
          (selectByIngredient w.db ing).map (fun r => (r.uber_item_id, v)) ∧
      b.drinks = drinkNames (succeeded env (selectByIngredient w.db ing) 0) ∧
      b.toppings = toppingNames (succeeded env (selectByIngredient w.db ing) 0) ∧
      (succeeded env (selectByIngredient w.db ing) 0).Sublist (selectByIngredient w.db ing) ∧
      b.drinks.length + b.toppings.length ≤ (selectByIngredient w.db ing).length ∧
      (((selectByIngredient w.db ing).map (fun r => r.uber_item_id)).Nodup →
        (((selectByIngredient w.db ing).map (fun r => (r.uber_item_id, v))).map
          Prod.fst).Nodup) := by
  have hop := applyAvailability_ok v env ing w hsel hres
  refine ⟨_, _, hop, ?_, rfl, rfl, succeeded_sublist env _ 0, ?_, ?_⟩
  · simp only [worldAfter, gatewayCalls_loop]
  · simp only [bucketsAfter]
    have h1 := names_length (succeeded env (selectByIngredient w.db ing) 0)
    have h2 := (succeeded_sublist env (selectByIngredient w.db ing) 0).length_le
    omega
  · intro hn
    simpa [List.map_map, Function.comp] using hn

/-- C24 amended, at the store of the pearls example, where each item is linked
once. -/
theorem one_call_per_resolved_row_witness :
    envAllOk.selectOk = true ∧ selectByIngredient pearlStore "pearls" ≠ [] ∧
    ∃ (b : ItemNames) (w1 : World),
      removeIngredientFromMenu envAllOk "pearls" { db := pearlStore, events := [] } =
        (.ok b, w1) ∧
      gatewayCalls w1.events =
        [("drink_pearl_milk_tea_001", false), ("topping_pearls_001", false)] := by
  refine ⟨rfl, by decide, ?_⟩
  obtain ⟨b, w1, h1, h2, _⟩ :=
    one_call_per_resolved_row false envAllOk "pearls" { db := pearlStore, events := [] }
      rfl (by decide)
  refine ⟨b, w1, h1, ?_⟩
  rw [h2]
  decide

/-! ## Read-only operations and the audit log -/

theorem StatusOp.run_world (env : Env) (op : StatusOp) (w : World) : (op.run env w).2 = w := by
  cases op <;> rfl

theorem runSteps_eq_runOps (steps : List Step) (w : World) :
    runSteps steps w = runOps (applySteps steps) w := by
  induction steps generalizing w with
  | nil => rfl
  | cons step rest ih =>
    have hcons : runSteps (step :: rest) w = runSteps rest (step.run w) := rfl
    rw [hcons, ih]
    cases step with
    | apply op => rfl
    | status env op =>
      have hw : (Step.status env op).run w = w := StatusOp.run_world env op w
      rw [hw]
      rfl
    | sync fetch =>
      have hw : (Step.sync fetch).run w = w := by
        cases fetch <;> rfl
      rw [hw]
      rfl

/-- C21. The status operations `getIngredientStatus`, `getOverallMenuStatus`,
`getAvailableIngredients` and `getMenuItems` are read-only: run in any world, each
leaves the trace of gateway calls and the four tables, `action_logs` included, as
they were; what it returns does not depend on the trace; and status operations
placed anywhere in a sequence of operations do not change the world the sequence
ends in. -/
theorem status_operations_read_only (env : Env) (op : StatusOp) (w : World) :
    (op.run env w).2.events = w.events ∧
    (op.run env w).2.db.menu_items = w.db.menu_items ∧
    (op.run env w).2.db.ingredients = w.db.ingredients ∧
    (op.run env w).2.db.item_ingredients = w.db.item_ingredients ∧
    (op.run env w).2.db.action_logs = w.db.action_logs ∧
    (∀ steps : List Step, runSteps steps w = runOps (applySteps steps) w) := by
  rw [StatusOp.run_world]
  exact ⟨rfl, rfl, rfl, rfl, rfl, fun steps => runSteps_eq_runOps steps w⟩

/-- One step appends at most one row to `action_logs` and changes no row of
it. -/
theorem Step.run_logs (step : Step) (w : World) :
    ∃ rows : List ActionLog,
      (step.run w).db.action_logs = w.db.action_logs ++ rows ∧ rows.length ≤ 1 := by
  cases step with
  | apply op =>
    simp only [Step.run]
    rcases Op.run_cases op w with e | ⟨v, env, rows, e | ⟨row, e⟩⟩
    · exact ⟨[], by rw [e]; simp, by simp⟩
    · exact ⟨[], by rw [e]; simp [worldAfter], by simp⟩
    · exact ⟨[row], by rw [e]; simp [worldAfter, World.appendLog], by simp⟩
  | status env op =>
    simp only [Step.run, StatusOp.run_world]
    exact ⟨[], by simp, by simp⟩
  | sync fetch =>
    have hw : (syncMenuFromUberEats fetch w).2 = w := by
      cases fetch <;> rfl
    simp only [Step.run, hw]
    exact ⟨[], by simp, by simp⟩

/-- C22. The audit log is append-only: after any operation of the manager (an
apply operation called directly or through its route, a status operation, the
menu sync), run in any world, `action_logs` is the log before followed by zero or
one new row; hence after any sequence of operations the log before is kept,
unchanged and in order, as the beginning of the log after. -/
theorem audit_log_append_only (w : World) :
    (∀ step : Step, ∃ rows : List ActionLog,
      (step.run w).db.action_logs = w.db.action_logs ++ rows ∧ rows.length ≤ 1) ∧
    (∀ steps : List Step, ∃ rows : List ActionLog,
      (runSteps steps w).db.action_logs = w.db.action_logs ++ rows ∧
        rows.length ≤ steps.length) := by
  refine ⟨fun step => Step.run_logs step w, ?_⟩
  intro steps
  induction steps generalizing w with
  | nil => exact ⟨[], by simp [runSteps], by simp⟩
  | cons step rest ih =>
    obtain ⟨r1, h1, l1⟩ := Step.run_logs step w
    obtain ⟨r2, h2, l2⟩ := ih (step.run w)
    refine ⟨r1 ++ r2, ?_, ?_⟩
    · simp only [runSteps, List.foldl_cons] at h2 ⊢
      rw [h2, h1, List.append_assoc]
    · simp only [List.length_append, List.length_cons]
      omega

/-! ## Provisioning -/

/-- C23 fails on the code: `setupDatabase` run on a new database stores 23 links,
all different, but run again over its own output it stores every link a second
time, because `INSERT OR IGNORE` has no constraint on `item_ingredients` to
ignore on: the table then holds 46 rows, the pair (1, 1) twice, while ingredients
and menu items, whose tables have a UNIQUE column, are not repeated. -/
theorem setup_twice_repeats_links :
    (setupDatabase "t0" emptyStore).item_ingredients.length = 23 ∧
    (setupDatabase "t0" emptyStore).item_ingredients.Nodup ∧
    (setupDatabase "t1" (setupDatabase "t0" emptyStore)).item_ingredients.length = 46 ∧
    (setupDatabase "t1" (setupDatabase "t0" emptyStore)).item_ingredients.count
      { menu_item_id := 1, ingredient_id := 1 } = 2 ∧
    ¬ (setupDatabase "t1" (setupDatabase "t0" emptyStore)).item_ingredients.Nodup ∧
    (setupDatabase "t1" (setupDatabase "t0" emptyStore)).ingredients =
      (setupDatabase "t0" emptyStore).ingredients ∧
    (setupDatabase "t1" (setupDatabase "t0" emptyStore)).menu_items =
      (setupDatabase "t0" emptyStore).menu_items := by
  decide

/-! ## Chat front end -/

theorem splitSpaces_ne_nil (l : List Char) : splitSpaces l ≠ [] := by
  induction l with
  | nil => simp [splitSpaces]
  | cons c cs ih =>
    unfold splitSpaces
    split_ifs
    · exact ih
    · simp
    · split <;> simp

theorem splitComma_ne_nil (l : List Char) : splitComma l ≠ [] := by
  induction l with
  | nil => simp [splitComma]
  | cons c cs ih =>
    unfold splitComma
    split_ifs
    · simp
    · split <;> simp

/-- A word without a space in front of a text joins the first piece of the
text. -/
theorem splitSpaces_word (w rest : List Char) (hw : ' ' ∉ w) :
    splitSpaces (w ++ rest) =
      (w ++ (splitSpaces rest).headD []) :: (splitSpaces rest).tail := by
  induction w with
  | nil =>
    cases h : splitSpaces rest with
    | nil => exact absurd h (splitSpaces_ne_nil rest)
    | cons a as => simp [h]
  | cons c cs ih =>
    have hc : c ≠ ' ' := fun e => hw (by simp [e])
    have hcs : ' ' ∉ cs := fun e => hw (List.mem_cons_of_mem _ e)
    have h1 : splitSpaces (c :: (cs ++ rest)) =
        match splitSpaces (cs ++ rest) with
        | [] => [[c]]
        | w :: r => (c :: w) :: r := by
      rw [splitSpaces, if_neg hc]
    rw [List.cons_append, h1, ih hcs]
    rfl

/-- A run of spaces in front of a text that does not start with a space cuts
there. -/
theorem splitSpaces_gap (n : Nat) (rest : List Char) (hr : rest.head? ≠ some ' ') :
    splitSpaces (List.replicate (n + 1) ' ' ++ rest) = [] :: splitSpaces rest := by
  induction n with
  | zero =>
    have : List.replicate (0 + 1) ' ' ++ rest = ' ' :: rest := rfl
    rw [this, splitSpaces, if_pos rfl, if_neg hr]
  | succ k ih =>
    have e : List.replicate (k + 1 + 1) ' ' ++ rest =
        ' ' :: (List.replicate (k + 1) ' ' ++ rest) := rfl
    have hh : (List.replicate (k + 1) ' ' ++ rest).head? = some ' ' := rfl
    rw [e, splitSpaces, if_pos rfl, if_pos hh, ih]

theorem joinWords_head (w0 : List Char) (ws : List (Nat × List Char)) (h1 : w0 ≠ [])
    (h2 : ' ' ∉ w0) : (joinWords w0 ws).head? ≠ some ' ' := by
  cases w0 with
  | nil => exact absurd rfl h1
  | cons c cs =>
    intro h
    simp only [joinWords, List.cons_append, List.head?_cons, Option.some.injEq] at h
    exact h2 (by simp [h])

/-- The pieces of a command word followed by words are the command word and the
words. -/
theorem splitSpaces_joinWords (w0 : List Char) (ws : List (Nat × List Char))
    (hw0 : ' ' ∉ w0) (hws : ∀ p ∈ ws, p.2 ≠ [] ∧ ' ' ∉ p.2) :
    splitSpaces (joinWords w0 ws) = w0 :: ws.map fun p => p.2 := by
  induction ws generalizing w0 with
  | nil =>
    have := splitSpaces_word w0 [] hw0
    simpa [joinWords, splitSpaces] using this
  | cons p rest ih =>
    obtain ⟨hp1, hp2⟩ := hws p (List.mem_cons_self _ _)
    have hrest : ∀ q ∈ rest, q.2 ≠ [] ∧ ' ' ∉ q.2 :=
      fun q hq => hws q (List.mem_cons_of_mem _ hq)
    have e : joinWords w0 (p :: rest) =
        w0 ++ (List.replicate (p.1 + 1) ' ' ++ joinWords p.2 rest) := by
      simp [joinWords, List.append_assoc]
    rw [e, splitSpaces_word _ _ hw0,
      splitSpaces_gap p.1 _ (joinWords_head p.2 rest hp1 hp2), ih p.2 hp2 hrest]
    simp

/-- C25. Command parsing of the chat bot, with `toLowerCase` the lower-casing of
the JavaScript engine.  When the text after the one-character prefix, trimmed, is
a command word followed by words, each after a run of one or more spaces, the
command is the lower-cased command word; for `86` and for `restore` with at least
one word the request posted to `/api/86`, respectively `/api/restore`, carries as
ingredient the words joined by single spaces and lower-cased and as user the
author's username; with no word an error is shown and no request is sent; and a
command word that is none of `86`, `restore`, `status`, `menu`, `help` gets the
unknown-command error and no request. -/
theorem command_parsing (toLowerCase : String → String) (message : Message)
    (w0 : List Char) (ws : List (Nat × List Char))
    (hw0 : ' ' ∉ w0) (hws : ∀ p ∈ ws, p.2 ≠ [] ∧ ' ' ∉ p.2)
    (htext : trimChars (message.content.data.drop 1) = joinWords w0 ws) :
    (toLowerCase (String.mk w0) = "86" →
      (ws ≠ [] →
        handleCommand toLowerCase message =
          .post "/api/86"
            (toLowerCase (" ".intercalate (ws.map fun p => String.mk p.2)))
            message.authorUsername) ∧
      (ws = [] →
        handleCommand toLowerCase message =
          .errorEmbed "Please specify an ingredient to 86.\nExample: `!86 tapioca`")) ∧
    (toLowerCase (String.mk w0) = "restore" →
      (ws ≠ [] →
        handleCommand toLowerCase message =
          .post "/api/restore"
            (toLowerCase (" ".intercalate (ws.map fun p => String.mk p.2)))
            message.authorUsername) ∧
      (ws = [] →
        handleCommand toLowerCase message =
          .errorEmbed
            "Please specify an ingredient to restore.\nExample: `!restore tapioca`")) ∧
    (toLowerCase (String.mk w0) ∉ ["86", "restore", "status", "menu", "help"] →
      handleCommand toLowerCase message =
        .errorEmbed "Unknown command. Use `!help` to see available commands.") := by
  have hsplit := splitSpaces_joinWords w0 ws hw0 hws
  have hargs : (splitSpaces (trimChars (message.content.data.drop 1))).map String.mk =
      String.mk w0 :: ws.map fun p => String.mk p.2 := by
    rw [htext, hsplit]
    simp [List.map_map, Function.comp]
  refine ⟨?_, ?_, ?_⟩
  · intro hc
    constructor
    · intro hne
      have hl : ¬ (ws.map fun p => String.mk p.2).length = 0 := by
        simpa using hne
      simp only [handleCommand, hargs, List.headD_cons, List.tail_cons, hc, if_true,
        handle86Command, hl, if_false]
    · intro he
      subst he
      simp only [handleCommand, hargs, List.headD_cons, List.tail_cons, hc, if_true,
        handle86Command, List.map_nil, List.length_nil]
  · intro hc
    have h86 : ¬ toLowerCase (String.mk w0) = "86" := by
      rw [hc]; decide
    have hlit : ¬ ("restore" : String) = "86" := by decide
    constructor
    · intro hne
      have hl : ¬ (ws.map fun p => String.mk p.2).length = 0 := by
        simpa using hne
      simp only [handleCommand, hargs, List.headD_cons, List.tail_cons, hc, hlit, if_false,
        if_true, handleRestoreCommand, hl]
    · intro he
      subst he
      simp only [handleCommand, hargs, List.headD_cons, List.tail_cons, hc, hlit, if_false,
        if_true, handleRestoreCommand, List.map_nil, List.length_nil]
  · intro hn
    simp only [List.mem_cons, List.mem_singleton, List.not_mem_nil, or_false, not_or] at hn
    obtain ⟨h1, h2, h3, h4, h5⟩ := hn
    simp only [handleCommand, hargs, List.headD_cons, h1, h2, h3, h4, h5, if_false]

/-- C25, for the message `! 86   Popping BOBA ` with the lower-casing of the ASCII
letters. -/
theorem command_parsing_witness :
    trimChars ((sampleMessage "! 86   Popping BOBA ").content.data.drop 1) =
      joinWords "86".data [(2, "Popping".data), (0, "BOBA".data)] ∧
    handleCommand LOWER (sampleMessage "! 86   Popping BOBA ") =
      .post "/api/86" "popping boba" "al" := by
  have h := (command_parsing LOWER (sampleMessage "! 86   Popping BOBA ") "86".data
    [(2, "Popping".data), (0, "BOBA".data)] (by decide) (by decide) (by decide)).1
    (by decide)
  exact ⟨by decide, (h.1 (by decide)).trans (by decide)⟩

/-- C26, as stated, fails: with `ALLOWED_CHANNELS` set to the empty string a
message of a user that starts with the prefix is not passed to `handleCommand`,
whatever its channel (the value splits into the single entry `""`), while with
the variable unset it is passed. -/
theorem empty_allowed_channels_blocks :
    allowedChannels (some "") = [""] ∧
    messageCreate (some "") (sampleMessage "!help") = false ∧
    messageCreate none (sampleMessage "!help") = true := by
  decide

/-- C26, amended. A received message is passed to `handleCommand` if and only if
its author is not a bot, its content starts with `!`, and either
`ALLOWED_CHANNELS` is unset or the channel id of the message is one of the
comma-separated pieces of its value; a value that is set is never without a
piece, so the empty string admits no channel with a non-empty id. -/
theorem message_gating (allowed : Option String) (message : Message) :
    (messageCreate allowed message = true ↔
      message.authorBot = false ∧ message.content.data.head? = some '!' ∧
        (allowed = none ∨
          ∃ v, allowed = some v ∧
            message.channelId ∈ (splitComma v.data).map String.mk)) ∧
    (∀ v, allowed = some v → allowedChannels allowed ≠ []) := by
  constructor
  · cases allowed with
    | none =>
      by_cases hb : message.authorBot = true
      · simp [messageCreate, hb]
      · by_cases hp : message.content.data.head? = some '!'
        · simp [messageCreate, hb, hp, allowedChannels]
        · simp [messageCreate, hb, hp]
    | some v =>
      have hne : (splitComma v.data).map String.mk ≠ [] := by
        simpa using splitComma_ne_nil v.data
      have hlen : 0 < ((splitComma v.data).map String.mk).length :=
        List.length_pos.2 hne
      by_cases hb : message.authorBot = true
      · simp [messageCreate, hb]
      · by_cases hp : message.content.data.head? = some '!'
        · have hb2 : message.authorBot = false := by simpa using hb
          by_cases hm : message.channelId ∈ (splitComma v.data).map String.mk
          · have hc : ((splitComma v.data).map String.mk).contains message.channelId = true :=
              List.elem_eq_true_of_mem hm
            have hval : messageCreate (some v) message = true := by
              simp only [messageCreate, hb2, hp, allowedChannels, hc]
              simp
            rw [hval]
            exact ⟨fun _ => ⟨hb2, hp, Or.inr ⟨v, rfl, hm⟩⟩, fun _ => rfl⟩
          · have hc : ((splitComma v.data).map String.mk).contains message.channelId =
                false := by
              rw [Bool.eq_false_iff]
              exact fun h => hm (List.mem_of_elem_eq_true h)
            have hval : messageCreate (some v) message = false := by
              have hlen2 : 0 < (splitComma v.data).length := by simpa using hlen
              simp only [messageCreate, hb2, hp, allowedChannels, hc]
              simp [hlen2]
            rw [hval]
            constructor
            · intro h; cases h
            · rintro ⟨_, _, h | ⟨v2, hv2, hm2⟩⟩
              · cases h
              · cases hv2
                exact absurd hm2 hm
        · simp [messageCreate, hb, hp]
  · intro v hv
    subst hv
    simpa [allowedChannels] using splitComma_ne_nil v.data

end Menu
